import Mathlib

/-!
# pmconfigd/PrivateLib.c : the AppleSMC key-access client

A shallow embedding of the SMC part of `PrivateLib.c` (`callSMCFunction`,
`_smcReadKey`, `_smcWriteKey` and the four exported helpers) and of the
wake-event arbiter `_pm_scheduledevent_choose_best_wake_event`, together
with theorems about them.

* Machine integers are natural numbers; the few places where the C code
  narrows a value carry an explicit `%`.
* The kernel (IOKit and the controller behind it) is an arbitrary
  deterministic state machine `IOKit σ`; every theorem that does not name a
  particular kernel holds for all of them.
* A `World` pairs the kernel state with a trace.  The trace records, in
  program order, every entry into `callSMCFunction`, every IOKit call it
  makes, and every iteration of the two copy loops of `_smcReadKey` and
  `_smcWriteKey` with the array indices it uses, so that statements such as
  "no exchange is issued" or "no access leaves the 32-byte array" are
  statements about the trace.
-/

namespace PrivateLib

/-! ## Constants

The `kIOReturn...` status codes and `IO_OBJECT_NULL` come from the system
headers `IOKit/IOReturn.h` and `IOKit/IOTypes.h`, with their values there
(`iokit_common_err(x)` is `0xe0000000 + x`); the `kSMC...` constants are the
enums of lines 1522-1540.  A four-character constant is packed first
character most significant, as the compilers of this platform do. -/

/-- `kIOReturnSuccess` of `IOKit/IOReturn.h`. -/
def kIOReturnSuccess : Nat := 0
/-- `kIOReturnError`, `iokit_common_err(0x2bc)`. -/
def kIOReturnError : Nat := 0xe00002bc
/-- `kIOReturnInternalError`, `iokit_common_err(0x2c9)`. -/
def kIOReturnInternalError : Nat := 0xe00002c9
/-- `kIOReturnNotReadable`, `iokit_common_err(0x2ce)`. -/
def kIOReturnNotReadable : Nat := 0xe00002ce
/-- `kIOReturnCannotWire`, `iokit_common_err(0x2de)`. -/
def kIOReturnCannotWire : Nat := 0xe00002de
/-- `kIOReturnNotFound`, `iokit_common_err(0x2f0)`. -/
def kIOReturnNotFound : Nat := 0xe00002f0
/-- `IO_OBJECT_NULL`, the null mach port name. -/
def IO_OBJECT_NULL : Nat := 0

/-- `kSMCKeyNotFound = 0x84` (line 1523). -/
def kSMCKeyNotFound : Nat := 0x84
/-- `kSMCSuccess = 0` (line 1528). -/
def kSMCSuccess : Nat := 0
/-- `kSMCError = 1` (line 1529). -/
def kSMCError : Nat := 1

def kSMCUserClientOpen : Nat := 0
def kSMCUserClientClose : Nat := 1
def kSMCHandleYPCEvent : Nat := 2
def kSMCReadKey : Nat := 5
def kSMCWriteKey : Nat := 6
def kSMCGetKeyCount : Nat := 7
def kSMCGetKeyFromIndex : Nat := 8
def kSMCGetKeyInfo : Nat := 9

/-- A four-character constant such as `'ACID'`: the first character is the
most significant byte. -/
def fourCC (a b c d : Char) : Nat :=
  ((a.toNat * 256 + b.toNat) * 256 + c.toNat) * 256 + d.toNat

/-- The key `'ACID'` (adapter identity), exempt from byte swapping. -/
def ACID : Nat := fourCC 'A' 'C' 'I' 'D'
/-- The key `'CLWK'` (wake timer). -/
def CLWK : Nat := fourCC 'C' 'L' 'W' 'K'

/-! ## The parameter block (lines 1542-1580) -/

structure SMCVersion where
  major : Nat
  minor : Nat
  build : Nat
  reserved : Nat
  release : Nat
  deriving DecidableEq, Repr

structure SMCPLimitData where
  version : Nat
  length : Nat
  cpuPLimit : Nat
  gpuPLimit : Nat
  memPLimit : Nat
  deriving DecidableEq, Repr

structure SMCKeyInfoData where
  dataSize : Nat
  dataType : Nat
  dataAttributes : Nat
  deriving DecidableEq, Repr

/-- `SMCParamStruct`; `bytes` stands for `uint8_t bytes[32]`. -/
structure SMCParamStruct where
  key : Nat
  vers : SMCVersion
  pLimitData : SMCPLimitData
  keyInfo : SMCKeyInfoData
  result : Nat
  status : Nat
  data8 : Nat
  data32 : Nat
  bytes : List Nat
  deriving DecidableEq, Repr

/-- The block after `bzero(&s, sizeof(SMCParamStruct))`. -/
def SMCParamStruct.zero : SMCParamStruct :=
  { key := 0
    vers := { major := 0, minor := 0, build := 0, reserved := 0, release := 0 }
    pLimitData := { version := 0, length := 0, cpuPLimit := 0, gpuPLimit := 0, memPLimit := 0 }
    keyInfo := { dataSize := 0, dataType := 0, dataAttributes := 0 }
    result := 0
    status := 0
    data8 := 0
    data32 := 0
    bytes := List.replicate 32 0 }

/-! ## The kernel and the trace -/

/-- What the program can observe of IOKit: each call maps the kernel state
to the values the call hands back and the next kernel state. -/
structure IOKit (σ : Type) where
  /-- `IOServiceGetMatchingService(kIOMasterPortDefault, IOServiceMatching("AppleSMC"))`:
  the service, `IO_OBJECT_NULL` when there is none. -/
  getMatchingService : σ → Nat × σ
  /-- `IOServiceOpen(service, mach_task_self(), 1, &connect)`: the status and
  the value left in `connect`. -/
  serviceOpen : Nat → σ → (Nat × Nat) × σ
  /-- `IOConnectCallMethod(connect, selector, NULL, 0, ...)`: the status. -/
  connectCallMethod : Nat → Nat → σ → Nat × σ
  /-- `IOConnectCallStructMethod(connect, selector, in, size, out, &size)`:
  given the input block and the present content of the output block, the
  status and the new content of the output block. -/
  connectCallStructMethod : Nat → Nat → SMCParamStruct → SMCParamStruct → σ →
    (Nat × SMCParamStruct) × σ
  /-- `IOServiceClose(connect)`: the status. -/
  serviceClose : Nat → σ → Nat × σ

/-- One entry of the trace. -/
inductive Event where
  /-- Entry into `callSMCFunction(which, inputValues, _)`. -/
  | callSMCFunction (which : Nat) (inputValues : SMCParamStruct)
  | IOServiceGetMatchingService (service : Nat)
  | IOServiceOpen (service result connect : Nat)
  | IOConnectCallMethod (connect selector result : Nat)
  | IOConnectCallStructMethod (connect selector : Nat) (input : SMCParamStruct)
      (result : Nat) (output : SMCParamStruct)
  | IOServiceClose (connect : Nat)
  /-- `IOObjectRelease(object)`, the call that gives back an object
  reference such as the one `IOServiceGetMatchingService` returns (used at
  line 1874 of the file). -/
  | IOObjectRelease (object : Nat)
  /-- One iteration of the loop of `_smcReadKey` (lines 1697-1707), the
  assignment `outBuf[outBufIndex] = stuffMeOut.bytes[bytesIndex]`. -/
  | readCopy (bytesIndex outBufIndex : Nat)
  /-- One iteration of the loop of `_smcWriteKey` (lines 1628-1630), the
  assignment `stuffMeIn.bytes[bytesIndex] = outBuf[outBufIndex]`. -/
  | writeCopy (outBufIndex bytesIndex : Nat)
  deriving DecidableEq, Repr

structure World (σ : Type) where
  kernel : σ
  trace : List Event

def World.record {σ : Type} (w : World σ) (e : Event) : World σ :=
  { w with trace := w.trace ++ [e] }

/-- The world `w` with the events `es` added to its trace. -/
def World.log {σ : Type} (w : World σ) (es : List Event) : World σ :=
  { w with trace := w.trace ++ es }

def IOServiceGetMatchingService {σ : Type} (k : IOKit σ) (w : World σ) : Nat × World σ :=
  let r := k.getMatchingService w.kernel
  (r.1, { kernel := r.2, trace := w.trace ++ [Event.IOServiceGetMatchingService r.1] })

def IOServiceOpen {σ : Type} (k : IOKit σ) (service : Nat) (w : World σ) :
    (Nat × Nat) × World σ :=
  let r := k.serviceOpen service w.kernel
  (r.1, { kernel := r.2, trace := w.trace ++ [Event.IOServiceOpen service r.1.1 r.1.2] })

def IOConnectCallMethod {σ : Type} (k : IOKit σ) (connect selector : Nat) (w : World σ) :
    Nat × World σ :=
  let r := k.connectCallMethod connect selector w.kernel
  (r.1, { kernel := r.2, trace := w.trace ++ [Event.IOConnectCallMethod connect selector r.1] })

def IOConnectCallStructMethod {σ : Type} (k : IOKit σ) (connect selector : Nat)
    (input output : SMCParamStruct) (w : World σ) : (Nat × SMCParamStruct) × World σ :=
  let r := k.connectCallStructMethod connect selector input output w.kernel
  (r.1, { kernel := r.2,
          trace := w.trace ++ [Event.IOConnectCallStructMethod connect selector input r.1.1 r.1.2] })

def IOServiceClose {σ : Type} (k : IOKit σ) (connect : Nat) (w : World σ) : Nat × World σ :=
  let r := k.serviceClose connect w.kernel
  (r.1, { kernel := r.2, trace := w.trace ++ [Event.IOServiceClose connect] })

/-! ## callSMCFunction (lines 1712-1757) -/

/-- The code at the label `exit:` of `callSMCFunction` (lines 1749-1756). -/
def callSMCFunction.exit {σ : Type} (k : IOKit σ) (_SMCConnect result : Nat)
    (outputValues : SMCParamStruct) (w : World σ) : (Nat × SMCParamStruct) × World σ :=
  if IO_OBJECT_NULL ≠ _SMCConnect then
    let c := IOConnectCallMethod k _SMCConnect kSMCUserClientClose w
    let d := IOServiceClose k _SMCConnect c.2
    ((result, outputValues), d.2)
  else
    ((result, outputValues), w)

/-- `callSMCFunction(which, inputValues, outputValues)`: the returned status
and the content of `*outputValues` afterwards. -/
def callSMCFunction {σ : Type} (k : IOKit σ) (which : Nat)
    (inputValues outputValues : SMCParamStruct) (w : World σ) :
    (Nat × SMCParamStruct) × World σ :=
  let w := w.record (Event.callSMCFunction which inputValues)
  let s := IOServiceGetMatchingService k w
  let smc := s.1
  if IO_OBJECT_NULL = smc then
    ((kIOReturnNotFound, outputValues), s.2)
  else
    let o := IOServiceOpen k smc s.2
    let result := o.1.1
    let _SMCConnect := o.1.2
    if result ≠ kIOReturnSuccess ∨ IO_OBJECT_NULL = _SMCConnect then
      callSMCFunction.exit k IO_OBJECT_NULL result outputValues o.2
    else
      let u := IOConnectCallMethod k _SMCConnect kSMCUserClientOpen o.2
      let result := u.1
      if result ≠ kIOReturnSuccess then
        callSMCFunction.exit k _SMCConnect result outputValues u.2
      else
        let c := IOConnectCallStructMethod k _SMCConnect which inputValues outputValues u.2
        callSMCFunction.exit k _SMCConnect c.1.1 c.1.2 c.2

/-! ## Buffers -/

/-- `bzero(buf, n)` on a caller buffer: the first `n` bytes become zero. -/
def bzero (buf : List Nat) (n : Nat) : List Nat :=
  (buf.take n).map (fun _ => 0) ++ buf.drop n

/-- The loop `for (i = 0; i < n; i++) dst[i] = src(i);`. -/
def copyLoop (n : Nat) (src : Nat → Nat) (dst : List Nat) : List Nat :=
  (List.range n).foldl (fun d i => d.set i (src i)) dst

/-- The index into `stuffMeOut.bytes` that iteration `i` of the loop of
`_smcReadKey` reads (lines 1699-1706), `outBufMax` being the clipped
length. -/
def readIndex (key outBufMax i : Nat) : Nat :=
  if ACID = key then i else outBufMax - (i + 1)

/-- `a[i]` for an array held in a list.  For `i` past the end the C read
leaves the array and its value depends on what lies behind it in memory;
the value 0 given here stands for that byte, and statements are made about
bytes inside the array only.  Whether a loop leaves the array is read off its
copy events in the trace. -/
def byteAt (a : List Nat) (i : Nat) : Nat := a.getD i 0

/-- The loop `for (i = 0; i < n; i++) dst[i] = src[index i];` with its
accesses: iteration `i` stores `src[index i]` at `dst[i]` and adds the event
`event (index i) i`.  A store past the end of `dst` leaves the list as it
is. -/
def copyLoopLogged (event : Nat → Nat → Event) (n : Nat) (index : Nat → Nat)
    (src dst : List Nat) : List Nat × List Event :=
  (List.range n).foldl
    (fun s i => (s.1.set i (byteAt src (index i)), s.2 ++ [event (index i) i])) (dst, [])

/-! ## _smcWriteKey (lines 1589-1642) -/

/-- `_smcWriteKey(key, outBuf, outBufMax)`; `outBuf = none` is the null
pointer.  Returns the status. -/
def _smcWriteKey {σ : Type} (k : IOKit σ) (key : Nat) (outBuf : Option (List Nat))
    (outBufMax : Nat) (w : World σ) : Nat × World σ :=
  if key = 0 then
    (kIOReturnCannotWire, w)
  else
    let stuffMeIn := SMCParamStruct.zero
    let stuffMeOut := SMCParamStruct.zero
    -- Determine key's data size
    let stuffMeIn := { stuffMeIn with data8 := kSMCGetKeyInfo }
    let stuffMeIn := { stuffMeIn with key := key }
    let r := callSMCFunction k kSMCHandleYPCEvent stuffMeIn stuffMeOut w
    let ret := r.1.1
    let stuffMeOut := r.1.2
    if kIOReturnSuccess ≠ ret then
      (ret, r.2)
    else if stuffMeOut.result = kSMCKeyNotFound then
      (kIOReturnNotFound, r.2)
    else if stuffMeOut.result ≠ kSMCSuccess then
      (kIOReturnInternalError, r.2)
    else
      -- Write Key
      let stuffMeIn := { stuffMeIn with data8 := kSMCWriteKey }
      let stuffMeIn := { stuffMeIn with key := key }
      let stuffMeIn := { stuffMeIn with
        keyInfo := { stuffMeIn.keyInfo with dataSize := stuffMeOut.keyInfo.dataSize } }
      let copied : SMCParamStruct × List Event :=
        match outBuf with
        | some buf =>
          let outBufMax := if outBufMax > 32 then 32 else outBufMax
          let c := copyLoopLogged Event.writeCopy outBufMax (fun i => i) buf
            stuffMeIn.bytes
          ({ stuffMeIn with bytes := c.1 }, c.2)
        | none => (stuffMeIn, [])
      let stuffMeIn := copied.1
      let stuffMeOut := SMCParamStruct.zero
      let r := callSMCFunction k kSMCHandleYPCEvent stuffMeIn stuffMeOut (r.2.log copied.2)
      let ret := r.1.1
      let stuffMeOut := r.1.2
      if stuffMeOut.result ≠ kSMCSuccess then
        (kIOReturnInternalError, r.2)
      else
        (ret, r.2)

/-! ## _smcReadKey (lines 1644-1710) -/

/-- What `_smcReadKey` leaves behind: the status, the caller's buffer, the
value of `*outBufMax` (a `uint8_t`), and the world. -/
structure ReadKey (σ : Type) where
  ret : Nat
  outBuf : Option (List Nat)
  outBufMax : Nat
  world : World σ

/-- `_smcReadKey(key, outBuf, &outBufMax)`; `outBuf = none` is the null
pointer. -/
def _smcReadKey {σ : Type} (k : IOKit σ) (key : Nat) (outBuf : Option (List Nat))
    (outBufMax : Nat) (w : World σ) : ReadKey σ :=
  match outBuf with
  | none => { ret := kIOReturnCannotWire, outBuf := none, outBufMax := outBufMax, world := w }
  | some buf =>
    if key = 0 then
      { ret := kIOReturnCannotWire, outBuf := some buf, outBufMax := outBufMax, world := w }
    else
      -- Determine key's data size
      let buf := bzero buf outBufMax
      let stuffMeIn := SMCParamStruct.zero
      let stuffMeOut := SMCParamStruct.zero
      let stuffMeIn := { stuffMeIn with data8 := kSMCGetKeyInfo }
      let stuffMeIn := { stuffMeIn with key := key }
      let r := callSMCFunction k kSMCHandleYPCEvent stuffMeIn stuffMeOut w
      let ret := r.1.1
      let stuffMeOut := r.1.2
      if kIOReturnSuccess ≠ ret then
        { ret := ret, outBuf := some buf, outBufMax := outBufMax, world := r.2 }
      else if stuffMeOut.result = kSMCKeyNotFound then
        { ret := kIOReturnNotFound, outBuf := some buf, outBufMax := outBufMax, world := r.2 }
      else if stuffMeOut.result ≠ kSMCSuccess then
        { ret := kIOReturnInternalError, outBuf := some buf, outBufMax := outBufMax,
          world := r.2 }
      else
        -- Get Key Value
        let stuffMeIn := { stuffMeIn with data8 := kSMCReadKey }
        let stuffMeIn := { stuffMeIn with key := key }
        let stuffMeIn := { stuffMeIn with
          keyInfo := { stuffMeIn.keyInfo with dataSize := stuffMeOut.keyInfo.dataSize } }
        let stuffMeOut := SMCParamStruct.zero
        let r := callSMCFunction k kSMCHandleYPCEvent stuffMeIn stuffMeOut r.2
        let ret := r.1.1
        let stuffMeOut := r.1.2
        if stuffMeOut.result = kSMCKeyNotFound then
          { ret := kIOReturnNotFound, outBuf := some buf, outBufMax := outBufMax, world := r.2 }
        else if stuffMeOut.result ≠ kSMCSuccess then
          { ret := kIOReturnInternalError, outBuf := some buf, outBufMax := outBufMax,
            world := r.2 }
        else
          let outBufMax :=
            if outBufMax > stuffMeIn.keyInfo.dataSize then stuffMeIn.keyInfo.dataSize % 256
            else outBufMax
          -- Byte-swap data returning from the SMC, except at key 'ACID'
          let c := copyLoopLogged Event.readCopy outBufMax
            (readIndex key outBufMax) stuffMeOut.bytes buf
          { ret := ret, outBuf := some c.1, outBufMax := outBufMax, world := r.2.log c.2 }

/-! ## The exported helpers (lines 1444-1514)

`TARGET_OS_EMBEDDED` is the build-time flag of the `#if`.  The helpers that
hand an integer variable to `_smcReadKey` as a byte buffer are given for a
little-endian host. -/

/-- The `width` bytes of an integer variable, least significant first. -/
def toBytesLE : Nat → Nat → List Nat
  | 0, _ => []
  | width + 1, v => v % 256 :: toBytesLE width (v / 256)

/-- The integer held in a variable whose bytes are `bs`, least significant
first. -/
def ofBytesLE : List Nat → Nat
  | [] => 0
  | b :: bs => b + 256 * ofBytesLE bs

/-- `_getSystemManagementKeyInt32(key, val)`: the status and `*val`
afterwards; `val = none` is the null pointer. -/
def _getSystemManagementKeyInt32 {σ : Type} (TARGET_OS_EMBEDDED : Bool) (k : IOKit σ)
    (key : Nat) (val : Option Nat) (w : World σ) : (Nat × Option Nat) × World σ :=
  if !TARGET_OS_EMBEDDED then
    let readKeyLen := 4
    let r := _smcReadKey k key (val.map (toBytesLE 4)) readKeyLen w
    ((r.ret, r.outBuf.map ofBytesLE), r.world)
  else
    ((kIOReturnNotReadable, val), w)

/-- `_getACAdapterInfo(val)`: the status and `*val` afterwards. -/
def _getACAdapterInfo {σ : Type} (TARGET_OS_EMBEDDED : Bool) (k : IOKit σ)
    (val : Option Nat) (w : World σ) : (Nat × Option Nat) × World σ :=
  if !TARGET_OS_EMBEDDED then
    let readKeyLen := 8
    let r := _smcReadKey k ACID (val.map (toBytesLE 8)) readKeyLen w
    ((r.ret, r.outBuf.map ofBytesLE), r.world)
  else
    ((kIOReturnNotReadable, val), w)

/-- `_smcWakeTimerPrimer()`: the status. -/
def _smcWakeTimerPrimer {σ : Type} (TARGET_OS_EMBEDDED : Bool) (k : IOKit σ)
    (w : World σ) : Nat × World σ :=
  if !TARGET_OS_EMBEDDED then
    let buf := [0, 0]
    let buf := buf.set 0 0
    let buf := buf.set 1 1
    _smcWriteKey k CLWK (some buf) 2 w
  else
    (kIOReturnNotReadable, w)

/-- `_smcWakeTimerGetResults(mSec)`: the status and `*mSec` afterwards.
`mSec` is the value of `*mSec` before the call; `buf0` and `buf1` are the
indeterminate initial bytes of the local `buf[2]`. -/
def _smcWakeTimerGetResults {σ : Type} (TARGET_OS_EMBEDDED : Bool) (k : IOKit σ)
    (buf0 buf1 : Nat) (mSec : Nat) (w : World σ) : (Nat × Nat) × World σ :=
  if !TARGET_OS_EMBEDDED then
    let size := 2
    let buf := [buf0, buf1]
    let r := _smcReadKey k CLWK (some buf) size w
    let ret := r.ret
    let buf := r.outBuf.getD buf
    if kIOReturnSuccess = ret then
      ((ret, (byteAt buf 0 ||| (byteAt buf 1 <<< 8)) % 65536), r.world)
    else
      ((ret, mSec), r.world)
  else
    ((kIOReturnNotReadable, mSec), w)

/-! ## Vocabulary of the statements -/

/-- The request of the probe phase (lines 1659-1662, 1602-1607). -/
def probeRequest (key : Nat) : SMCParamStruct :=
  { SMCParamStruct.zero with data8 := kSMCGetKeyInfo, key := key }

/-- The request of the read phase for negotiated size `n` (lines 1678-1680). -/
def readRequest (key n : Nat) : SMCParamStruct :=
  { SMCParamStruct.zero with
    data8 := kSMCReadKey, key := key
    keyInfo := { dataSize := n, dataType := 0, dataAttributes := 0 } }

/-- A write request for negotiated size `n` carrying `payload` as its
`bytes` array. -/
def writeRequest (key n : Nat) (payload : List Nat) : SMCParamStruct :=
  { SMCParamStruct.zero with
    data8 := kSMCWriteKey, key := key
    keyInfo := { dataSize := n, dataType := 0, dataAttributes := 0 }
    bytes := payload }

/-- `payload` padded with zeros to the 32 bytes of the `bytes` array. -/
def pad32 (payload : List Nat) : List Nat :=
  payload ++ List.replicate (32 - payload.length) 0

/-- The length `_smcReadKey` reports for requested length `maxLen` and
negotiated size `n` (lines 1691-1692). -/
def clipped (maxLen n : Nat) : Nat := if maxLen > n then n % 256 else maxLen

/-- The `bytes` array of the write request `_smcWriteKey` builds from the
caller's arguments (lines 1626-1631), starting from the zeroed block. -/
def writePayload (outBuf : Option (List Nat)) (outBufMax : Nat) : List Nat :=
  match outBuf with
  | some buf => copyLoop (if outBufMax > 32 then 32 else outBufMax) (byteAt buf)
      (List.replicate 32 0)
  | none => List.replicate 32 0

/-- The exchange a key access starts with: `callSMCFunction` on the probe
request, the output block zeroed. -/
def probe {σ : Type} (k : IOKit σ) (key : Nat) (w : World σ) :
    (Nat × SMCParamStruct) × World σ :=
  callSMCFunction k kSMCHandleYPCEvent (probeRequest key) SMCParamStruct.zero w

/-- The exchange `callSMCFunction(kSMCHandleYPCEvent, request, zeroed output)`. -/
def exchange {σ : Type} (k : IOKit σ) (request : SMCParamStruct) (w : World σ) :
    (Nat × SMCParamStruct) × World σ :=
  callSMCFunction k kSMCHandleYPCEvent request SMCParamStruct.zero w

/-- The exchanges recorded in a trace: selector and request of every entry
into `callSMCFunction`, oldest first. -/
def exchanges : List Event → List (Nat × SMCParamStruct)
  | [] => []
  | Event.callSMCFunction which inputValues :: t => (which, inputValues) :: exchanges t
  | _ :: t => exchanges t

/-! ## Two kernels to run the code on -/

/-- A kernel that always finds the service, always grants the session and
answers the n-th struct call with the n-th entry of its script (status and
output block); past the end of the script the transport fails. -/
def scripted : IOKit (List (Nat × SMCParamStruct)) where
  getMatchingService s := (0x1003, s)
  serviceOpen _ s := ((kIOReturnSuccess, 0x2003), s)
  connectCallMethod _ _ s := (kIOReturnSuccess, s)
  connectCallStructMethod _ _ _ output s :=
    match s with
    | [] => ((kIOReturnError, output), [])
    | a :: rest => (a, rest)
  serviceClose _ s := (kIOReturnSuccess, s)

/-- The answer of a working controller to a probe: success and the size. -/
def sizeReply (n : Nat) : Nat × SMCParamStruct :=
  (kIOReturnSuccess,
   { SMCParamStruct.zero with keyInfo := { dataSize := n, dataType := 0, dataAttributes := 0 } })

/-- The answer of a working controller to a read: success and the payload. -/
def dataReply (payload : List Nat) : Nat × SMCParamStruct :=
  (kIOReturnSuccess, { SMCParamStruct.zero with bytes := pad32 payload })

/-- An answer that carries only a controller result code. -/
def resultReply (result : Nat) : Nat × SMCParamStruct :=
  (kIOReturnSuccess, { SMCParamStruct.zero with result := result })

/-- The keys of a mock controller: key, size, and the 32 stored bytes. -/
abbrev MockStore := List (Nat × Nat × List Nat)

/-- The stored entry of a key. -/
def MockStore.find (m : MockStore) (key : Nat) : Option (Nat × List Nat) :=
  match m with
  | [] => none
  | (k, e) :: rest => if k = key then some e else MockStore.find rest key

/-- Replace the stored bytes of a key. -/
def MockStore.store (m : MockStore) (key : Nat) (bytes : List Nat) : MockStore :=
  match m with
  | [] => []
  | (k, n, b) :: rest =>
    if k = key then (k, n, bytes) :: rest else (k, n, b) :: MockStore.store rest key bytes

/-- A mock controller that stores the payload bytes of a write and returns
them unchanged on a later read; an unknown key is answered `kSMCKeyNotFound`. -/
def mockSMC : IOKit MockStore where
  getMatchingService m := (0x1003, m)
  serviceOpen _ m := ((kIOReturnSuccess, 0x2003), m)
  connectCallMethod _ _ m := (kIOReturnSuccess, m)
  connectCallStructMethod _ _ input _ m :=
    match m.find input.key with
    | none => ((kIOReturnSuccess, { SMCParamStruct.zero with result := kSMCKeyNotFound }), m)
    | some (n, b) =>
      if input.data8 = kSMCGetKeyInfo then (sizeReply n, m)
      else if input.data8 = kSMCReadKey then
        ((kIOReturnSuccess, { SMCParamStruct.zero with bytes := b }), m)
      else if input.data8 = kSMCWriteKey then
        ((kIOReturnSuccess, SMCParamStruct.zero), m.store input.key input.bytes)
      else ((kIOReturnSuccess, { SMCParamStruct.zero with result := kSMCError }), m)
  serviceClose _ m := (kIOReturnSuccess, m)

/-- A fresh world: the given kernel state and an empty trace. -/
def World.init {σ : Type} (s : σ) : World σ := { kernel := s, trace := [] }

/-- A kernel with fixed answers: `service` for the service lookup,
`openStatus` and `connect` for `IOServiceOpen`, `userClientStatus` for the
`kSMCUserClientOpen` method, `structStatus` for every struct call, which
leaves the output block as it was. -/
def fixedKernel (service openStatus connect userClientStatus structStatus : Nat) :
    IOKit Unit where
  getMatchingService s := (service, s)
  serviceOpen _ s := ((openStatus, connect), s)
  connectCallMethod _ selector s :=
    (if selector = kSMCUserClientOpen then userClientStatus else kIOReturnSuccess, s)
  connectCallStructMethod _ _ _ output s := ((structStatus, output), s)
  serviceClose _ s := (kIOReturnSuccess, s)

/-! ## Counting on the trace -/

/-- An `IOServiceOpen` that established a session: success and a handle. -/
def isServiceOpen : Event → Bool
  | Event.IOServiceOpen _ result connect =>
    result == kIOReturnSuccess && connect != IO_OBJECT_NULL
  | _ => false

/-- An `IOServiceClose`. -/
def isServiceClose : Event → Bool
  | Event.IOServiceClose _ => true
  | _ => false

/-- A successful `kSMCUserClientOpen` method call. -/
def isUserClientOpen : Event → Bool
  | Event.IOConnectCallMethod _ selector result =>
    selector == kSMCUserClientOpen && result == kIOReturnSuccess
  | _ => false

/-- A `kSMCUserClientClose` method call. -/
def isUserClientClose : Event → Bool
  | Event.IOConnectCallMethod _ selector _ => selector == kSMCUserClientClose
  | _ => false

/-- A struct call, the exchange with the controller proper. -/
def isStructCall : Event → Bool
  | Event.IOConnectCallStructMethod _ _ _ _ _ => true
  | _ => false

/-- An `IOObjectRelease`. -/
def isRelease : Event → Bool
  | Event.IOObjectRelease _ => true
  | _ => false

/-- The number of sessions a trace shows being established. -/
def serviceOpens (t : List Event) : Nat := t.countP isServiceOpen
/-- The number of `IOServiceClose` calls in a trace. -/
def serviceCloses (t : List Event) : Nat := t.countP isServiceClose
/-- The number of successful user-client opens in a trace. -/
def userClientOpens (t : List Event) : Nat := t.countP isUserClientOpen
/-- The number of user-client closes in a trace. -/
def userClientCloses (t : List Event) : Nat := t.countP isUserClientClose
/-- The number of struct calls in a trace. -/
def structCalls (t : List Event) : Nat := t.countP isStructCall
/-- The number of `IOObjectRelease` calls in a trace. -/
def releases (t : List Event) : Nat := t.countP isRelease

/-! ## The copy events on the trace -/

/-- An iteration of one of the two copy loops. -/
def isCopy : Event → Bool
  | Event.readCopy _ _ => true
  | Event.writeCopy _ _ => true
  | _ => false

/-- The trace without the copy events: the entries into `callSMCFunction`
and the IOKit calls. -/
def ioCalls (t : List Event) : List Event := t.filter (fun e => !isCopy e)

/-- The copy events of the loop of `_smcReadKey` (lines 1697-1707) for
requested length `maxLen` and negotiated size `n`. -/
def readCopies (key maxLen n : Nat) : List Event :=
  (List.range (clipped maxLen n)).map
    (fun i => Event.readCopy (readIndex key (clipped maxLen n) i) i)

/-- The copy events of the loop of `_smcWriteKey` (lines 1626-1631). -/
def writeCopies (outBuf : Option (List Nat)) (outBufMax : Nat) : List Event :=
  match outBuf with
  | some _ => (List.range (if outBufMax > 32 then 32 else outBufMax)).map
      (fun i => Event.writeCopy i i)
  | none => []

/-! ## The wake-event arbiter (lines 1764-1850)

`CFAbsoluteTime` is a double, and the function only compares such values
with each other and with 0.  A value is modelled as `some t`, a number `t`
of a linearly ordered type with a zero (the two zeros of the format compare
equal and are one number here), or `none`, a NaN, on which every comparison
but `!=` is false. -/

/-- A `CFAbsoluteTime`: a number, or `none` for a NaN. -/
abbrev CFAbsoluteTime (T : Type) := Option T

/-- The comparison `x == 0`. -/
def timeIsZero {T : Type} [LinearOrder T] [Zero T] : CFAbsoluteTime T → Bool
  | some t => decide (t = 0)
  | none => false

/-- The comparison `x <= y`. -/
def timeLe {T : Type} [LinearOrder T] : CFAbsoluteTime T → CFAbsoluteTime T → Bool
  | some a, some b => decide (a ≤ b)
  | _, _ => false

/-- The comparison `x > y`. -/
def timeGt {T : Type} [LinearOrder T] : CFAbsoluteTime T → CFAbsoluteTime T → Bool
  | some a, some b => decide (a > b)
  | _, _ => false

/-- The selector constants `kChooseReset`, `kChooseMaintenance` and
`kChooseFullWake`.  They are declared in a header that is not among the
sources at hand, so their values are a parameter of the function. -/
structure ChooseSelectors where
  kChooseReset : Int
  kChooseMaintenance : Int
  kChooseFullWake : Int

/-- The two values `scheduleWakeType` takes:
`CFSTR(kIOPMAutoWakeScheduleImmediate)` and
`CFSTR(kIOPMMaintenanceScheduleImmediate)`. -/
inductive WakeType where
  | kIOPMAutoWakeScheduleImmediate
  | kIOPMMaintenanceScheduleImmediate
  deriving DecidableEq, Repr

/-- The four `static` variables of the function. -/
structure ChooseState (T : Type) where
  chosenMaintTime : CFAbsoluteTime T
  chosenWakeTime : CFAbsoluteTime T
  PMConnectionReported : Bool
  AutoWakeReported : Bool

/-- The statics as initialised (lines 1769-1773), which is also what a
reset leaves (lines 1783-1784). -/
def ChooseState.init {T : Type} [Zero T] : ChooseState T :=
  { chosenMaintTime := some 0, chosenWakeTime := some 0
    PMConnectionReported := false, AutoWakeReported := false }

/-- What the system answers during one call: whether `CFDateCreate` returns
a date, and the status `IOPMSchedulePowerEvent` returns. -/
structure PowerAnswers where
  dateCreated : Bool
  scheduleStatus : Nat

/-- The outcome of one call: the returned status, the statics afterwards,
and the `IOPMSchedulePowerEvent(date, NULL, type)` call made, if any, as the
wake type and the time of the date. -/
structure Chosen (T : Type) where
  ret : Nat
  state : ChooseState T
  scheduled : Option (WakeType × CFAbsoluteTime T)

/-- Lines 1781-1798 of `_pm_scheduledevent_choose_best_wake_event`: the
selector's update of the statics. -/
def _pm_scheduledevent_choose_best_wake_event.update {T : Type} [Zero T]
    (c : ChooseSelectors) (selector : Int) (chosenTime : CFAbsoluteTime T)
    (st : ChooseState T) : ChooseState T :=
  if c.kChooseReset = selector then
    { chosenMaintTime := some 0, chosenWakeTime := some 0
      PMConnectionReported := false, AutoWakeReported := false }
  else if c.kChooseMaintenance = selector then
    { st with PMConnectionReported := true, chosenMaintTime := chosenTime }
  else if c.kChooseFullWake = selector then
    { st with AutoWakeReported := true, chosenWakeTime := chosenTime }
  else st

/-- Lines 1802-1830 of `_pm_scheduledevent_choose_best_wake_event`, past the
two early exits: the values of `scheduleWakeType` (`none` for `NULL`) and
`scheduleTime`. -/
def _pm_scheduledevent_choose_best_wake_event.choice {T : Type} [LinearOrder T] [Zero T]
    (st : ChooseState T) : Option WakeType × CFAbsoluteTime T :=
  if timeIsZero st.chosenMaintTime
      || (!timeIsZero st.chosenWakeTime
          && timeLe st.chosenWakeTime st.chosenMaintTime) then
    -- Schedule the full wake.
    (some WakeType.kIOPMAutoWakeScheduleImmediate, st.chosenWakeTime)
  else if timeIsZero st.chosenWakeTime
      || (!timeIsZero st.chosenMaintTime
          && timeGt st.chosenWakeTime st.chosenMaintTime) then
    -- Schedule the maintenance wake.
    (some WakeType.kIOPMMaintenanceScheduleImmediate, st.chosenMaintTime)
  else (none, some 0)

/-- Lines 1800-1849 of `_pm_scheduledevent_choose_best_wake_event`: what is
done on the updated statics. -/
def _pm_scheduledevent_choose_best_wake_event.schedule {T : Type} [LinearOrder T] [Zero T]
    (answers : PowerAnswers) (st : ChooseState T) : Chosen T :=
  let ret := kIOReturnSuccess
  if !(st.PMConnectionReported && st.AutoWakeReported) then
    -- Wait for the other one to respond.
    { ret := kIOReturnSuccess, state := st, scheduled := none }
  else if timeIsZero st.chosenMaintTime && timeIsZero st.chosenWakeTime then
    -- nothing to schedule. bail.
    { ret := kIOReturnSuccess, state := st, scheduled := none }
  else
    let choice := _pm_scheduledevent_choose_best_wake_event.choice st
    match choice.1 with
    | some scheduleWakeType =>
      if !timeIsZero choice.2 then
        if answers.dateCreated then
          { ret := answers.scheduleStatus, state := st
            scheduled := some (scheduleWakeType, choice.2) }
        else { ret := ret, state := st, scheduled := none }
      else { ret := ret, state := st, scheduled := none }
    | none => { ret := ret, state := st, scheduled := none }

/-- `_pm_scheduledevent_choose_best_wake_event(selector, chosenTime)`. -/
def _pm_scheduledevent_choose_best_wake_event {T : Type} [LinearOrder T] [Zero T]
    (c : ChooseSelectors) (answers : PowerAnswers) (selector : Int)
    (chosenTime : CFAbsoluteTime T) (st : ChooseState T) : Chosen T :=
  _pm_scheduledevent_choose_best_wake_event.schedule answers
    (_pm_scheduledevent_choose_best_wake_event.update c selector chosenTime st)

/-- One call in a history: its arguments and what the system answers. -/
structure ChooseCall (T : Type) where
  selector : Int
  chosenTime : CFAbsoluteTime T
  answers : PowerAnswers

/-- The statics after a history of calls, oldest first. -/
def chooseRun {T : Type} [LinearOrder T] [Zero T] (c : ChooseSelectors)
    (calls : List (ChooseCall T)) (st : ChooseState T) : ChooseState T :=
  calls.foldl
    (fun st x =>
      (_pm_scheduledevent_choose_best_wake_event c x.answers x.selector x.chosenTime st).state)
    st

/-- The calls of a history made after its most recent `kChooseReset` call
(all of them when there is none), oldest first. -/
def sinceReset {T : Type} (c : ChooseSelectors) (calls : List (ChooseCall T)) :
    List (ChooseCall T) :=
  calls.foldl (fun acc x => if c.kChooseReset = x.selector then [] else acc ++ [x]) []

/-- The time the most recent call with the given selector carries, in a
list of calls, oldest first; `none` when the list holds no such call. -/
def lastReport {T : Type} (selector : Int) (calls : List (ChooseCall T)) :
    Option (CFAbsoluteTime T) :=
  calls.foldl (fun r x => if x.selector = selector then some x.chosenTime else r) none

/-! ## Lemmas on buffers -/

theorem bzero_length (buf : List Nat) (n : Nat) : (bzero buf n).length = buf.length := by
  simp only [bzero, List.length_append, List.length_map, List.length_take, List.length_drop]
  omega

theorem byteAt_bzero_lt (buf : List Nat) (n i : Nat) (h : i < n) : byteAt (bzero buf n) i = 0 := by
  unfold byteAt bzero
  by_cases hi : i < buf.length
  · rw [List.getD_eq_getElem?_getD, List.getElem?_append_left (by simp; omega)]
    simp [List.getElem?_map, List.getElem?_take, h, hi]
  · rw [List.getD_eq_default]
    simp; omega

theorem copyLoop_length (n : Nat) (src : Nat → Nat) (dst : List Nat) :
    (copyLoop n src dst).length = dst.length := by
  induction n with
  | zero => simp [copyLoop]
  | succ n ih =>
    simp only [copyLoop, List.range_succ, List.foldl_append, List.foldl_cons, List.foldl_nil,
      List.length_set] at ih ⊢
    exact ih

theorem copyLoop_eq (n : Nat) (src : Nat → Nat) (dst : List Nat) (h : n ≤ dst.length) :
    copyLoop n src dst = (List.range n).map src ++ dst.drop n := by
  induction n with
  | zero => simp [copyLoop]
  | succ n ih =>
    have ih := ih (by omega)
    simp only [copyLoop, List.range_succ, List.foldl_append, List.foldl_cons, List.foldl_nil,
      List.map_append, List.map_cons, List.map_nil] at ih ⊢
    rw [ih]
    have hn : n = ((List.range n).map src).length := by simp
    rw [List.set_append_right _ _ (by simp)]
    simp only [List.length_map, List.length_range, Nat.sub_self, List.append_assoc]
    congr 1
    rw [List.drop_eq_getElem_cons (by omega : n < dst.length)]
    rfl

theorem byteAt_copyLoop_lt (n : Nat) (src : Nat → Nat) (dst : List Nat) (h : n ≤ dst.length)
    (i : Nat) (hi : i < n) : byteAt (copyLoop n src dst) i = src i := by
  rw [copyLoop_eq n src dst h]
  unfold byteAt
  rw [List.getD_eq_getElem?_getD, List.getElem?_append_left (by simp; omega)]
  simp [List.getElem?_map, List.getElem?_range, hi]

/-- The logged loop stores what `copyLoop` stores and adds one event per
iteration, in order. -/
theorem copyLoopLogged_eq (event : Nat → Nat → Event) (n : Nat) (index : Nat → Nat)
    (src dst : List Nat) :
    copyLoopLogged event n index src dst =
      (copyLoop n (fun i => byteAt src (index i)) dst,
       (List.range n).map (fun i => event (index i) i)) := by
  induction n with
  | zero => rfl
  | succ n ih =>
    simp only [copyLoopLogged, copyLoop, List.range_succ, List.foldl_append, List.foldl_cons,
      List.foldl_nil, List.map_append, List.map_cons, List.map_nil] at ih ⊢
    rw [ih]

/-! ## Lemmas on the trace -/

theorem ioCalls_append (a b : List Event) : ioCalls (a ++ b) = ioCalls a ++ ioCalls b := by
  simp [ioCalls]

theorem ioCalls_readCopies (key maxLen n : Nat) : ioCalls (readCopies key maxLen n) = [] := by
  simp [ioCalls, readCopies, isCopy]

theorem ioCalls_writeCopies (outBuf : Option (List Nat)) (len : Nat) :
    ioCalls (writeCopies outBuf len) = [] := by
  cases outBuf <;> simp [ioCalls, writeCopies, isCopy]

/-- The copy events are no exchanges. -/
theorem exchanges_ioCalls (t : List Event) : exchanges (ioCalls t) = exchanges t := by
  induction t with
  | nil => rfl
  | cons e t ih =>
    cases e <;> simp [ioCalls, isCopy, exchanges] <;> exact ih

/-- A count that skips the copy events is a count on the IOKit calls. -/
theorem countP_ioCalls (p : Event → Bool) (hp : ∀ e, isCopy e = true → p e = false)
    (t : List Event) : (ioCalls t).countP p = t.countP p := by
  induction t with
  | nil => rfl
  | cons e t ih =>
    by_cases he : isCopy e = true
    · have h1 : ioCalls (e :: t) = ioCalls t := by simp [ioCalls, he]
      rw [h1, ih, List.countP_cons_of_neg]
      simp [hp e he]
    · have h1 : ioCalls (e :: t) = e :: ioCalls t := by simp [ioCalls, he]
      rw [h1, List.countP_cons, List.countP_cons, ih]

theorem structCalls_ioCalls (t : List Event) : structCalls (ioCalls t) = structCalls t :=
  countP_ioCalls _ (by intro e; cases e <;> simp [isCopy, isStructCall]) t

theorem serviceOpens_ioCalls (t : List Event) : serviceOpens (ioCalls t) = serviceOpens t :=
  countP_ioCalls _ (by intro e; cases e <;> simp [isCopy, isServiceOpen]) t

theorem serviceCloses_ioCalls (t : List Event) : serviceCloses (ioCalls t) = serviceCloses t :=
  countP_ioCalls _ (by intro e; cases e <;> simp [isCopy, isServiceClose]) t

theorem userClientOpens_ioCalls (t : List Event) :
    userClientOpens (ioCalls t) = userClientOpens t :=
  countP_ioCalls _ (by intro e; cases e <;> simp [isCopy, isUserClientOpen]) t

theorem userClientCloses_ioCalls (t : List Event) :
    userClientCloses (ioCalls t) = userClientCloses t :=
  countP_ioCalls _ (by intro e; cases e <;> simp [isCopy, isUserClientClose]) t

theorem releases_ioCalls (t : List Event) : releases (ioCalls t) = releases t :=
  countP_ioCalls _ (by intro e; cases e <;> simp [isCopy, isRelease]) t

/-- Events already in the trace change nothing in a run of
`callSMCFunction`: its results and the kernel it leaves are the same, and
the events it adds are the same. -/
theorem callSMCFunction_log {σ : Type} (k : IOKit σ) (which : Nat)
    (inputValues outputValues : SMCParamStruct) (w : World σ) (es : List Event) :
    (callSMCFunction k which inputValues outputValues (w.log es)).1 =
      (callSMCFunction k which inputValues outputValues w).1 ∧
    (callSMCFunction k which inputValues outputValues (w.log es)).2.kernel =
      (callSMCFunction k which inputValues outputValues w).2.kernel ∧
    ∃ evs, (callSMCFunction k which inputValues outputValues w).2.trace = w.trace ++ evs ∧
      (callSMCFunction k which inputValues outputValues (w.log es)).2.trace =
        w.trace ++ (es ++ evs) := by
  unfold callSMCFunction callSMCFunction.exit
  simp only [World.record, World.log, IOServiceGetMatchingService, IOServiceOpen,
    IOConnectCallMethod, IOConnectCallStructMethod, IOServiceClose]
  split_ifs <;> simp only [List.append_assoc] <;> exact ⟨trivial, trivial, _, rfl, rfl⟩


theorem exchanges_append (a b : List Event) : exchanges (a ++ b) = exchanges a ++ exchanges b := by
  induction a with
  | nil => rfl
  | cons e t ih => cases e <;> simp [exchanges, ih]

/-- Every run of `callSMCFunction` adds exactly one exchange to the trace:
its own selector and request. -/
theorem callSMCFunction_exchanges {σ : Type} (k : IOKit σ) (which : Nat)
    (inputValues outputValues : SMCParamStruct) (w : World σ) :
    exchanges (callSMCFunction k which inputValues outputValues w).2.trace =
      exchanges w.trace ++ [(which, inputValues)] := by
  unfold callSMCFunction callSMCFunction.exit
  simp only [World.record, IOServiceGetMatchingService, IOServiceOpen, IOConnectCallMethod,
    IOConnectCallStructMethod, IOServiceClose]
  split_ifs <;> simp [exchanges_append, exchanges]

theorem probe_exchanges {σ : Type} (k : IOKit σ) (key : Nat) (w : World σ) :
    exchanges (probe k key w).2.trace = exchanges w.trace ++ [(kSMCHandleYPCEvent, probeRequest key)] :=
  callSMCFunction_exchanges k _ _ _ w

theorem exchange_exchanges {σ : Type} (k : IOKit σ) (request : SMCParamStruct) (w : World σ) :
    exchanges (exchange k request w).2.trace = exchanges w.trace ++ [(kSMCHandleYPCEvent, request)] :=
  callSMCFunction_exchanges k _ _ _ w

theorem exchanges_log_readCopies {σ : Type} (w : World σ) (key maxLen n : Nat) :
    exchanges (w.log (readCopies key maxLen n)).trace = exchanges w.trace := by
  rw [← exchanges_ioCalls (w.log _).trace]
  simp only [World.log, ioCalls_append, ioCalls_readCopies, List.append_nil, exchanges_ioCalls]

theorem exchanges_log_writeCopies {σ : Type} (w : World σ) (outBuf : Option (List Nat))
    (len : Nat) : exchanges (w.log (writeCopies outBuf len)).trace = exchanges w.trace := by
  rw [← exchanges_ioCalls (w.log _).trace]
  simp only [World.log, ioCalls_append, ioCalls_writeCopies, List.append_nil, exchanges_ioCalls]

theorem ioCalls_log {σ : Type} (w : World σ) (es : List Event) (hes : ioCalls es = []) :
    ioCalls (w.log es).trace = ioCalls w.trace := by
  simp only [World.log, ioCalls_append, hes, List.append_nil]

/-- Copy events already in the trace do not change the IOKit calls an
exchange leaves in it. -/
theorem exchange_log_ioCalls {σ : Type} (k : IOKit σ) (request : SMCParamStruct)
    (w : World σ) (es : List Event) (hes : ioCalls es = []) :
    ioCalls (exchange k request (w.log es)).2.trace = ioCalls (exchange k request w).2.trace := by
  obtain ⟨_, _, evs, h1, h2⟩ :=
    callSMCFunction_log k kSMCHandleYPCEvent request SMCParamStruct.zero w es
  unfold exchange
  rw [h1, h2]
  simp only [ioCalls_append, hes, List.nil_append]

/-- The results of an exchange do not depend on the events already in the
trace. -/
theorem exchange_log {σ : Type} (k : IOKit σ) (request : SMCParamStruct) (w : World σ)
    (es : List Event) : (exchange k request (w.log es)).1 = (exchange k request w).1 :=
  (callSMCFunction_log k _ _ _ w es).1

/-! ## The paths through _smcReadKey and _smcWriteKey -/

theorem clipped_eq_min (maxLen n : Nat) (h : maxLen < 256) : clipped maxLen n = min n maxLen := by
  unfold clipped
  split_ifs with hc
  · rw [Nat.mod_eq_of_lt (by omega)]; omega
  · omega

/-- Failed probe, read side: the status is the transport status if that is
an error, else `kIOReturnNotFound` for result `0x84`, else
`kIOReturnInternalError`; nothing follows the probe. -/
theorem _smcReadKey_probe_failed {σ : Type} (k : IOKit σ) (key : Nat) (buf : List Nat)
    (maxLen : Nat) (w : World σ) (hkey : key ≠ 0)
    (h : (probe k key w).1.1 ≠ kIOReturnSuccess ∨ (probe k key w).1.2.result ≠ kSMCSuccess) :
    _smcReadKey k key (some buf) maxLen w =
      { ret := if (probe k key w).1.1 ≠ kIOReturnSuccess then (probe k key w).1.1
               else if (probe k key w).1.2.result = kSMCKeyNotFound then kIOReturnNotFound
               else kIOReturnInternalError
        outBuf := some (bzero buf maxLen)
        outBufMax := maxLen
        world := (probe k key w).2 } := by
  unfold _smcReadKey
  simp only [hkey, if_false]
  change (if kIOReturnSuccess ≠ (probe k key w).1.1 then _ else
    if (probe k key w).1.2.result = kSMCKeyNotFound then _ else
    if (probe k key w).1.2.result ≠ kSMCSuccess then _ else _) = _
  by_cases h1 : (probe k key w).1.1 = kIOReturnSuccess
  · have h2 : (probe k key w).1.2.result ≠ kSMCSuccess := by
      rcases h with h | h
      · exact absurd h1 h
      · exact h
    by_cases h3 : (probe k key w).1.2.result = kSMCKeyNotFound
    · rw [if_neg (by simp [h1]), if_pos h3, if_neg (by simp [h1]), if_pos h3]
      rfl
    · rw [if_neg (by simp [h1]), if_neg h3, if_pos h2, if_neg (by simp [h1]), if_neg h3]
      rfl
  · have h1b : kIOReturnSuccess ≠ (probe k key w).1.1 := fun e => h1 e.symm
    rw [if_pos h1b, if_pos h1]
    rfl

/-- Successful probe, read side: the read exchange follows, and the outcome
is decided by its controller result. -/
theorem _smcReadKey_probe_ok {σ : Type} (k : IOKit σ) (key : Nat) (buf : List Nat)
    (maxLen : Nat) (w : World σ) (hkey : key ≠ 0)
    (h1 : (probe k key w).1.1 = kIOReturnSuccess)
    (h2 : (probe k key w).1.2.result = kSMCSuccess) :
    _smcReadKey k key (some buf) maxLen w =
      (let n := (probe k key w).1.2.keyInfo.dataSize
       let x := exchange k (readRequest key n) (probe k key w).2
       if x.1.2.result = kSMCKeyNotFound then
         { ret := kIOReturnNotFound, outBuf := some (bzero buf maxLen), outBufMax := maxLen,
           world := x.2 }
       else if x.1.2.result ≠ kSMCSuccess then
         { ret := kIOReturnInternalError, outBuf := some (bzero buf maxLen),
           outBufMax := maxLen, world := x.2 }
       else
         { ret := x.1.1
           outBuf := some (copyLoop (clipped maxLen n)
             (fun i => byteAt x.1.2.bytes (readIndex key (clipped maxLen n) i))
             (bzero buf maxLen))
           outBufMax := clipped maxLen n
           world := x.2.log (readCopies key maxLen n) }) := by
  have h2b : ¬ (probe k key w).1.2.result = kSMCKeyNotFound := by
    rw [h2]; decide
  unfold _smcReadKey
  simp only [hkey, if_false, copyLoopLogged_eq]
  change (if kIOReturnSuccess ≠ (probe k key w).1.1 then _ else
    if (probe k key w).1.2.result = kSMCKeyNotFound then _ else
    if (probe k key w).1.2.result ≠ kSMCSuccess then _ else _) = _
  rw [if_neg (by simp [h1]), if_neg h2b, if_neg (by simp [h2])]
  rfl

/-- Failed probe, write side. -/
theorem _smcWriteKey_probe_failed {σ : Type} (k : IOKit σ) (key : Nat)
    (outBuf : Option (List Nat)) (len : Nat) (w : World σ) (hkey : key ≠ 0)
    (h : (probe k key w).1.1 ≠ kIOReturnSuccess ∨ (probe k key w).1.2.result ≠ kSMCSuccess) :
    _smcWriteKey k key outBuf len w =
      (if (probe k key w).1.1 ≠ kIOReturnSuccess then (probe k key w).1.1
       else if (probe k key w).1.2.result = kSMCKeyNotFound then kIOReturnNotFound
       else kIOReturnInternalError,
       (probe k key w).2) := by
  unfold _smcWriteKey
  simp only [hkey, if_false]
  change (if kIOReturnSuccess ≠ (probe k key w).1.1 then _ else
    if (probe k key w).1.2.result = kSMCKeyNotFound then _ else
    if (probe k key w).1.2.result ≠ kSMCSuccess then _ else _) = _
  by_cases h1 : (probe k key w).1.1 = kIOReturnSuccess
  · have h2 : (probe k key w).1.2.result ≠ kSMCSuccess := by
      rcases h with h | h
      · exact absurd h1 h
      · exact h
    by_cases h3 : (probe k key w).1.2.result = kSMCKeyNotFound
    · rw [if_neg (by simp [h1]), if_pos h3, if_neg (by simp [h1]), if_pos h3]
      rfl
    · rw [if_neg (by simp [h1]), if_neg h3, if_pos h2, if_neg (by simp [h1]), if_neg h3]
      rfl
  · have h1b : kIOReturnSuccess ≠ (probe k key w).1.1 := fun e => h1 e.symm
    rw [if_pos h1b, if_pos h1]
    rfl

/-- Successful probe, write side: the write exchange follows, carrying the
negotiated size and the payload built from the caller's buffer. -/
theorem _smcWriteKey_probe_ok {σ : Type} (k : IOKit σ) (key : Nat)
    (outBuf : Option (List Nat)) (len : Nat) (w : World σ) (hkey : key ≠ 0)
    (h1 : (probe k key w).1.1 = kIOReturnSuccess)
    (h2 : (probe k key w).1.2.result = kSMCSuccess) :
    _smcWriteKey k key outBuf len w =
      (let n := (probe k key w).1.2.keyInfo.dataSize
       let x := exchange k (writeRequest key n (writePayload outBuf len))
         ((probe k key w).2.log (writeCopies outBuf len))
       if x.1.2.result ≠ kSMCSuccess then (kIOReturnInternalError, x.2) else (x.1.1, x.2)) := by
  have h2b : ¬ (probe k key w).1.2.result = kSMCKeyNotFound := by
    rw [h2]; decide
  unfold _smcWriteKey
  simp only [hkey, if_false, copyLoopLogged_eq]
  change (if kIOReturnSuccess ≠ (probe k key w).1.1 then _ else
    if (probe k key w).1.2.result = kSMCKeyNotFound then _ else
    if (probe k key w).1.2.result ≠ kSMCSuccess then _ else _) = _
  rw [if_neg (by simp [h1]), if_neg h2b, if_neg (by simp [h2])]
  cases outBuf <;> rfl

/-- The payload of a write request when the caller's buffer holds at least
`len` bytes: its first `min len 32` bytes, then zeros. -/
theorem writePayload_some (buf : List Nat) (len : Nat) (h : len ≤ buf.length) :
    writePayload (some buf) len = pad32 (buf.take (min len 32)) := by
  have hm : (if len > 32 then 32 else len) = min len 32 := by
    split_ifs <;> omega
  simp only [writePayload, hm]
  rw [copyLoop_eq _ _ _ (by simp)]
  have hl : (buf.take (min len 32)).length = min len 32 := by
    rw [List.length_take]; omega
  unfold pad32
  rw [hl]
  congr 1
  · apply List.ext_getElem
    · simp [hl]
    · intro i h1 h2
      simp only [List.length_map, List.length_range] at h1
      simp only [List.getElem_map, List.getElem_range, List.getElem_take, byteAt]
      rw [List.getD_eq_getElem?_getD, List.getElem?_eq_getElem (by omega)]
      rfl
  · rw [List.drop_replicate]

/-! ## The claims -/

/-- C1: for a non-zero key, a probe-reported size `N` in 0..32 and a
requested length `maxLen` in 0..64, when the probe and the read exchange both
succeed, `_smcReadKey` returns success and reports the output length
`min N maxLen`. -/
theorem C1_readKey_length {σ : Type} (k : IOKit σ) (key N maxLen : Nat) (buf : List Nat)
    (w : World σ) (hkey : key ≠ 0) (_hN : N ≤ 32) (hmax : maxLen ≤ 64)
    (hp : (probe k key w).1.1 = kIOReturnSuccess)
    (hr : (probe k key w).1.2.result = kSMCSuccess)
    (hsize : (probe k key w).1.2.keyInfo.dataSize = N)
    (hx : (exchange k (readRequest key N) (probe k key w).2).1.1 = kIOReturnSuccess)
    (hxr : (exchange k (readRequest key N) (probe k key w).2).1.2.result = kSMCSuccess) :
    (_smcReadKey k key (some buf) maxLen w).ret = kIOReturnSuccess ∧
    (_smcReadKey k key (some buf) maxLen w).outBufMax = min N maxLen := by
  have hnf : ¬ (exchange k (readRequest key N) (probe k key w).2).1.2.result = kSMCKeyNotFound := by
    rw [hxr]; decide
  rw [_smcReadKey_probe_ok k key buf maxLen w hkey hp hr]
  simp only [hsize]
  rw [if_neg hnf, if_neg (by simp [hxr])]
  exact ⟨hx, clipped_eq_min maxLen N (by omega)⟩

/-- C1, run on the scripted kernel: key `CLWK`, size 2, requested length 4. -/
theorem C1_readKey_length_witness :
    (_smcReadKey scripted CLWK (some [7, 7, 7, 7]) 4
        (World.init [sizeReply 2, dataReply [0x10, 0]])).ret = kIOReturnSuccess ∧
    (_smcReadKey scripted CLWK (some [7, 7, 7, 7]) 4
        (World.init [sizeReply 2, dataReply [0x10, 0]])).outBufMax = min 2 4 :=
  C1_readKey_length scripted CLWK 2 4 [7, 7, 7, 7] (World.init [sizeReply 2, dataReply [0x10, 0]])
    (by decide) (by decide) (by decide) rfl rfl rfl rfl rfl

/-- C2: `_smcReadKey` with key 0 or with a null buffer, and `_smcWriteKey`
with key 0, return `kIOReturnCannotWire` (which is not success) whatever the
other arguments are, and leave the world as it was: the trace gains no entry,
so `callSMCFunction` is not entered and no IOKit call is made; the buffer and
the length are untouched. -/
theorem C2_invalid_argument {σ : Type} (k : IOKit σ) (w : World σ) :
    (∀ outBuf maxLen, _smcReadKey k 0 outBuf maxLen w =
      { ret := kIOReturnCannotWire, outBuf := outBuf, outBufMax := maxLen, world := w }) ∧
    (∀ key maxLen, _smcReadKey k key none maxLen w =
      { ret := kIOReturnCannotWire, outBuf := none, outBufMax := maxLen, world := w }) ∧
    (∀ outBuf len, _smcWriteKey k 0 outBuf len w = (kIOReturnCannotWire, w)) ∧
    kIOReturnCannotWire ≠ kIOReturnSuccess := by
  refine ⟨?_, ?_, ?_, by decide⟩
  · intro outBuf maxLen
    cases outBuf <;> simp [_smcReadKey]
  · intro key maxLen
    simp [_smcReadKey]
  · intro outBuf len
    simp [_smcWriteKey]

/-- C3: for a non-zero key, if the probe exchange completes and the
controller reports `kSMCKeyNotFound` (0x84), `_smcReadKey` and `_smcWriteKey`
both return `kIOReturnNotFound`, the world they leave is the world right
after the probe, and the call has added exactly one exchange to the trace,
the probe. -/
theorem C3_probe_not_found {σ : Type} (k : IOKit σ) (key : Nat) (buf : List Nat) (maxLen : Nat)
    (outBuf : Option (List Nat)) (len : Nat) (w : World σ) (hkey : key ≠ 0)
    (hp : (probe k key w).1.1 = kIOReturnSuccess)
    (hr : (probe k key w).1.2.result = kSMCKeyNotFound) :
    ((_smcReadKey k key (some buf) maxLen w).ret = kIOReturnNotFound ∧
     (_smcReadKey k key (some buf) maxLen w).world = (probe k key w).2 ∧
     exchanges (_smcReadKey k key (some buf) maxLen w).world.trace =
       exchanges w.trace ++ [(kSMCHandleYPCEvent, probeRequest key)]) ∧
    ((_smcWriteKey k key outBuf len w).1 = kIOReturnNotFound ∧
     (_smcWriteKey k key outBuf len w).2 = (probe k key w).2 ∧
     exchanges (_smcWriteKey k key outBuf len w).2.trace =
       exchanges w.trace ++ [(kSMCHandleYPCEvent, probeRequest key)]) := by
  have hf : (probe k key w).1.1 ≠ kIOReturnSuccess ∨ (probe k key w).1.2.result ≠ kSMCSuccess := by
    right; rw [hr]; decide
  rw [_smcReadKey_probe_failed k key buf maxLen w hkey hf,
    _smcWriteKey_probe_failed k key outBuf len w hkey hf]
  simp only [probe_exchanges, hp, hr, ne_eq, not_true_eq_false, if_false, if_true, and_self]

/-- C3, run on the mock controller, which does not know key 5. -/
theorem C3_probe_not_found_witness :
    ((_smcReadKey mockSMC 5 (some [7, 7]) 2 (World.init [(CLWK, 2, pad32 [])])).ret
        = kIOReturnNotFound ∧
     (_smcReadKey mockSMC 5 (some [7, 7]) 2 (World.init [(CLWK, 2, pad32 [])])).world
        = (probe mockSMC 5 (World.init [(CLWK, 2, pad32 [])])).2 ∧
     exchanges (_smcReadKey mockSMC 5 (some [7, 7]) 2
        (World.init [(CLWK, 2, pad32 [])])).world.trace =
       exchanges (World.init [(CLWK, 2, pad32 [])] : World MockStore).trace
         ++ [(kSMCHandleYPCEvent, probeRequest 5)]) ∧
    ((_smcWriteKey mockSMC 5 (some [0, 1]) 2 (World.init [(CLWK, 2, pad32 [])])).1
        = kIOReturnNotFound ∧
     (_smcWriteKey mockSMC 5 (some [0, 1]) 2 (World.init [(CLWK, 2, pad32 [])])).2
        = (probe mockSMC 5 (World.init [(CLWK, 2, pad32 [])])).2 ∧
     exchanges (_smcWriteKey mockSMC 5 (some [0, 1]) 2
        (World.init [(CLWK, 2, pad32 [])])).2.trace =
       exchanges (World.init [(CLWK, 2, pad32 [])] : World MockStore).trace
         ++ [(kSMCHandleYPCEvent, probeRequest 5)]) :=
  C3_probe_not_found mockSMC 5 [7, 7] 2 (some [0, 1]) 2 (World.init [(CLWK, 2, pad32 [])])
    (by decide) rfl rfl

/-- C4: for a non-zero key, if the probe exchange completes with a
controller result that is neither `kSMCSuccess` (0) nor `kSMCKeyNotFound`
(0x84), `_smcReadKey` and `_smcWriteKey` both return
`kIOReturnInternalError`. -/
theorem C4_probe_fault {σ : Type} (k : IOKit σ) (key : Nat) (buf : List Nat) (maxLen : Nat)
    (outBuf : Option (List Nat)) (len : Nat) (w : World σ) (hkey : key ≠ 0)
    (hp : (probe k key w).1.1 = kIOReturnSuccess)
    (hr0 : (probe k key w).1.2.result ≠ kSMCSuccess)
    (hr1 : (probe k key w).1.2.result ≠ kSMCKeyNotFound) :
    (_smcReadKey k key (some buf) maxLen w).ret = kIOReturnInternalError ∧
    (_smcWriteKey k key outBuf len w).1 = kIOReturnInternalError := by
  rw [_smcReadKey_probe_failed k key buf maxLen w hkey (Or.inr hr0),
    _smcWriteKey_probe_failed k key outBuf len w hkey (Or.inr hr0)]
  simp only [hp, hr1, ne_eq, not_true_eq_false, if_false, and_self]

/-- C4, run on the scripted kernel answering the probe with `kSMCError`. -/
theorem C4_probe_fault_witness :
    (_smcReadKey scripted CLWK (some [7, 7]) 2 (World.init [resultReply kSMCError])).ret
      = kIOReturnInternalError ∧
    (_smcWriteKey scripted CLWK (some [0, 1]) 2 (World.init [resultReply kSMCError])).1
      = kIOReturnInternalError :=
  C4_probe_fault scripted CLWK [7, 7] 2 (some [0, 1]) 2 (World.init [resultReply kSMCError])
    (by decide) rfl (by decide) (by decide)

/-- C5: fail-fast.  Whenever the probe fails (the transport status is not
success, or the controller result is not `kSMCSuccess`), `_smcReadKey` and
`_smcWriteKey` return a status other than success, the world they leave is
the world right after the probe, and the call has added exactly one exchange
to the trace, the probe: no `kSMCReadKey` or `kSMCWriteKey` request is
issued. -/
theorem C5_fail_fast {σ : Type} (k : IOKit σ) (key : Nat) (buf : List Nat) (maxLen : Nat)
    (outBuf : Option (List Nat)) (len : Nat) (w : World σ) (hkey : key ≠ 0)
    (hf : (probe k key w).1.1 ≠ kIOReturnSuccess ∨ (probe k key w).1.2.result ≠ kSMCSuccess) :
    ((_smcReadKey k key (some buf) maxLen w).ret ≠ kIOReturnSuccess ∧
     (_smcReadKey k key (some buf) maxLen w).world = (probe k key w).2 ∧
     exchanges (_smcReadKey k key (some buf) maxLen w).world.trace =
       exchanges w.trace ++ [(kSMCHandleYPCEvent, probeRequest key)]) ∧
    ((_smcWriteKey k key outBuf len w).1 ≠ kIOReturnSuccess ∧
     (_smcWriteKey k key outBuf len w).2 = (probe k key w).2 ∧
     exchanges (_smcWriteKey k key outBuf len w).2.trace =
       exchanges w.trace ++ [(kSMCHandleYPCEvent, probeRequest key)]) := by
  have hs : (if (probe k key w).1.1 ≠ kIOReturnSuccess then (probe k key w).1.1
      else if (probe k key w).1.2.result = kSMCKeyNotFound then kIOReturnNotFound
      else kIOReturnInternalError) ≠ kIOReturnSuccess := by
    split_ifs with h1 h2
    · exact h1
    · decide
    · decide
  rw [_smcReadKey_probe_failed k key buf maxLen w hkey hf,
    _smcWriteKey_probe_failed k key outBuf len w hkey hf]
  exact ⟨⟨hs, rfl, probe_exchanges k key w⟩, ⟨hs, rfl, probe_exchanges k key w⟩⟩

/-- C5, run on the scripted kernel with an empty script: the transport
fails at the probe. -/
theorem C5_fail_fast_witness :
    ((_smcReadKey scripted CLWK (some [7, 7]) 2 (World.init [])).ret ≠ kIOReturnSuccess ∧
     (_smcReadKey scripted CLWK (some [7, 7]) 2 (World.init [])).world
       = (probe scripted CLWK (World.init [])).2 ∧
     exchanges (_smcReadKey scripted CLWK (some [7, 7]) 2 (World.init [])).world.trace =
       exchanges (World.init [] : World (List (Nat × SMCParamStruct))).trace
         ++ [(kSMCHandleYPCEvent, probeRequest CLWK)]) ∧
    ((_smcWriteKey scripted CLWK (some [0, 1]) 2 (World.init [])).1 ≠ kIOReturnSuccess ∧
     (_smcWriteKey scripted CLWK (some [0, 1]) 2 (World.init [])).2
       = (probe scripted CLWK (World.init [])).2 ∧
     exchanges (_smcWriteKey scripted CLWK (some [0, 1]) 2 (World.init [])).2.trace =
       exchanges (World.init [] : World (List (Nat × SMCParamStruct))).trace
         ++ [(kSMCHandleYPCEvent, probeRequest CLWK)]) :=
  C5_fail_fast scripted CLWK [7, 7] 2 (some [0, 1]) 2 (World.init [])
    (by decide) (Or.inl (by decide))

/-- Successful read: the status, the reported length and the bytes handed
back, for a buffer that holds at least `maxLen` bytes. -/
theorem _smcReadKey_success {σ : Type} (k : IOKit σ) (key N maxLen : Nat) (buf : List Nat)
    (w : World σ) (hkey : key ≠ 0) (hmax : maxLen < 256) (hcap : maxLen ≤ buf.length)
    (hp : (probe k key w).1.1 = kIOReturnSuccess)
    (hr : (probe k key w).1.2.result = kSMCSuccess)
    (hsize : (probe k key w).1.2.keyInfo.dataSize = N)
    (hxr : (exchange k (readRequest key N) (probe k key w).2).1.2.result = kSMCSuccess) :
    _smcReadKey k key (some buf) maxLen w =
      { ret := (exchange k (readRequest key N) (probe k key w).2).1.1
        outBuf := some ((List.range (min N maxLen)).map
            (fun i => byteAt (exchange k (readRequest key N) (probe k key w).2).1.2.bytes
              (readIndex key (min N maxLen) i))
          ++ (bzero buf maxLen).drop (min N maxLen))
        outBufMax := min N maxLen
        world := (exchange k (readRequest key N) (probe k key w).2).2.log
          (readCopies key maxLen N) } := by
  have hnf : ¬ (exchange k (readRequest key N) (probe k key w).2).1.2.result = kSMCKeyNotFound := by
    rw [hxr]; decide
  rw [_smcReadKey_probe_ok k key buf maxLen w hkey hp hr]
  simp only [hsize]
  rw [if_neg hnf, if_neg (by simp [hxr]), clipped_eq_min maxLen N hmax,
    copyLoop_eq _ _ _ (by rw [bzero_length]; omega)]

/-- The bytes of a zeroed buffer past the copied part are zero. -/
theorem bzero_drop_eq (buf : List Nat) (maxLen L : Nat) (hL : L ≤ maxLen)
    (hcap : maxLen = buf.length) :
    (bzero buf maxLen).drop L = List.replicate (maxLen - L) 0 := by
  unfold bzero
  subst hcap
  simp only [List.take_length, List.drop_length, List.append_nil]
  have : List.map (fun _ => 0) buf = List.replicate buf.length 0 := by
    rw [List.eq_replicate_iff]
    simp
  rw [this, List.drop_replicate]

/-- C6 as amended: against a kernel whose read exchange returns the `bytes`
array of the preceding write request unchanged, for a key other than `ACID`
and 0, negotiated size `N` in 1..32 and a byte sequence `b` of length `N`, a
successful `_smcWriteKey(key, b, N)` followed by a successful
`_smcReadKey(key, N)` returns `b` in reverse order, with reported length `N`
(the write sends `b` as it is, the read reverses). -/
theorem C6_round_trip_reverses {σ : Type} (k : IOKit σ) (key N : Nat) (b buf : List Nat)
    (w : World σ) (hkey : key ≠ 0) (hacid : key ≠ ACID) (hN1 : 1 ≤ N) (hN : N ≤ 32)
    (hb : b.length = N) (hbuf : buf.length = N)
    (hp : (probe k key w).1.1 = kIOReturnSuccess)
    (hr : (probe k key w).1.2.result = kSMCSuccess)
    (hsize : (probe k key w).1.2.keyInfo.dataSize = N)
    (_hw : (_smcWriteKey k key (some b) N w).1 = kIOReturnSuccess)
    (hp2 : (probe k key (_smcWriteKey k key (some b) N w).2).1.1 = kIOReturnSuccess)
    (hr2 : (probe k key (_smcWriteKey k key (some b) N w).2).1.2.result = kSMCSuccess)
    (hsize2 : (probe k key (_smcWriteKey k key (some b) N w).2).1.2.keyInfo.dataSize = N)
    (hx : (exchange k (readRequest key N)
      (probe k key (_smcWriteKey k key (some b) N w).2).2).1.1 = kIOReturnSuccess)
    (hxr : (exchange k (readRequest key N)
      (probe k key (_smcWriteKey k key (some b) N w).2).2).1.2.result = kSMCSuccess)
    (hstored : (exchange k (readRequest key N)
      (probe k key (_smcWriteKey k key (some b) N w).2).2).1.2.bytes = pad32 b) :
    exchanges (_smcWriteKey k key (some b) N w).2.trace =
      exchanges w.trace ++ [(kSMCHandleYPCEvent, probeRequest key),
        (kSMCHandleYPCEvent, writeRequest key N (pad32 b))] ∧
    (_smcReadKey k key (some buf) N (_smcWriteKey k key (some b) N w).2).ret = kIOReturnSuccess ∧
    (_smcReadKey k key (some buf) N (_smcWriteKey k key (some b) N w).2).outBufMax = N ∧
    (_smcReadKey k key (some buf) N (_smcWriteKey k key (some b) N w).2).outBuf
      = some b.reverse := by
  have hacid2 : ¬ ACID = key := fun e => hacid e.symm
  refine ⟨?_, ?_⟩
  · rw [_smcWriteKey_probe_ok k key (some b) N w hkey hp hr]
    simp only [hsize]
    rw [writePayload_some b N (by omega)]
    have ht : List.take (min N 32) b = b := by
      rw [List.take_of_length_le (by omega)]
    rw [ht]
    split_ifs <;>
      simp only [exchange_exchanges, exchanges_log_writeCopies, probe_exchanges,
        List.append_assoc, List.singleton_append]
  · rw [_smcReadKey_success k key N N buf _ hkey (by omega) (by omega) hp2 hr2 hsize2 hxr]
    refine ⟨hx, by simp, ?_⟩
    simp only [Nat.min_self, hstored]
    rw [bzero_drop_eq buf N N (le_refl _) hbuf.symm]
    simp only [Nat.sub_self, List.replicate_zero, List.append_nil, Option.some.injEq]
    apply List.ext_getElem
    · simp [hb]
    · intro i h1 h2
      simp only [List.length_map, List.length_range] at h1
      simp only [List.getElem_map, List.getElem_range, readIndex, if_neg hacid2, byteAt, pad32]
      rw [List.getD_eq_getElem?_getD, List.getElem?_append_left (by omega),
        List.getElem?_eq_getElem (by omega), List.getElem_reverse]
      simp only [Option.getD_some]
      congr 1
      omega

/-- C6, run on the mock controller: key `CLWK` of size 2, bytes `[1, 2]`. -/
theorem C6_round_trip_reverses_witness :
    exchanges (_smcWriteKey mockSMC CLWK (some [1, 2]) 2
        (World.init [(CLWK, 2, pad32 [])])).2.trace =
      exchanges (World.init [(CLWK, 2, pad32 [])] : World MockStore).trace ++
        [(kSMCHandleYPCEvent, probeRequest CLWK),
         (kSMCHandleYPCEvent, writeRequest CLWK 2 (pad32 [1, 2]))] ∧
    (_smcReadKey mockSMC CLWK (some [7, 7]) 2
      (_smcWriteKey mockSMC CLWK (some [1, 2]) 2 (World.init [(CLWK, 2, pad32 [])])).2).ret
      = kIOReturnSuccess ∧
    (_smcReadKey mockSMC CLWK (some [7, 7]) 2
      (_smcWriteKey mockSMC CLWK (some [1, 2]) 2 (World.init [(CLWK, 2, pad32 [])])).2).outBufMax
      = 2 ∧
    (_smcReadKey mockSMC CLWK (some [7, 7]) 2
      (_smcWriteKey mockSMC CLWK (some [1, 2]) 2 (World.init [(CLWK, 2, pad32 [])])).2).outBuf
      = some [1, 2].reverse :=
  C6_round_trip_reverses mockSMC CLWK 2 [1, 2] [7, 7] (World.init [(CLWK, 2, pad32 [])])
    (by decide) (by decide) (by decide) (by decide) rfl rfl rfl rfl rfl rfl rfl rfl rfl rfl rfl rfl

/-- C6 as stated fails: on the mock controller, which stores the bytes of a
write and returns them unchanged, writing `[1, 2]` to the 2-byte key `CLWK`
and reading 2 bytes back succeeds twice and returns `[2, 1]`, not `[1, 2]`. -/
theorem C6_round_trip_counterexample :
    (_smcWriteKey mockSMC CLWK (some [1, 2]) 2 (World.init [(CLWK, 2, pad32 [])])).1
      = kIOReturnSuccess ∧
    (_smcReadKey mockSMC CLWK (some [0, 0]) 2
      (_smcWriteKey mockSMC CLWK (some [1, 2]) 2 (World.init [(CLWK, 2, pad32 [])])).2).ret
      = kIOReturnSuccess ∧
    (_smcReadKey mockSMC CLWK (some [0, 0]) 2
      (_smcWriteKey mockSMC CLWK (some [1, 2]) 2 (World.init [(CLWK, 2, pad32 [])])).2).outBuf
      = some [2, 1] ∧
    (_smcReadKey mockSMC CLWK (some [0, 0]) 2
      (_smcWriteKey mockSMC CLWK (some [1, 2]) 2 (World.init [(CLWK, 2, pad32 [])])).2).outBuf
      ≠ some [1, 2] := by
  refine ⟨rfl, rfl, rfl, ?_⟩
  decide

/-- C7: for a key other than `ACID` (and 0), negotiated size `N ≤ 32`, and a
buffer of at least `maxLen` bytes, a successful `_smcReadKey` reports the
length `L = min maxLen N` and hands back the first `L` payload bytes
reversed: output byte `i` is payload byte `L - 1 - i` for every `i < L`. -/
theorem C7_read_reverses {σ : Type} (k : IOKit σ) (key N maxLen : Nat) (buf : List Nat)
    (w : World σ) (hkey : key ≠ 0) (hacid : key ≠ ACID) (_hN : N ≤ 32) (hmax : maxLen < 256)
    (hcap : maxLen ≤ buf.length)
    (hp : (probe k key w).1.1 = kIOReturnSuccess)
    (hr : (probe k key w).1.2.result = kSMCSuccess)
    (hsize : (probe k key w).1.2.keyInfo.dataSize = N)
    (hx : (exchange k (readRequest key N) (probe k key w).2).1.1 = kIOReturnSuccess)
    (hxr : (exchange k (readRequest key N) (probe k key w).2).1.2.result = kSMCSuccess) :
    (_smcReadKey k key (some buf) maxLen w).ret = kIOReturnSuccess ∧
    (_smcReadKey k key (some buf) maxLen w).outBufMax = min maxLen N ∧
    ∃ out, (_smcReadKey k key (some buf) maxLen w).outBuf = some out ∧
      out.length = buf.length ∧
      ∀ i, i < min maxLen N →
        byteAt out i =
          byteAt (exchange k (readRequest key N) (probe k key w).2).1.2.bytes
            (min maxLen N - 1 - i) := by
  have hacid2 : ¬ ACID = key := fun e => hacid e.symm
  rw [_smcReadKey_success k key N maxLen buf w hkey hmax hcap hp hr hsize hxr]
  refine ⟨hx, Nat.min_comm _ _, _, rfl, ?_, ?_⟩
  · simp only [List.length_append, List.length_map, List.length_range, List.length_drop,
      bzero_length]
    omega
  · intro i hi
    rw [Nat.min_comm maxLen N] at hi ⊢
    have e : min N maxLen - (i + 1) = min N maxLen - 1 - i := by omega
    rw [byteAt, List.getD_eq_getElem?_getD, List.getElem?_append_left (by simp; omega),
      List.getElem?_map, List.getElem?_range hi]
    simp only [Option.map_some', Option.getD_some, readIndex, if_neg hacid2, e]

/-- C7, run on the scripted kernel: a 4-byte key read with a 2-byte buffer
returns the first two payload bytes, reversed. -/
theorem C7_read_reverses_witness :
    (_smcReadKey scripted CLWK (some [7, 7]) 2
      (World.init [sizeReply 4, dataReply [1, 2, 3, 4]])).ret = kIOReturnSuccess ∧
    (_smcReadKey scripted CLWK (some [7, 7]) 2
      (World.init [sizeReply 4, dataReply [1, 2, 3, 4]])).outBufMax = min 2 4 ∧
    ∃ out, (_smcReadKey scripted CLWK (some [7, 7]) 2
        (World.init [sizeReply 4, dataReply [1, 2, 3, 4]])).outBuf = some out ∧
      out.length = [7, 7].length ∧
      ∀ i, i < min 2 4 →
        byteAt out i =
          byteAt (exchange scripted (readRequest CLWK 4)
            (probe scripted CLWK (World.init [sizeReply 4, dataReply [1, 2, 3, 4]])).2).1.2.bytes
            (min 2 4 - 1 - i) :=
  C7_read_reverses scripted CLWK 4 2 [7, 7] (World.init [sizeReply 4, dataReply [1, 2, 3, 4]])
    (by decide) (by decide) (by decide) (by decide) (by decide) rfl rfl rfl rfl rfl

theorem toBytesLE_length (width v : Nat) : (toBytesLE width v).length = width := by
  induction width generalizing v with
  | zero => rfl
  | succ n ih => simp [toBytesLE, ih]

/-- C8: for the key `ACID`, a successful `_smcReadKey` whose reported
length `L = min maxLen N` lies in 1..32 hands back the first `L` payload
bytes in the controller's order: output byte `i` is payload byte `i` for
every `i < L`.  In particular `_getACAdapterInfo` stores the integer whose
bytes, least significant first, are the first `min N 8` payload bytes,
unreversed, followed by zeros (all of the first 8 payload bytes when
`N ≥ 8`). -/
theorem C8_acid_passthrough {σ : Type} (k : IOKit σ) (N maxLen : Nat) (buf : List Nat)
    (v : Nat) (w : World σ) (_hL1 : 1 ≤ min maxLen N) (_hL : min maxLen N ≤ 32)
    (hmax : maxLen < 256) (hcap : maxLen ≤ buf.length)
    (hp : (probe k ACID w).1.1 = kIOReturnSuccess)
    (hr : (probe k ACID w).1.2.result = kSMCSuccess)
    (hsize : (probe k ACID w).1.2.keyInfo.dataSize = N)
    (hx : (exchange k (readRequest ACID N) (probe k ACID w).2).1.1 = kIOReturnSuccess)
    (hxr : (exchange k (readRequest ACID N) (probe k ACID w).2).1.2.result = kSMCSuccess) :
    ((_smcReadKey k ACID (some buf) maxLen w).ret = kIOReturnSuccess ∧
     (_smcReadKey k ACID (some buf) maxLen w).outBufMax = min maxLen N ∧
     ∃ out, (_smcReadKey k ACID (some buf) maxLen w).outBuf = some out ∧
       out.length = buf.length ∧
       ∀ i, i < min maxLen N →
         byteAt out i =
           byteAt (exchange k (readRequest ACID N) (probe k ACID w).2).1.2.bytes i) ∧
    (_getACAdapterInfo false k (some v) w).1 =
      (kIOReturnSuccess,
       some (ofBytesLE ((List.range (min N 8)).map
           (byteAt (exchange k (readRequest ACID N) (probe k ACID w).2).1.2.bytes)
         ++ List.replicate (8 - min N 8) 0))) := by
  have hkey : ACID ≠ 0 := by decide
  constructor
  · rw [_smcReadKey_success k ACID N maxLen buf w hkey hmax hcap hp hr hsize hxr]
    refine ⟨hx, Nat.min_comm _ _, _, rfl, ?_, ?_⟩
    · simp only [List.length_append, List.length_map, List.length_range, List.length_drop,
        bzero_length]
      omega
    · intro i hi
      rw [Nat.min_comm maxLen N] at hi
      rw [byteAt, List.getD_eq_getElem?_getD, List.getElem?_append_left (by simp; omega),
        List.getElem?_map, List.getElem?_range hi]
      simp only [Option.map_some', Option.getD_some, readIndex, if_true]
  · simp only [_getACAdapterInfo, Bool.not_false, if_true, Option.map_some']
    rw [_smcReadKey_success k ACID N 8 (toBytesLE 8 v) w hkey (by omega)
      (by rw [toBytesLE_length]) hp hr hsize hxr]
    simp only [Option.map_some', hx]
    rw [bzero_drop_eq (toBytesLE 8 v) 8 (min N 8) (Nat.min_le_right _ _)
      (by rw [toBytesLE_length])]
    simp only [readIndex, if_true]

/-- C8, run on the scripted kernel: `ACID` of size 8, payload `1..8`. -/
theorem C8_acid_passthrough_witness :
    ((_smcReadKey scripted ACID (some [7, 7, 7]) 3
        (World.init [sizeReply 8, dataReply [1, 2, 3, 4, 5, 6, 7, 8]])).ret = kIOReturnSuccess ∧
     (_smcReadKey scripted ACID (some [7, 7, 7]) 3
        (World.init [sizeReply 8, dataReply [1, 2, 3, 4, 5, 6, 7, 8]])).outBufMax = min 3 8 ∧
     ∃ out, (_smcReadKey scripted ACID (some [7, 7, 7]) 3
         (World.init [sizeReply 8, dataReply [1, 2, 3, 4, 5, 6, 7, 8]])).outBuf = some out ∧
       out.length = [7, 7, 7].length ∧
       ∀ i, i < min 3 8 →
         byteAt out i =
           byteAt (exchange scripted (readRequest ACID 8)
             (probe scripted ACID
               (World.init [sizeReply 8, dataReply [1, 2, 3, 4, 5, 6, 7, 8]])).2).1.2.bytes i) ∧
    (_getACAdapterInfo false scripted (some 5)
        (World.init [sizeReply 8, dataReply [1, 2, 3, 4, 5, 6, 7, 8]])).1 =
      (kIOReturnSuccess,
       some (ofBytesLE ((List.range (min 8 8)).map
           (byteAt (exchange scripted (readRequest ACID 8)
             (probe scripted ACID
               (World.init [sizeReply 8, dataReply [1, 2, 3, 4, 5, 6, 7, 8]])).2).1.2.bytes)
         ++ List.replicate (8 - min 8 8) 0))) :=
  C8_acid_passthrough scripted 8 3 [7, 7, 7] 5
    (World.init [sizeReply 8, dataReply [1, 2, 3, 4, 5, 6, 7, 8]])
    (by decide) (by decide) (by decide) (by decide) rfl rfl rfl rfl rfl

/-- C9 as amended: for a non-zero key, a caller payload `p` of length `len`
and negotiated size `N`, the write request carries `keyInfo.dataSize = N`
and a 32-byte `bytes` array holding the first `min len 32` bytes of `p`
followed by zeros: the payload is clipped to 32 bytes, whatever `N` is. -/
theorem C9_write_clipped_to_32 {σ : Type} (k : IOKit σ) (key N len : Nat) (p : List Nat)
    (w : World σ) (hkey : key ≠ 0) (hlen : p.length = len)
    (hp : (probe k key w).1.1 = kIOReturnSuccess)
    (hr : (probe k key w).1.2.result = kSMCSuccess)
    (hsize : (probe k key w).1.2.keyInfo.dataSize = N) :
    exchanges (_smcWriteKey k key (some p) len w).2.trace =
      exchanges w.trace ++ [(kSMCHandleYPCEvent, probeRequest key),
        (kSMCHandleYPCEvent, writeRequest key N (pad32 (p.take (min len 32))))] ∧
    (p.take (min len 32)).length = min len 32 ∧
    (pad32 (p.take (min len 32))).length = 32 := by
  have hl : (p.take (min len 32)).length = min len 32 := by
    rw [List.length_take]; omega
  refine ⟨?_, hl, ?_⟩
  · rw [_smcWriteKey_probe_ok k key (some p) len w hkey hp hr]
    simp only [hsize]
    rw [writePayload_some p len (by omega)]
    split_ifs <;>
      simp only [exchange_exchanges, exchanges_log_writeCopies, probe_exchanges,
        List.append_assoc, List.singleton_append]
  · simp only [pad32, List.length_append, List.length_replicate, hl]
    omega

/-- C9, run on the scripted kernel: 40 caller bytes, negotiated size 2. -/
theorem C9_write_clipped_to_32_witness :
    exchanges (_smcWriteKey scripted CLWK (some (List.range 40)) 40
        (World.init [sizeReply 2, resultReply kSMCSuccess])).2.trace =
      exchanges (World.init [sizeReply 2, resultReply kSMCSuccess] :
          World (List (Nat × SMCParamStruct))).trace ++
        [(kSMCHandleYPCEvent, probeRequest CLWK),
         (kSMCHandleYPCEvent, writeRequest CLWK 2 (pad32 ((List.range 40).take (min 40 32))))] ∧
    ((List.range 40).take (min 40 32)).length = min 40 32 ∧
    (pad32 ((List.range 40).take (min 40 32))).length = 32 :=
  C9_write_clipped_to_32 scripted CLWK 2 40 (List.range 40)
    (World.init [sizeReply 2, resultReply kSMCSuccess]) (by decide) rfl rfl rfl rfl

/-- C9 as stated fails: with 4 caller bytes `[1, 2, 3, 4]` and negotiated
size 2, the write request carries all 4 caller bytes, so the caller bytes at
the indices 2 and 3, which are not below the negotiated size, are sent, and
the payload is not the one clipped to `min len N 32 = 2` bytes. -/
theorem C9_write_clip_counterexample :
    exchanges (_smcWriteKey scripted CLWK (some [1, 2, 3, 4]) 4
        (World.init [sizeReply 2, resultReply kSMCSuccess])).2.trace =
      [(kSMCHandleYPCEvent, probeRequest CLWK),
       (kSMCHandleYPCEvent, writeRequest CLWK 2 (pad32 [1, 2, 3, 4]))] ∧
    byteAt (writeRequest CLWK 2 (pad32 [1, 2, 3, 4])).bytes 2 = 3 ∧
    byteAt (writeRequest CLWK 2 (pad32 [1, 2, 3, 4])).bytes 3 = 4 ∧
    writeRequest CLWK 2 (pad32 [1, 2, 3, 4]) ≠
      writeRequest CLWK 2 (pad32 ([1, 2, 3, 4].take (min 4 (min 2 32)))) := by
  refine ⟨rfl, rfl, rfl, ?_⟩
  decide

/-- C10 as amended: when the controller reports size 2 for the key `CLWK`
and the read exchange succeeds with payload bytes `[0x10, 0x00]`,
`_smcWakeTimerGetResults` succeeds and stores 4096 (0x1000: the payload is
taken most significant byte first), whatever `*mSec` and the local buffer
held before. -/
theorem C10_wake_timer_decodes_4096 {σ : Type} (k : IOKit σ) (buf0 buf1 mSec : Nat)
    (w : World σ)
    (hp : (probe k CLWK w).1.1 = kIOReturnSuccess)
    (hr : (probe k CLWK w).1.2.result = kSMCSuccess)
    (hsize : (probe k CLWK w).1.2.keyInfo.dataSize = 2)
    (hx : (exchange k (readRequest CLWK 2) (probe k CLWK w).2).1.1 = kIOReturnSuccess)
    (hxr : (exchange k (readRequest CLWK 2) (probe k CLWK w).2).1.2.result = kSMCSuccess)
    (hb0 : byteAt (exchange k (readRequest CLWK 2) (probe k CLWK w).2).1.2.bytes 0 = 0x10)
    (hb1 : byteAt (exchange k (readRequest CLWK 2) (probe k CLWK w).2).1.2.bytes 1 = 0x00) :
    (_smcWakeTimerGetResults false k buf0 buf1 mSec w).1 = (kIOReturnSuccess, 4096) := by
  have hkey : CLWK ≠ 0 := by decide
  have hacid : ¬ ACID = CLWK := by decide
  simp only [_smcWakeTimerGetResults, Bool.not_false, if_true]
  rw [_smcReadKey_success k CLWK 2 2 [buf0, buf1] w hkey (by omega) (by simp) hp hr hsize hxr]
  simp only [hx, if_true]
  have e : (List.range (min 2 2)) = [0, 1] := by decide
  simp only [e, List.map_cons, List.map_nil, readIndex, if_neg hacid, Nat.min_self]
  simp [byteAt, bzero] at hb0 hb1 ⊢
  simp [hb0, hb1]

/-- C10, run on the scripted kernel. -/
theorem C10_wake_timer_decodes_4096_witness :
    (_smcWakeTimerGetResults false scripted 7 7 99
      (World.init [sizeReply 2, dataReply [0x10, 0x00]])).1 = (kIOReturnSuccess, 4096) :=
  C10_wake_timer_decodes_4096 scripted 7 7 99 (World.init [sizeReply 2, dataReply [0x10, 0x00]])
    rfl rfl rfl rfl rfl rfl rfl

/-- C10 as stated fails: with size 2 and payload bytes `[0x10, 0x00]`,
`_smcWakeTimerGetResults` succeeds and stores 4096, not 16. -/
theorem C10_wake_timer_counterexample :
    (_smcWakeTimerGetResults false scripted 0 0 0
      (World.init [sizeReply 2, dataReply [0x10, 0x00]])).1.1 = kIOReturnSuccess ∧
    (_smcWakeTimerGetResults false scripted 0 0 0
      (World.init [sizeReply 2, dataReply [0x10, 0x00]])).1.2 = 4096 ∧
    (_smcWakeTimerGetResults false scripted 0 0 0
      (World.init [sizeReply 2, dataReply [0x10, 0x00]])).1.2 ≠ 16 := by
  refine ⟨rfl, rfl, ?_⟩
  decide

/-- C11: when the probe of `CLWK` succeeds with size 2,
`_smcWakeTimerPrimer` issues, after the probe, a write request for key
`CLWK` with `keyInfo.dataSize = 2` whose payload is `0x00, 0x01` followed by
30 zero bytes (every other field of the request is zero), and it returns
success when the write exchange succeeds with controller result 0. -/
theorem C11_wake_timer_primer {σ : Type} (k : IOKit σ) (w : World σ)
    (hp : (probe k CLWK w).1.1 = kIOReturnSuccess)
    (hr : (probe k CLWK w).1.2.result = kSMCSuccess)
    (hsize : (probe k CLWK w).1.2.keyInfo.dataSize = 2)
    (hx : (exchange k (writeRequest CLWK 2 (0 :: 1 :: List.replicate 30 0))
      (probe k CLWK w).2).1.1 = kIOReturnSuccess)
    (hxr : (exchange k (writeRequest CLWK 2 (0 :: 1 :: List.replicate 30 0))
      (probe k CLWK w).2).1.2.result = kSMCSuccess) :
    (_smcWakeTimerPrimer false k w).1 = kIOReturnSuccess ∧
    exchanges (_smcWakeTimerPrimer false k w).2.trace =
      exchanges w.trace ++ [(kSMCHandleYPCEvent, probeRequest CLWK),
        (kSMCHandleYPCEvent, writeRequest CLWK 2 (0 :: 1 :: List.replicate 30 0))] := by
  have hkey : CLWK ≠ 0 := by decide
  have hpay : writePayload (some [0, 1]) 2 = 0 :: 1 :: List.replicate 30 0 := by decide
  have e : _smcWakeTimerPrimer false k w = _smcWriteKey k CLWK (some [0, 1]) 2 w := rfl
  rw [e, _smcWriteKey_probe_ok k CLWK (some [0, 1]) 2 w hkey hp hr]
  simp only [hsize, hpay, exchange_log]
  rw [if_neg (fun h => h hxr)]
  exact ⟨hx, by
    simp only [exchange_exchanges, exchanges_log_writeCopies, probe_exchanges,
      List.append_assoc, List.singleton_append]⟩

/-- C11, run on the mock controller holding the 2-byte key `CLWK`. -/
theorem C11_wake_timer_primer_witness :
    (_smcWakeTimerPrimer false mockSMC (World.init [(CLWK, 2, pad32 [])])).1
      = kIOReturnSuccess ∧
    exchanges (_smcWakeTimerPrimer false mockSMC (World.init [(CLWK, 2, pad32 [])])).2.trace =
      exchanges (World.init [(CLWK, 2, pad32 [])] : World MockStore).trace ++
        [(kSMCHandleYPCEvent, probeRequest CLWK),
         (kSMCHandleYPCEvent, writeRequest CLWK 2 (0 :: 1 :: List.replicate 30 0))] :=
  C11_wake_timer_primer mockSMC (World.init [(CLWK, 2, pad32 [])]) rfl rfl rfl rfl rfl

/-- C12: with `TARGET_OS_EMBEDDED` set, each of the four helpers returns
`kIOReturnNotReadable` (which is not success) for every input and every
kernel, leaves the world as it was (the trace gains no entry: no session is
opened and no exchange is made), and leaves `*val`, `*mSec` untouched. -/
theorem C12_embedded_helpers {σ : Type} (k : IOKit σ) (w : World σ) :
    (∀ key val, _getSystemManagementKeyInt32 true k key val w =
      ((kIOReturnNotReadable, val), w)) ∧
    (∀ val, _getACAdapterInfo true k val w = ((kIOReturnNotReadable, val), w)) ∧
    _smcWakeTimerPrimer true k w = (kIOReturnNotReadable, w) ∧
    (∀ buf0 buf1 mSec, _smcWakeTimerGetResults true k buf0 buf1 mSec w =
      ((kIOReturnNotReadable, mSec), w)) ∧
    kIOReturnNotReadable ≠ kIOReturnSuccess := by
  refine ⟨?_, ?_, rfl, ?_, by decide⟩
  · intro key val
    rfl
  · intro val
    rfl
  · intro buf0 buf1 mSec
    rfl

/-! ## The paths through callSMCFunction -/

/-- The four paths through `callSMCFunction`, each with the events it adds
to the trace and what it returns: no service; no session; the user-client
open refused; the struct call made. -/
theorem callSMCFunction_cases {σ : Type} (k : IOKit σ) (which : Nat)
    (inputValues outputValues : SMCParamStruct) (w : World σ) :
    ∃ evs, (callSMCFunction k which inputValues outputValues w).2.trace =
        w.trace ++ Event.callSMCFunction which inputValues :: evs ∧
      ((evs = [Event.IOServiceGetMatchingService IO_OBJECT_NULL] ∧
          (callSMCFunction k which inputValues outputValues w).1 =
            (kIOReturnNotFound, outputValues)) ∨
       (∃ smc result connect, smc ≠ IO_OBJECT_NULL ∧
          (result ≠ kIOReturnSuccess ∨ connect = IO_OBJECT_NULL) ∧
          evs = [Event.IOServiceGetMatchingService smc,
                 Event.IOServiceOpen smc result connect] ∧
          (callSMCFunction k which inputValues outputValues w).1 = (result, outputValues)) ∨
       (∃ smc connect result closed, smc ≠ IO_OBJECT_NULL ∧ connect ≠ IO_OBJECT_NULL ∧
          result ≠ kIOReturnSuccess ∧
          evs = [Event.IOServiceGetMatchingService smc,
                 Event.IOServiceOpen smc kIOReturnSuccess connect,
                 Event.IOConnectCallMethod connect kSMCUserClientOpen result,
                 Event.IOConnectCallMethod connect kSMCUserClientClose closed,
                 Event.IOServiceClose connect] ∧
          (callSMCFunction k which inputValues outputValues w).1 = (result, outputValues)) ∨
       (∃ smc connect result output closed, smc ≠ IO_OBJECT_NULL ∧
          connect ≠ IO_OBJECT_NULL ∧
          evs = [Event.IOServiceGetMatchingService smc,
                 Event.IOServiceOpen smc kIOReturnSuccess connect,
                 Event.IOConnectCallMethod connect kSMCUserClientOpen kIOReturnSuccess,
                 Event.IOConnectCallStructMethod connect which inputValues result output,
                 Event.IOConnectCallMethod connect kSMCUserClientClose closed,
                 Event.IOServiceClose connect] ∧
          (callSMCFunction k which inputValues outputValues w).1 = (result, output))) := by
  unfold callSMCFunction callSMCFunction.exit
  simp only [World.record, IOServiceGetMatchingService, IOServiceOpen, IOConnectCallMethod,
    IOConnectCallStructMethod, IOServiceClose]
  generalize k.getMatchingService w.kernel = s
  obtain ⟨smc, ks⟩ := s
  by_cases h1 : IO_OBJECT_NULL = smc
  · subst h1
    exact ⟨[Event.IOServiceGetMatchingService IO_OBJECT_NULL], by simp, Or.inl ⟨rfl, by simp⟩⟩
  · have h1b : smc ≠ IO_OBJECT_NULL := fun e => h1 e.symm
    simp only [if_neg h1]
    generalize k.serviceOpen smc ks = o
    obtain ⟨⟨result, connect⟩, ko⟩ := o
    by_cases h2 : result ≠ kIOReturnSuccess ∨ IO_OBJECT_NULL = connect
    · refine ⟨[Event.IOServiceGetMatchingService smc, Event.IOServiceOpen smc result connect],
        by simp [h2], Or.inr (Or.inl ⟨smc, result, connect, h1b, ?_, rfl, by simp [h2]⟩)⟩
      rcases h2 with h2 | h2
      · exact Or.inl h2
      · exact Or.inr h2.symm
    · have h2a : result = kIOReturnSuccess := by
        by_contra h; exact h2 (Or.inl h)
      have h2b : IO_OBJECT_NULL ≠ connect := fun h => h2 (Or.inr h)
      have h2c : connect ≠ IO_OBJECT_NULL := fun e => h2b e.symm
      subst h2a
      simp only [if_neg h2]
      generalize k.connectCallMethod connect kSMCUserClientOpen ko = u
      obtain ⟨opened, ku⟩ := u
      by_cases h3 : opened ≠ kIOReturnSuccess
      · simp only [if_pos h3, if_pos h2b]
        exact ⟨[Event.IOServiceGetMatchingService smc,
            Event.IOServiceOpen smc kIOReturnSuccess connect,
            Event.IOConnectCallMethod connect kSMCUserClientOpen opened,
            Event.IOConnectCallMethod connect kSMCUserClientClose
              (k.connectCallMethod connect kSMCUserClientClose ku).1,
            Event.IOServiceClose connect], by simp,
          Or.inr (Or.inr (Or.inl ⟨smc, connect, opened, _, h1b, h2c, h3, rfl, rfl⟩))⟩
      · have h3a : opened = kIOReturnSuccess := not_not.mp h3
        subst h3a
        simp only [if_neg h3, if_pos h2b]
        exact ⟨[Event.IOServiceGetMatchingService smc,
            Event.IOServiceOpen smc kIOReturnSuccess connect,
            Event.IOConnectCallMethod connect kSMCUserClientOpen kIOReturnSuccess,
            Event.IOConnectCallStructMethod connect which inputValues
              (k.connectCallStructMethod connect which inputValues outputValues ku).1.1
              (k.connectCallStructMethod connect which inputValues outputValues ku).1.2,
            Event.IOConnectCallMethod connect kSMCUserClientClose
              (k.connectCallMethod connect kSMCUserClientClose
                (k.connectCallStructMethod connect which inputValues outputValues ku).2).1,
            Event.IOServiceClose connect], by simp,
          Or.inr (Or.inr (Or.inr ⟨smc, connect, _, _, _, h1b, h2c, rfl, rfl⟩))⟩

/-- C13: in every execution of `callSMCFunction`, on every kernel, with
`evs` the events the call adds to the trace: a session that was established
(`IOServiceOpen` returned success and a handle) is closed by the two last
events of the call, the `kSMCUserClientClose` method followed by
`IOServiceClose` on that handle, whether or not the user-client open or the
struct call succeeded in between; at most one session is established; and
the numbers of user-client closes and of `IOServiceClose` calls equal the
number of sessions established, so no close is issued when there was no
session. -/
theorem C13_session_closed {σ : Type} (k : IOKit σ) (which : Nat)
    (inputValues outputValues : SMCParamStruct) (w : World σ) :
    ∃ evs, (callSMCFunction k which inputValues outputValues w).2.trace = w.trace ++ evs ∧
      (∀ service connect, Event.IOServiceOpen service kIOReturnSuccess connect ∈ evs →
        connect ≠ IO_OBJECT_NULL →
        ∃ before closed, evs = before ++
          [Event.IOConnectCallMethod connect kSMCUserClientClose closed,
           Event.IOServiceClose connect]) ∧
      serviceOpens evs ≤ 1 ∧
      serviceCloses evs = serviceOpens evs ∧
      userClientCloses evs = serviceOpens evs := by
  obtain ⟨evs, htrace, hcase⟩ := callSMCFunction_cases k which inputValues outputValues w
  refine ⟨Event.callSMCFunction which inputValues :: evs, htrace, ?_⟩
  rcases hcase with ⟨rfl, _⟩ | ⟨smc, result, connect, _, hfail, rfl, _⟩ |
    ⟨smc, connect, result, closed, _, hc, _, rfl, _⟩ |
    ⟨smc, connect, result, output, closed, _, hc, rfl, _⟩
  · refine ⟨?_, ?_, ?_, ?_⟩
    · intro service connect hmem
      simp at hmem
    · simp [serviceOpens, List.countP_cons, isServiceOpen]
    · simp [serviceOpens, serviceCloses, List.countP_cons, isServiceOpen, isServiceClose]
    · simp [serviceOpens, userClientCloses, List.countP_cons, isServiceOpen, isUserClientClose]
  · have hno : ¬ (result = kIOReturnSuccess ∧ ¬ connect = IO_OBJECT_NULL) := by
      rintro ⟨h1, h2⟩
      rcases hfail with h | h
      · exact h h1
      · exact h2 h
    refine ⟨?_, ?_, ?_, ?_⟩
    · intro service connect2 hmem hne
      simp only [List.mem_cons, List.mem_singleton, Event.IOServiceOpen.injEq, List.mem_nil_iff,
        or_false, false_or, reduceCtorEq] at hmem
      obtain ⟨_, hr, hcn⟩ := hmem
      exact absurd ⟨hr.symm, fun h => hne (hcn.trans h)⟩ hno
    · simp [serviceOpens, List.countP_cons, isServiceOpen, hno]
    · simp [serviceOpens, serviceCloses, List.countP_cons, isServiceOpen, isServiceClose, hno]
    · simp [serviceOpens, userClientCloses, List.countP_cons, isServiceOpen,
        isUserClientClose, hno]
  · refine ⟨?_, ?_, ?_, ?_⟩
    · intro service connect2 hmem _
      simp only [List.mem_cons, List.mem_singleton, Event.IOServiceOpen.injEq, List.mem_nil_iff,
        or_false, false_or, reduceCtorEq, true_and] at hmem
      obtain ⟨_, hcn⟩ := hmem
      rw [hcn]
      exact ⟨[Event.callSMCFunction which inputValues, Event.IOServiceGetMatchingService smc,
        Event.IOServiceOpen smc kIOReturnSuccess connect,
        Event.IOConnectCallMethod connect kSMCUserClientOpen result], closed, rfl⟩
    · simp [serviceOpens, List.countP_cons, isServiceOpen, hc]
    · simp [serviceOpens, serviceCloses, List.countP_cons, isServiceOpen, isServiceClose, hc]
    · simp [serviceOpens, userClientCloses, List.countP_cons, isServiceOpen,
        isUserClientClose, kSMCUserClientOpen, kSMCUserClientClose, hc]
  · refine ⟨?_, ?_, ?_, ?_⟩
    · intro service connect2 hmem _
      simp only [List.mem_cons, List.mem_singleton, Event.IOServiceOpen.injEq, List.mem_nil_iff,
        or_false, false_or, reduceCtorEq, true_and] at hmem
      obtain ⟨_, hcn⟩ := hmem
      rw [hcn]
      exact ⟨[Event.callSMCFunction which inputValues, Event.IOServiceGetMatchingService smc,
        Event.IOServiceOpen smc kIOReturnSuccess connect,
        Event.IOConnectCallMethod connect kSMCUserClientOpen kIOReturnSuccess,
        Event.IOConnectCallStructMethod connect which inputValues result output], closed, rfl⟩
    · simp [serviceOpens, List.countP_cons, isServiceOpen, hc]
    · simp [serviceOpens, serviceCloses, List.countP_cons, isServiceOpen, isServiceClose, hc]
    · simp [serviceOpens, userClientCloses, List.countP_cons, isServiceOpen,
        isUserClientClose, kSMCUserClientOpen, kSMCUserClientClose, hc]

/-- On no path does `callSMCFunction` release an object reference. -/
theorem callSMCFunction_releases {σ : Type} (k : IOKit σ) (which : Nat)
    (inputValues outputValues : SMCParamStruct) (w : World σ) :
    releases (callSMCFunction k which inputValues outputValues w).2.trace = releases w.trace := by
  obtain ⟨evs, htrace, hcase⟩ := callSMCFunction_cases k which inputValues outputValues w
  rw [htrace]
  rcases hcase with ⟨rfl, _⟩ | ⟨smc, result, connect, _, _, rfl, _⟩ |
    ⟨smc, connect, result, closed, _, _, _, rfl, _⟩ |
    ⟨smc, connect, result, output, closed, _, _, rfl, _⟩ <;>
  simp [releases, List.countP_append, List.countP_cons, isRelease]

/-- C14, the code at a failing input: the probe of `CLWK` on the mock
controller.  `callSMCFunction` acquires the service reference `0x1003`,
opens the session `0x2003`, makes the exchange, closes the session and
returns success; the trace of the call ends with `IOServiceClose` and holds
no `IOObjectRelease`: the service reference is not released. -/
theorem C14_service_not_released :
    (callSMCFunction mockSMC kSMCHandleYPCEvent (probeRequest CLWK) SMCParamStruct.zero
      (World.init [(CLWK, 2, pad32 [])])).1.1 = kIOReturnSuccess ∧
    (callSMCFunction mockSMC kSMCHandleYPCEvent (probeRequest CLWK) SMCParamStruct.zero
      (World.init [(CLWK, 2, pad32 [])])).2.trace =
      [Event.callSMCFunction kSMCHandleYPCEvent (probeRequest CLWK),
       Event.IOServiceGetMatchingService 0x1003,
       Event.IOServiceOpen 0x1003 kIOReturnSuccess 0x2003,
       Event.IOConnectCallMethod 0x2003 kSMCUserClientOpen kIOReturnSuccess,
       Event.IOConnectCallStructMethod 0x2003 kSMCHandleYPCEvent (probeRequest CLWK)
         kIOReturnSuccess (sizeReply 2).2,
       Event.IOConnectCallMethod 0x2003 kSMCUserClientClose kIOReturnSuccess,
       Event.IOServiceClose 0x2003] ∧
    releases (callSMCFunction mockSMC kSMCHandleYPCEvent (probeRequest CLWK) SMCParamStruct.zero
      (World.init [(CLWK, 2, pad32 [])])).2.trace = 0 := by
  refine ⟨rfl, rfl, ?_⟩
  decide

/-- The only way `callSMCFunction` returns success without having made the
struct call is the path on which `IOServiceOpen` reports success and leaves
a null handle. -/
theorem callSMCFunction_success_without_exchange {σ : Type} (k : IOKit σ) (which : Nat)
    (inputValues outputValues : SMCParamStruct) (w : World σ)
    (hs : structCalls (callSMCFunction k which inputValues outputValues w).2.trace =
      structCalls w.trace)
    (hok : (callSMCFunction k which inputValues outputValues w).1.1 = kIOReturnSuccess) :
    ∃ smc, (callSMCFunction k which inputValues outputValues w).2.trace =
      w.trace ++ [Event.callSMCFunction which inputValues,
        Event.IOServiceGetMatchingService smc,
        Event.IOServiceOpen smc kIOReturnSuccess IO_OBJECT_NULL] := by
  obtain ⟨evs, htrace, hcase⟩ := callSMCFunction_cases k which inputValues outputValues w
  rw [htrace] at hs ⊢
  rcases hcase with ⟨rfl, hret⟩ | ⟨smc, result, connect, _, hfail, rfl, hret⟩ |
    ⟨smc, connect, result, closed, _, _, hne, rfl, hret⟩ |
    ⟨smc, connect, result, output, closed, _, _, rfl, _⟩
  · rw [hret] at hok
    have hnf : kIOReturnNotFound ≠ kIOReturnSuccess := by decide
    exact absurd hok hnf
  · rw [hret] at hok
    simp only at hok
    rcases hfail with h | h
    · exact absurd hok h
    · exact ⟨smc, by rw [hok, h]⟩
  · rw [hret] at hok
    exact absurd hok hne
  · simp [structCalls, List.countP_append, List.countP_cons, isStructCall] at hs

/-- C15, the code at a failing input: a kernel whose `IOServiceOpen`
reports success and leaves the handle `IO_OBJECT_NULL`.  `callSMCFunction`
makes no struct call and opens no session, yet returns `kIOReturnSuccess`
with the output block untouched; `_smcReadKey` on top of it returns success
with length 0. -/
theorem C15_null_handle_returns_success :
    (callSMCFunction (fixedKernel 0x1003 kIOReturnSuccess IO_OBJECT_NULL kIOReturnSuccess
        kIOReturnSuccess) kSMCHandleYPCEvent (probeRequest CLWK) SMCParamStruct.zero
      (World.init ())).1 = (kIOReturnSuccess, SMCParamStruct.zero) ∧
    (callSMCFunction (fixedKernel 0x1003 kIOReturnSuccess IO_OBJECT_NULL kIOReturnSuccess
        kIOReturnSuccess) kSMCHandleYPCEvent (probeRequest CLWK) SMCParamStruct.zero
      (World.init ())).2.trace =
      [Event.callSMCFunction kSMCHandleYPCEvent (probeRequest CLWK),
       Event.IOServiceGetMatchingService 0x1003,
       Event.IOServiceOpen 0x1003 kIOReturnSuccess IO_OBJECT_NULL] ∧
    (_smcReadKey (fixedKernel 0x1003 kIOReturnSuccess IO_OBJECT_NULL kIOReturnSuccess
        kIOReturnSuccess) CLWK (some [7, 7]) 2 (World.init ())).ret = kIOReturnSuccess ∧
    (_smcReadKey (fixedKernel 0x1003 kIOReturnSuccess IO_OBJECT_NULL kIOReturnSuccess
        kIOReturnSuccess) CLWK (some [7, 7]) 2 (World.init ())).outBufMax = 0 ∧
    structCalls (_smcReadKey (fixedKernel 0x1003 kIOReturnSuccess IO_OBJECT_NULL
        kIOReturnSuccess kIOReturnSuccess) CLWK (some [7, 7]) 2 (World.init ())).world.trace
      = 0 := by
  refine ⟨rfl, rfl, rfl, rfl, ?_⟩
  decide

/-- C16 as amended: when the controller service cannot be located,
`callSMCFunction` returns `kIOReturnNotFound` with the output block
untouched after the service lookup alone (no session is opened), and
`_smcReadKey` and `_smcWriteKey` with a non-zero key return
`kIOReturnNotFound` too: the very status they return for a key the
controller does not know. -/
theorem C16_service_not_found {σ : Type} (k : IOKit σ) (which : Nat)
    (inputValues outputValues : SMCParamStruct) (key : Nat) (buf : List Nat) (maxLen : Nat)
    (outBuf : Option (List Nat)) (len : Nat) (w : World σ) (hkey : key ≠ 0)
    (hs : (k.getMatchingService w.kernel).1 = IO_OBJECT_NULL) :
    (callSMCFunction k which inputValues outputValues w).1 = (kIOReturnNotFound, outputValues) ∧
    (callSMCFunction k which inputValues outputValues w).2.trace =
      w.trace ++ [Event.callSMCFunction which inputValues,
        Event.IOServiceGetMatchingService IO_OBJECT_NULL] ∧
    (_smcReadKey k key (some buf) maxLen w).ret = kIOReturnNotFound ∧
    (_smcWriteKey k key outBuf len w).1 = kIOReturnNotFound := by
  have hcall : ∀ which inputValues outputValues,
      (callSMCFunction k which inputValues outputValues w).1 = (kIOReturnNotFound, outputValues) ∧
      (callSMCFunction k which inputValues outputValues w).2.trace =
        w.trace ++ [Event.callSMCFunction which inputValues,
          Event.IOServiceGetMatchingService IO_OBJECT_NULL] := by
    intro which inputValues outputValues
    unfold callSMCFunction
    simp only [World.record, IOServiceGetMatchingService, hs, if_true, List.append_assoc,
      List.singleton_append, and_self]
  have hprobe : (probe k key w).1.1 = kIOReturnNotFound := by
    unfold probe
    rw [(hcall _ _ _).1]
  have hne : (probe k key w).1.1 ≠ kIOReturnSuccess := by
    rw [hprobe]; decide
  refine ⟨(hcall _ _ _).1, (hcall _ _ _).2, ?_, ?_⟩
  · rw [_smcReadKey_probe_failed k key buf maxLen w hkey (Or.inl hne)]
    simp only
    rw [if_pos hne, hprobe]
  · rw [_smcWriteKey_probe_failed k key outBuf len w hkey (Or.inl hne)]
    simp only
    rw [if_pos hne, hprobe]

/-- C16, run on a kernel without the service. -/
theorem C16_service_not_found_witness :
    (callSMCFunction (fixedKernel IO_OBJECT_NULL kIOReturnSuccess 0x2003 kIOReturnSuccess
        kIOReturnSuccess) kSMCHandleYPCEvent (probeRequest CLWK) SMCParamStruct.zero
      (World.init ())).1 = (kIOReturnNotFound, SMCParamStruct.zero) ∧
    (callSMCFunction (fixedKernel IO_OBJECT_NULL kIOReturnSuccess 0x2003 kIOReturnSuccess
        kIOReturnSuccess) kSMCHandleYPCEvent (probeRequest CLWK) SMCParamStruct.zero
      (World.init ())).2.trace =
      (World.init () : World Unit).trace ++
        [Event.callSMCFunction kSMCHandleYPCEvent (probeRequest CLWK),
         Event.IOServiceGetMatchingService IO_OBJECT_NULL] ∧
    (_smcReadKey (fixedKernel IO_OBJECT_NULL kIOReturnSuccess 0x2003 kIOReturnSuccess
        kIOReturnSuccess) CLWK (some [7, 7]) 2 (World.init ())).ret = kIOReturnNotFound ∧
    (_smcWriteKey (fixedKernel IO_OBJECT_NULL kIOReturnSuccess 0x2003 kIOReturnSuccess
        kIOReturnSuccess) CLWK (some [0, 1]) 2 (World.init ())).1 = kIOReturnNotFound :=
  C16_service_not_found (fixedKernel IO_OBJECT_NULL kIOReturnSuccess 0x2003 kIOReturnSuccess
      kIOReturnSuccess) kSMCHandleYPCEvent (probeRequest CLWK) SMCParamStruct.zero CLWK [7, 7] 2
    (some [0, 1]) 2 (World.init ()) (by decide) rfl

/-- C16 as stated fails: `_smcReadKey` of `CLWK` on a kernel without the
service and `_smcReadKey` of the unknown key 5 on the mock controller, where
the probe reports `kSMCKeyNotFound`, return the same status,
`kIOReturnNotFound`; so do the two `_smcWriteKey` calls. -/
theorem C16_status_not_distinct_counterexample :
    (_smcReadKey (fixedKernel IO_OBJECT_NULL kIOReturnSuccess 0x2003 kIOReturnSuccess
        kIOReturnSuccess) CLWK (some [7, 7]) 2 (World.init ())).ret =
      (_smcReadKey mockSMC 5 (some [7, 7]) 2 (World.init [(CLWK, 2, pad32 [])])).ret ∧
    (_smcWriteKey (fixedKernel IO_OBJECT_NULL kIOReturnSuccess 0x2003 kIOReturnSuccess
        kIOReturnSuccess) CLWK (some [0, 1]) 2 (World.init ())).1 =
      (_smcWriteKey mockSMC 5 (some [0, 1]) 2 (World.init [(CLWK, 2, pad32 [])])).1 ∧
    (probe mockSMC 5 (World.init [(CLWK, 2, pad32 [])])).1.2.result = kSMCKeyNotFound ∧
    (_smcReadKey mockSMC 5 (some [7, 7]) 2 (World.init [(CLWK, 2, pad32 [])])).ret
      = kIOReturnNotFound :=
  ⟨rfl, rfl, rfl, rfl⟩

/-! ## The access phase -/

/-- The status of `_smcReadKey` once the probe has succeeded: decided by the
controller result of the read exchange first, the transport status last. -/
theorem _smcReadKey_ret_access {σ : Type} (k : IOKit σ) (key N : Nat) (buf : List Nat)
    (maxLen : Nat) (w : World σ) (hkey : key ≠ 0)
    (hp : (probe k key w).1.1 = kIOReturnSuccess)
    (hr : (probe k key w).1.2.result = kSMCSuccess)
    (hsize : (probe k key w).1.2.keyInfo.dataSize = N) :
    (_smcReadKey k key (some buf) maxLen w).ret =
      (if (exchange k (readRequest key N) (probe k key w).2).1.2.result = kSMCKeyNotFound then
        kIOReturnNotFound
      else if (exchange k (readRequest key N) (probe k key w).2).1.2.result ≠ kSMCSuccess then
        kIOReturnInternalError
      else (exchange k (readRequest key N) (probe k key w).2).1.1) ∧
    ioCalls (_smcReadKey k key (some buf) maxLen w).world.trace =
      ioCalls (exchange k (readRequest key N) (probe k key w).2).2.trace := by
  rw [_smcReadKey_probe_ok k key buf maxLen w hkey hp hr]
  simp only [hsize]
  split_ifs
  · exact ⟨rfl, rfl⟩
  · exact ⟨rfl, rfl⟩
  · exact ⟨rfl, ioCalls_log _ _ (ioCalls_readCopies key maxLen N)⟩

/-- The status of `_smcWriteKey` once the probe has succeeded. -/
theorem _smcWriteKey_ret_access {σ : Type} (k : IOKit σ) (key N : Nat)
    (outBuf : Option (List Nat)) (len : Nat) (w : World σ) (hkey : key ≠ 0)
    (hp : (probe k key w).1.1 = kIOReturnSuccess)
    (hr : (probe k key w).1.2.result = kSMCSuccess)
    (hsize : (probe k key w).1.2.keyInfo.dataSize = N) :
    (_smcWriteKey k key outBuf len w).1 =
      (if (exchange k (writeRequest key N (writePayload outBuf len))
          (probe k key w).2).1.2.result ≠ kSMCSuccess then
        kIOReturnInternalError
      else (exchange k (writeRequest key N (writePayload outBuf len)) (probe k key w).2).1.1) ∧
    ioCalls (_smcWriteKey k key outBuf len w).2.trace =
      ioCalls (exchange k (writeRequest key N (writePayload outBuf len))
        (probe k key w).2).2.trace := by
  rw [_smcWriteKey_probe_ok k key outBuf len w hkey hp hr]
  simp only [hsize, exchange_log]
  split_ifs <;>
    exact ⟨rfl, exchange_log_ioCalls k _ _ _ (ioCalls_writeCopies outBuf len)⟩

/-- C17 as amended: a transport error is handed to the caller as it is, not
turned into `kIOReturnInternalError`.  For a non-zero key: if the probe's
transport status is not success, `_smcReadKey` and `_smcWriteKey` return
that status, whatever result the response holds; after a successful probe,
if the response of the access exchange holds result 0, they return the
transport status of the access exchange. -/
theorem C17_transport_status_passed_through {σ : Type} (k : IOKit σ) (key N : Nat)
    (buf : List Nat) (maxLen : Nat) (outBuf : Option (List Nat)) (len : Nat) (w : World σ)
    (hkey : key ≠ 0) :
    ((probe k key w).1.1 ≠ kIOReturnSuccess →
      (_smcReadKey k key (some buf) maxLen w).ret = (probe k key w).1.1 ∧
      (_smcWriteKey k key outBuf len w).1 = (probe k key w).1.1) ∧
    ((probe k key w).1.1 = kIOReturnSuccess → (probe k key w).1.2.result = kSMCSuccess →
      (probe k key w).1.2.keyInfo.dataSize = N →
      ((exchange k (readRequest key N) (probe k key w).2).1.2.result = kSMCSuccess →
        (_smcReadKey k key (some buf) maxLen w).ret =
          (exchange k (readRequest key N) (probe k key w).2).1.1) ∧
      ((exchange k (writeRequest key N (writePayload outBuf len))
          (probe k key w).2).1.2.result = kSMCSuccess →
        (_smcWriteKey k key outBuf len w).1 =
          (exchange k (writeRequest key N (writePayload outBuf len)) (probe k key w).2).1.1)) := by
  constructor
  · intro hne
    rw [_smcReadKey_probe_failed k key buf maxLen w hkey (Or.inl hne),
      _smcWriteKey_probe_failed k key outBuf len w hkey (Or.inl hne)]
    simp only
    rw [if_pos hne]
    exact ⟨rfl, rfl⟩
  · intro hp hr hsize
    constructor
    · intro hxr
      have hnf : ¬ (exchange k (readRequest key N) (probe k key w).2).1.2.result
          = kSMCKeyNotFound := by
        rw [hxr]; decide
      rw [(_smcReadKey_ret_access k key N buf maxLen w hkey hp hr hsize).1, if_neg hnf,
        if_neg (fun h => h hxr)]
    · intro hxr
      rw [(_smcWriteKey_ret_access k key N outBuf len w hkey hp hr hsize).1,
        if_neg (fun h => h hxr)]

/-- C17, run on the scripted kernel: the transport fails at the probe (empty
script), and at the access exchange (script exhausted after the probe). -/
theorem C17_transport_status_passed_through_witness :
    ((_smcReadKey scripted CLWK (some [7, 7]) 2 (World.init [])).ret
        = (probe scripted CLWK (World.init [])).1.1 ∧
     (_smcWriteKey scripted CLWK (some [0, 1]) 2 (World.init [])).1
        = (probe scripted CLWK (World.init [])).1.1) ∧
    (_smcReadKey scripted CLWK (some [7, 7]) 2 (World.init [sizeReply 2])).ret =
      (exchange scripted (readRequest CLWK 2)
        (probe scripted CLWK (World.init [sizeReply 2])).2).1.1 ∧
    (_smcWriteKey scripted CLWK (some [0, 1]) 2 (World.init [sizeReply 2])).1 =
      (exchange scripted (writeRequest CLWK 2 (writePayload (some [0, 1]) 2))
        (probe scripted CLWK (World.init [sizeReply 2])).2).1.1 :=
  ⟨(C17_transport_status_passed_through scripted CLWK 2 [7, 7] 2 (some [0, 1]) 2
      (World.init []) (by decide)).1 (by decide),
   ((C17_transport_status_passed_through scripted CLWK 2 [7, 7] 2 (some [0, 1]) 2
      (World.init [sizeReply 2]) (by decide)).2 rfl rfl rfl).1 rfl,
   ((C17_transport_status_passed_through scripted CLWK 2 [7, 7] 2 (some [0, 1]) 2
      (World.init [sizeReply 2]) (by decide)).2 rfl rfl rfl).2 rfl⟩

/-- C17 as stated fails: on the scripted kernel the transport fails with
`kIOReturnError`, at the probe (empty script) or at the access exchange
(script exhausted after the probe), and `_smcReadKey` and `_smcWriteKey`
return `kIOReturnError`, not `kIOReturnInternalError`; and when the failing
read exchange leaves result `0x84` in the response, `_smcReadKey` returns
`kIOReturnNotFound`, so the status does depend on the reported result. -/
theorem C17_transport_counterexample :
    (probe scripted CLWK (World.init [])).1.1 = kIOReturnError ∧
    (_smcReadKey scripted CLWK (some [7, 7]) 2 (World.init [])).ret = kIOReturnError ∧
    (_smcWriteKey scripted CLWK (some [0, 1]) 2 (World.init [])).1 = kIOReturnError ∧
    (_smcReadKey scripted CLWK (some [7, 7]) 2 (World.init [sizeReply 2])).ret
      = kIOReturnError ∧
    (_smcWriteKey scripted CLWK (some [0, 1]) 2 (World.init [sizeReply 2])).1
      = kIOReturnError ∧
    (_smcReadKey scripted CLWK (some [7, 7]) 2
      (World.init [sizeReply 2,
        (kIOReturnError, { SMCParamStruct.zero with result := kSMCKeyNotFound })])).ret
      = kIOReturnNotFound ∧
    kIOReturnError ≠ kIOReturnInternalError ∧
    kIOReturnError ≠ kIOReturnSuccess := by
  refine ⟨rfl, rfl, rfl, rfl, rfl, rfl, ?_, ?_⟩ <;> decide

/-- C18: after a successful probe, a read exchange whose controller result
is not `kSMCSuccess` makes `_smcReadKey` return `kIOReturnNotFound` when the
result is `kSMCKeyNotFound` (0x84) and `kIOReturnInternalError` otherwise,
the mapping of the probe phase. -/
theorem C18_read_access_mapping {σ : Type} (k : IOKit σ) (key N : Nat) (buf : List Nat)
    (maxLen : Nat) (w : World σ) (hkey : key ≠ 0)
    (hp : (probe k key w).1.1 = kIOReturnSuccess)
    (hr : (probe k key w).1.2.result = kSMCSuccess)
    (hsize : (probe k key w).1.2.keyInfo.dataSize = N)
    (hres : (exchange k (readRequest key N) (probe k key w).2).1.2.result ≠ kSMCSuccess) :
    (_smcReadKey k key (some buf) maxLen w).ret =
      if (exchange k (readRequest key N) (probe k key w).2).1.2.result = kSMCKeyNotFound then
        kIOReturnNotFound
      else kIOReturnInternalError := by
  rw [(_smcReadKey_ret_access k key N buf maxLen w hkey hp hr hsize).1]
  split_ifs with h1
  · rfl
  · rfl

/-- C18, run on the scripted kernel: the read exchange reports 0x84. -/
theorem C18_read_access_mapping_witness :
    (_smcReadKey scripted CLWK (some [7, 7]) 2
      (World.init [sizeReply 2, resultReply kSMCKeyNotFound])).ret = kIOReturnNotFound :=
  C18_read_access_mapping scripted CLWK 2 [7, 7] 2
    (World.init [sizeReply 2, resultReply kSMCKeyNotFound]) (by decide) rfl rfl rfl (by decide)

/-- C19: after a successful probe, a write exchange whose controller result
is not `kSMCSuccess`, `kSMCKeyNotFound` (0x84) included, makes
`_smcWriteKey` return `kIOReturnInternalError`, which is not
`kIOReturnNotFound`. -/
theorem C19_write_access_mapping {σ : Type} (k : IOKit σ) (key N : Nat)
    (outBuf : Option (List Nat)) (len : Nat) (w : World σ) (hkey : key ≠ 0)
    (hp : (probe k key w).1.1 = kIOReturnSuccess)
    (hr : (probe k key w).1.2.result = kSMCSuccess)
    (hsize : (probe k key w).1.2.keyInfo.dataSize = N)
    (hres : (exchange k (writeRequest key N (writePayload outBuf len))
      (probe k key w).2).1.2.result ≠ kSMCSuccess) :
    (_smcWriteKey k key outBuf len w).1 = kIOReturnInternalError ∧
    kIOReturnInternalError ≠ kIOReturnNotFound := by
  rw [(_smcWriteKey_ret_access k key N outBuf len w hkey hp hr hsize).1, if_pos hres]
  exact ⟨rfl, by decide⟩

/-- C19, run on the scripted kernel: the write exchange reports 0x84. -/
theorem C19_write_access_mapping_witness :
    (_smcWriteKey scripted CLWK (some [0, 1]) 2
      (World.init [sizeReply 2, resultReply kSMCKeyNotFound])).1 = kIOReturnInternalError ∧
    kIOReturnInternalError ≠ kIOReturnNotFound :=
  C19_write_access_mapping scripted CLWK 2 (some [0, 1]) 2
    (World.init [sizeReply 2, resultReply kSMCKeyNotFound]) (by decide) rfl rfl rfl (by decide)

/-! ## Sessions per key access -/

/-- What one run of `callSMCFunction` adds to the counts of a trace: `s`
struct calls and successful user-client opens, `o` sessions established,
closed by `o` user-client closes and `o` `IOServiceClose` calls, with
`s ≤ o ≤ 1`. -/
theorem callSMCFunction_counts {σ : Type} (k : IOKit σ) (which : Nat)
    (inputValues outputValues : SMCParamStruct) (w : World σ) :
    ∃ s o, s ≤ o ∧ o ≤ 1 ∧
      structCalls (callSMCFunction k which inputValues outputValues w).2.trace
        = structCalls w.trace + s ∧
      userClientOpens (callSMCFunction k which inputValues outputValues w).2.trace
        = userClientOpens w.trace + s ∧
      serviceOpens (callSMCFunction k which inputValues outputValues w).2.trace
        = serviceOpens w.trace + o ∧
      serviceCloses (callSMCFunction k which inputValues outputValues w).2.trace
        = serviceCloses w.trace + o ∧
      userClientCloses (callSMCFunction k which inputValues outputValues w).2.trace
        = userClientCloses w.trace + o := by
  obtain ⟨evs, htrace, hcase⟩ := callSMCFunction_cases k which inputValues outputValues w
  rw [htrace]
  rcases hcase with ⟨rfl, _⟩ | ⟨smc, result, connect, _, hfail, rfl, _⟩ |
    ⟨smc, connect, result, closed, _, hc, hne, rfl, _⟩ |
    ⟨smc, connect, result, output, closed, _, hc, rfl, _⟩
  · refine ⟨0, 0, le_refl _, by omega, ?_, ?_, ?_, ?_, ?_⟩ <;>
    simp [structCalls, userClientOpens, serviceOpens, serviceCloses, userClientCloses,
      List.countP_append, List.countP_cons, isStructCall, isUserClientOpen, isServiceOpen,
      isServiceClose, isUserClientClose]
  · have hno : ¬ (result = kIOReturnSuccess ∧ ¬ connect = IO_OBJECT_NULL) := by
      rintro ⟨h1, h2⟩
      rcases hfail with h | h
      · exact h h1
      · exact h2 h
    refine ⟨0, 0, le_refl _, by omega, ?_, ?_, ?_, ?_, ?_⟩ <;>
    simp [structCalls, userClientOpens, serviceOpens, serviceCloses, userClientCloses,
      List.countP_append, List.countP_cons, isStructCall, isUserClientOpen, isServiceOpen,
      isServiceClose, isUserClientClose, hno]
  · refine ⟨0, 1, by omega, le_refl _, ?_, ?_, ?_, ?_, ?_⟩ <;>
    simp [structCalls, userClientOpens, serviceOpens, serviceCloses, userClientCloses,
      List.countP_append, List.countP_cons, isStructCall, isUserClientOpen, isServiceOpen,
      isServiceClose, isUserClientClose, hc, hne, kSMCUserClientOpen, kSMCUserClientClose]
  · refine ⟨1, 1, le_refl _, le_refl _, ?_, ?_, ?_, ?_, ?_⟩ <;>
    simp [structCalls, userClientOpens, serviceOpens, serviceCloses, userClientCloses,
      List.countP_append, List.countP_cons, isStructCall, isUserClientOpen, isServiceOpen,
      isServiceClose, isUserClientClose, hc, kSMCUserClientOpen, kSMCUserClientClose]

/-- A trace whose IOKit calls are those of `w` after at most two runs of
`callSMCFunction`, and in which two struct calls were made, shows two
sessions established and closed. -/
theorem sessions_of_two_exchanges {σ : Type} (k : IOKit σ) (r1 r2 : SMCParamStruct)
    (w : World σ) (tf : List Event)
    (hf : ioCalls tf = ioCalls w.trace ∨ ioCalls tf = ioCalls (exchange k r1 w).2.trace ∨
      ioCalls tf = ioCalls (exchange k r2 (exchange k r1 w).2).2.trace)
    (hs : structCalls tf = structCalls w.trace + 2) :
    serviceOpens tf = serviceOpens w.trace + 2 ∧
    serviceCloses tf = serviceCloses w.trace + 2 ∧
    userClientOpens tf = userClientOpens w.trace + 2 ∧
    userClientCloses tf = userClientCloses w.trace + 2 := by
  obtain ⟨s1, o1, h1a, h1b, h1s, h1u, h1o, h1c, h1uc⟩ :=
    callSMCFunction_counts k kSMCHandleYPCEvent r1 SMCParamStruct.zero w
  obtain ⟨s2, o2, h2a, h2b, h2s, h2u, h2o, h2c, h2uc⟩ :=
    callSMCFunction_counts k kSMCHandleYPCEvent r2 SMCParamStruct.zero (exchange k r1 w).2
  change structCalls (exchange k r1 w).2.trace = _ at h1s
  change userClientOpens (exchange k r1 w).2.trace = _ at h1u
  change serviceOpens (exchange k r1 w).2.trace = _ at h1o
  change serviceCloses (exchange k r1 w).2.trace = _ at h1c
  change userClientCloses (exchange k r1 w).2.trace = _ at h1uc
  change structCalls (exchange k r2 (exchange k r1 w).2).2.trace = _ at h2s
  change userClientOpens (exchange k r2 (exchange k r1 w).2).2.trace = _ at h2u
  change serviceOpens (exchange k r2 (exchange k r1 w).2).2.trace = _ at h2o
  change serviceCloses (exchange k r2 (exchange k r1 w).2).2.trace = _ at h2c
  change userClientCloses (exchange k r2 (exchange k r1 w).2).2.trace = _ at h2uc
  rw [← structCalls_ioCalls tf] at hs
  rw [← serviceOpens_ioCalls tf, ← serviceCloses_ioCalls tf, ← userClientOpens_ioCalls tf,
    ← userClientCloses_ioCalls tf]
  rcases hf with h | h | h <;> rw [h] at hs ⊢ <;>
    simp only [structCalls_ioCalls, serviceOpens_ioCalls, serviceCloses_ioCalls,
      userClientOpens_ioCalls, userClientCloses_ioCalls] at hs ⊢
  · omega
  · omega
  · refine ⟨?_, ?_, ?_, ?_⟩ <;> omega

/-- The IOKit calls in the trace `_smcReadKey` leaves are those of the world
it was given, or of the one after the probe, or of the one after the read
exchange that follows the probe. -/
theorem _smcReadKey_world {σ : Type} (k : IOKit σ) (key : Nat) (outBuf : Option (List Nat))
    (maxLen : Nat) (w : World σ) :
    ioCalls (_smcReadKey k key outBuf maxLen w).world.trace = ioCalls w.trace ∨
    ioCalls (_smcReadKey k key outBuf maxLen w).world.trace =
      ioCalls (exchange k (probeRequest key) w).2.trace ∨
    ioCalls (_smcReadKey k key outBuf maxLen w).world.trace =
      ioCalls (exchange k (readRequest key (probe k key w).1.2.keyInfo.dataSize)
        (exchange k (probeRequest key) w).2).2.trace := by
  cases outBuf with
  | none => exact Or.inl (by simp [_smcReadKey])
  | some buf =>
    by_cases hkey : key = 0
    · exact Or.inl (by simp [_smcReadKey, hkey])
    · by_cases hf : (probe k key w).1.1 ≠ kIOReturnSuccess ∨
          (probe k key w).1.2.result ≠ kSMCSuccess
      · rw [_smcReadKey_probe_failed k key buf maxLen w hkey hf]
        exact Or.inr (Or.inl rfl)
      · have hp : (probe k key w).1.1 = kIOReturnSuccess := by
          by_contra h; exact hf (Or.inl h)
        have hr : (probe k key w).1.2.result = kSMCSuccess := by
          by_contra h; exact hf (Or.inr h)
        exact Or.inr (Or.inr (_smcReadKey_ret_access k key _ buf maxLen w hkey hp hr rfl).2)

/-- The IOKit calls in the trace `_smcWriteKey` leaves, likewise. -/
theorem _smcWriteKey_world {σ : Type} (k : IOKit σ) (key : Nat) (outBuf : Option (List Nat))
    (len : Nat) (w : World σ) :
    ioCalls (_smcWriteKey k key outBuf len w).2.trace = ioCalls w.trace ∨
    ioCalls (_smcWriteKey k key outBuf len w).2.trace =
      ioCalls (exchange k (probeRequest key) w).2.trace ∨
    ioCalls (_smcWriteKey k key outBuf len w).2.trace =
      ioCalls (exchange k (writeRequest key (probe k key w).1.2.keyInfo.dataSize
          (writePayload outBuf len))
        (exchange k (probeRequest key) w).2).2.trace := by
  by_cases hkey : key = 0
  · exact Or.inl (by simp [_smcWriteKey, hkey])
  · by_cases hf : (probe k key w).1.1 ≠ kIOReturnSuccess ∨
        (probe k key w).1.2.result ≠ kSMCSuccess
    · rw [_smcWriteKey_probe_failed k key outBuf len w hkey hf]
      exact Or.inr (Or.inl rfl)
    · have hp : (probe k key w).1.1 = kIOReturnSuccess := by
        by_contra h; exact hf (Or.inl h)
      have hr : (probe k key w).1.2.result = kSMCSuccess := by
        by_contra h; exact hf (Or.inr h)
      exact Or.inr (Or.inr (_smcWriteKey_ret_access k key _ outBuf len w hkey hp hr rfl).2)

/-- C20 as amended: every exchange has a session of its own.  A
`_smcReadKey` or `_smcWriteKey` call that carries out both of its exchanges
(two struct calls, as every successful call against a kernel that grants
sessions does) records two sessions established by `IOServiceOpen` with two
successful user-client opens, and two user-client closes with two
`IOServiceClose` calls: the probe and the access exchange do not share a
session. -/
theorem C20_one_session_per_exchange {σ : Type} (k : IOKit σ) (key : Nat)
    (rbuf : Option (List Nat)) (maxLen : Nat) (outBuf : Option (List Nat)) (len : Nat)
    (w : World σ)
    (hread : structCalls (_smcReadKey k key rbuf maxLen w).world.trace
      = structCalls w.trace + 2)
    (hwrite : structCalls (_smcWriteKey k key outBuf len w).2.trace
      = structCalls w.trace + 2) :
    (serviceOpens (_smcReadKey k key rbuf maxLen w).world.trace = serviceOpens w.trace + 2 ∧
     serviceCloses (_smcReadKey k key rbuf maxLen w).world.trace
       = serviceCloses w.trace + 2 ∧
     userClientOpens (_smcReadKey k key rbuf maxLen w).world.trace
       = userClientOpens w.trace + 2 ∧
     userClientCloses (_smcReadKey k key rbuf maxLen w).world.trace
       = userClientCloses w.trace + 2) ∧
    (serviceOpens (_smcWriteKey k key outBuf len w).2.trace = serviceOpens w.trace + 2 ∧
     serviceCloses (_smcWriteKey k key outBuf len w).2.trace = serviceCloses w.trace + 2 ∧
     userClientOpens (_smcWriteKey k key outBuf len w).2.trace
       = userClientOpens w.trace + 2 ∧
     userClientCloses (_smcWriteKey k key outBuf len w).2.trace
       = userClientCloses w.trace + 2) := by
  constructor
  · have hw := _smcReadKey_world k key rbuf maxLen w
    exact sessions_of_two_exchanges k (probeRequest key)
      (readRequest key (probe k key w).1.2.keyInfo.dataSize) w _ hw hread
  · have hw := _smcWriteKey_world k key outBuf len w
    exact sessions_of_two_exchanges k (probeRequest key)
      (writeRequest key (probe k key w).1.2.keyInfo.dataSize (writePayload outBuf len)) w _
      hw hwrite

/-- C20, run on the mock controller: a successful read and a successful
write of the 2-byte key `CLWK`. -/
theorem C20_one_session_per_exchange_witness :
    (serviceOpens (_smcReadKey mockSMC CLWK (some [7, 7]) 2
        (World.init [(CLWK, 2, pad32 [])])).world.trace
       = serviceOpens (World.init [(CLWK, 2, pad32 [])] : World MockStore).trace + 2 ∧
     serviceCloses (_smcReadKey mockSMC CLWK (some [7, 7]) 2
        (World.init [(CLWK, 2, pad32 [])])).world.trace
       = serviceCloses (World.init [(CLWK, 2, pad32 [])] : World MockStore).trace + 2 ∧
     userClientOpens (_smcReadKey mockSMC CLWK (some [7, 7]) 2
        (World.init [(CLWK, 2, pad32 [])])).world.trace
       = userClientOpens (World.init [(CLWK, 2, pad32 [])] : World MockStore).trace + 2 ∧
     userClientCloses (_smcReadKey mockSMC CLWK (some [7, 7]) 2
        (World.init [(CLWK, 2, pad32 [])])).world.trace
       = userClientCloses (World.init [(CLWK, 2, pad32 [])] : World MockStore).trace + 2) ∧
    (serviceOpens (_smcWriteKey mockSMC CLWK (some [0, 1]) 2
        (World.init [(CLWK, 2, pad32 [])])).2.trace
       = serviceOpens (World.init [(CLWK, 2, pad32 [])] : World MockStore).trace + 2 ∧
     serviceCloses (_smcWriteKey mockSMC CLWK (some [0, 1]) 2
        (World.init [(CLWK, 2, pad32 [])])).2.trace
       = serviceCloses (World.init [(CLWK, 2, pad32 [])] : World MockStore).trace + 2 ∧
     userClientOpens (_smcWriteKey mockSMC CLWK (some [0, 1]) 2
        (World.init [(CLWK, 2, pad32 [])])).2.trace
       = userClientOpens (World.init [(CLWK, 2, pad32 [])] : World MockStore).trace + 2 ∧
     userClientCloses (_smcWriteKey mockSMC CLWK (some [0, 1]) 2
        (World.init [(CLWK, 2, pad32 [])])).2.trace
       = userClientCloses (World.init [(CLWK, 2, pad32 [])] : World MockStore).trace + 2) :=
  C20_one_session_per_exchange mockSMC CLWK (some [7, 7]) 2 (some [0, 1]) 2
    (World.init [(CLWK, 2, pad32 [])]) (by decide) (by decide)

/-- C20 as stated fails: on the mock controller a successful `_smcReadKey`
of the 2-byte key `CLWK`, started with an empty trace, records two
`IOServiceOpen` calls and two `IOServiceClose` calls, not one of each, and
the first session is closed before the read exchange is made; a successful
`_smcWriteKey` records two of each as well. -/
theorem C20_sessions_counterexample :
    (_smcReadKey mockSMC CLWK (some [7, 7]) 2 (World.init [(CLWK, 2, pad32 [])])).ret
      = kIOReturnSuccess ∧
    (_smcReadKey mockSMC CLWK (some [7, 7]) 2
      (World.init [(CLWK, 2, pad32 [])])).world.trace.filter
        (fun e => isServiceOpen e || isServiceClose e || isStructCall e) =
      [Event.IOServiceOpen 0x1003 kIOReturnSuccess 0x2003,
       Event.IOConnectCallStructMethod 0x2003 kSMCHandleYPCEvent (probeRequest CLWK)
         kIOReturnSuccess (sizeReply 2).2,
       Event.IOServiceClose 0x2003,
       Event.IOServiceOpen 0x1003 kIOReturnSuccess 0x2003,
       Event.IOConnectCallStructMethod 0x2003 kSMCHandleYPCEvent (readRequest CLWK 2)
         kIOReturnSuccess (dataReply []).2,
       Event.IOServiceClose 0x2003] ∧
    serviceOpens (_smcReadKey mockSMC CLWK (some [7, 7]) 2
      (World.init [(CLWK, 2, pad32 [])])).world.trace = 2 ∧
    serviceCloses (_smcReadKey mockSMC CLWK (some [7, 7]) 2
      (World.init [(CLWK, 2, pad32 [])])).world.trace = 2 ∧
    (_smcWriteKey mockSMC CLWK (some [0, 1]) 2 (World.init [(CLWK, 2, pad32 [])])).1
      = kIOReturnSuccess ∧
    serviceOpens (_smcWriteKey mockSMC CLWK (some [0, 1]) 2
      (World.init [(CLWK, 2, pad32 [])])).2.trace = 2 ∧
    serviceCloses (_smcWriteKey mockSMC CLWK (some [0, 1]) 2
      (World.init [(CLWK, 2, pad32 [])])).2.trace = 2 := by
  refine ⟨rfl, ?_, ?_, ?_, rfl, ?_, ?_⟩ <;> decide

/-! ## The requests of a key access -/

/-- The exchanges `_smcReadKey` adds to the trace: none, the probe, or the
probe followed by the read request for the size the probe reported. -/
theorem _smcReadKey_exchanges {σ : Type} (k : IOKit σ) (key : Nat) (outBuf : Option (List Nat))
    (maxLen : Nat) (w : World σ) :
    exchanges (_smcReadKey k key outBuf maxLen w).world.trace = exchanges w.trace ∨
    exchanges (_smcReadKey k key outBuf maxLen w).world.trace =
      exchanges w.trace ++ [(kSMCHandleYPCEvent, probeRequest key)] ∨
    exchanges (_smcReadKey k key outBuf maxLen w).world.trace =
      exchanges w.trace ++ [(kSMCHandleYPCEvent, probeRequest key),
        (kSMCHandleYPCEvent, readRequest key (probe k key w).1.2.keyInfo.dataSize)] := by
  rw [← exchanges_ioCalls (_smcReadKey k key outBuf maxLen w).world.trace]
  rcases _smcReadKey_world k key outBuf maxLen w with h | h | h
  · exact Or.inl (by rw [h, exchanges_ioCalls])
  · exact Or.inr (Or.inl (by rw [h, exchanges_ioCalls, exchange_exchanges]))
  · refine Or.inr (Or.inr ?_)
    rw [h, exchanges_ioCalls, exchange_exchanges, exchange_exchanges, List.append_assoc]
    rfl

/-- The exchanges `_smcWriteKey` adds to the trace, likewise. -/
theorem _smcWriteKey_exchanges {σ : Type} (k : IOKit σ) (key : Nat)
    (outBuf : Option (List Nat)) (len : Nat) (w : World σ) :
    exchanges (_smcWriteKey k key outBuf len w).2.trace = exchanges w.trace ∨
    exchanges (_smcWriteKey k key outBuf len w).2.trace =
      exchanges w.trace ++ [(kSMCHandleYPCEvent, probeRequest key)] ∨
    exchanges (_smcWriteKey k key outBuf len w).2.trace =
      exchanges w.trace ++ [(kSMCHandleYPCEvent, probeRequest key),
        (kSMCHandleYPCEvent, writeRequest key (probe k key w).1.2.keyInfo.dataSize
          (writePayload outBuf len))] := by
  rw [← exchanges_ioCalls (_smcWriteKey k key outBuf len w).2.trace]
  rcases _smcWriteKey_world k key outBuf len w with h | h | h
  · exact Or.inl (by rw [h, exchanges_ioCalls])
  · exact Or.inr (Or.inl (by rw [h, exchanges_ioCalls, exchange_exchanges]))
  · refine Or.inr (Or.inr ?_)
    rw [h, exchanges_ioCalls, exchange_exchanges, exchange_exchanges, List.append_assoc]
    rfl

/-- After a successful probe both exchanges are in the trace. -/
theorem _smcReadKey_exchanges_ok {σ : Type} (k : IOKit σ) (key N : Nat) (buf : List Nat)
    (maxLen : Nat) (w : World σ) (hkey : key ≠ 0)
    (hp : (probe k key w).1.1 = kIOReturnSuccess)
    (hr : (probe k key w).1.2.result = kSMCSuccess)
    (hsize : (probe k key w).1.2.keyInfo.dataSize = N) :
    exchanges (_smcReadKey k key (some buf) maxLen w).world.trace =
      exchanges w.trace ++ [(kSMCHandleYPCEvent, probeRequest key),
        (kSMCHandleYPCEvent, readRequest key N)] := by
  rw [← exchanges_ioCalls, (_smcReadKey_ret_access k key N buf maxLen w hkey hp hr hsize).2,
    exchanges_ioCalls, exchange_exchanges, probe_exchanges, List.append_assoc]
  rfl

/-- After a successful probe both exchanges are in the trace, write side. -/
theorem _smcWriteKey_exchanges_ok {σ : Type} (k : IOKit σ) (key N : Nat)
    (outBuf : Option (List Nat)) (len : Nat) (w : World σ) (hkey : key ≠ 0)
    (hp : (probe k key w).1.1 = kIOReturnSuccess)
    (hr : (probe k key w).1.2.result = kSMCSuccess)
    (hsize : (probe k key w).1.2.keyInfo.dataSize = N) :
    exchanges (_smcWriteKey k key outBuf len w).2.trace =
      exchanges w.trace ++ [(kSMCHandleYPCEvent, probeRequest key),
        (kSMCHandleYPCEvent, writeRequest key N (writePayload outBuf len))] := by
  rw [← exchanges_ioCalls, (_smcWriteKey_ret_access k key N outBuf len w hkey hp hr hsize).2,
    exchanges_ioCalls, exchange_exchanges, probe_exchanges, List.append_assoc]
  rfl

/-- The bytes of a padded payload: the payload, then zeros. -/
theorem byteAt_pad32 (payload : List Nat) (i : Nat) :
    byteAt (pad32 payload) i = if i < payload.length then byteAt payload i else 0 := by
  unfold byteAt pad32
  rw [List.getD_eq_getElem?_getD, List.getD_eq_getElem?_getD]
  split_ifs with h
  · rw [List.getElem?_append_left h]
  · rw [List.getElem?_append_right (by omega), List.getElem?_replicate]
    split_ifs <;> rfl

/-- C21: for a non-zero key, a caller payload `p` of length `len` in 0..255
and negotiated size `N`, the second exchange of `_smcWriteKey` goes through
selector 2 (`kSMCHandleYPCEvent`) with a request that carries sub-operation
6 (`kSMCWriteKey`) in `data8`, the same key, `keyInfo.dataSize = N`, a
32-byte payload whose byte `i` is `p[i]` for `i < min len 32` and 0 from
there on, and zero in every other field. -/
theorem C21_write_request {σ : Type} (k : IOKit σ) (key N len : Nat) (p : List Nat)
    (w : World σ) (hkey : key ≠ 0) (hlen : p.length = len) (_hlen255 : len ≤ 255)
    (hp : (probe k key w).1.1 = kIOReturnSuccess)
    (hr : (probe k key w).1.2.result = kSMCSuccess)
    (hsize : (probe k key w).1.2.keyInfo.dataSize = N) :
    ∃ req, exchanges (_smcWriteKey k key (some p) len w).2.trace =
        exchanges w.trace ++ [(2, probeRequest key), (2, req)] ∧
      req.data8 = 6 ∧ req.key = key ∧ req.keyInfo.dataSize = N ∧
      req.bytes.length = 32 ∧
      (∀ i, i < min len 32 → byteAt req.bytes i = byteAt p i) ∧
      (∀ i, min len 32 ≤ i → byteAt req.bytes i = 0) ∧
      req.vers = { major := 0, minor := 0, build := 0, reserved := 0, release := 0 } ∧
      req.pLimitData =
        { version := 0, length := 0, cpuPLimit := 0, gpuPLimit := 0, memPLimit := 0 } ∧
      req.keyInfo.dataType = 0 ∧ req.keyInfo.dataAttributes = 0 ∧
      req.result = 0 ∧ req.status = 0 ∧ req.data32 = 0 := by
  have hl : (p.take (min len 32)).length = min len 32 := by
    rw [List.length_take]; omega
  refine ⟨writeRequest key N (pad32 (p.take (min len 32))), ?_, rfl, rfl, rfl, ?_, ?_, ?_,
    rfl, rfl, rfl, rfl, rfl, rfl, rfl⟩
  · rw [_smcWriteKey_exchanges_ok k key N (some p) len w hkey hp hr hsize,
      writePayload_some p len (by omega)]
    rfl
  · change (pad32 (p.take (min len 32))).length = 32
    simp only [pad32, List.length_append, List.length_replicate, hl]
    omega
  · intro i hi
    change byteAt (pad32 (p.take (min len 32))) i = byteAt p i
    rw [byteAt_pad32, hl, if_pos hi]
    unfold byteAt
    rw [List.getD_eq_getElem?_getD, List.getD_eq_getElem?_getD, List.getElem?_take_of_lt hi]
  · intro i hi
    change byteAt (pad32 (p.take (min len 32))) i = 0
    rw [byteAt_pad32, hl, if_neg (by omega)]

/-- C21, run on the scripted kernel: 40 caller bytes, negotiated size 2. -/
theorem C21_write_request_witness :
    ∃ req, exchanges (_smcWriteKey scripted CLWK (some (List.range 40)) 40
          (World.init [sizeReply 2, resultReply kSMCSuccess])).2.trace =
        exchanges (World.init [sizeReply 2, resultReply kSMCSuccess] :
          World (List (Nat × SMCParamStruct))).trace ++ [(2, probeRequest CLWK), (2, req)] ∧
      req.data8 = 6 ∧ req.key = CLWK ∧ req.keyInfo.dataSize = 2 ∧
      req.bytes.length = 32 ∧
      (∀ i, i < min 40 32 → byteAt req.bytes i = byteAt (List.range 40) i) ∧
      (∀ i, min 40 32 ≤ i → byteAt req.bytes i = 0) ∧
      req.vers = { major := 0, minor := 0, build := 0, reserved := 0, release := 0 } ∧
      req.pLimitData =
        { version := 0, length := 0, cpuPLimit := 0, gpuPLimit := 0, memPLimit := 0 } ∧
      req.keyInfo.dataType = 0 ∧ req.keyInfo.dataAttributes = 0 ∧
      req.result = 0 ∧ req.status = 0 ∧ req.data32 = 0 :=
  C21_write_request scripted CLWK 2 40 (List.range 40)
    (World.init [sizeReply 2, resultReply kSMCSuccess]) (by decide) rfl (by decide) rfl rfl rfl

/-- C22: on every kernel and for all arguments, the exchanges a
`_smcReadKey` or `_smcWriteKey` call adds to the trace are an initial part
of the fixed sequence "probe, access": nothing, or the probe, or the probe
followed by the access request, so at most two exchanges and none issued
twice.  When the key is non-zero and the probe succeeds there are exactly
two, both through selector 2: first the request with sub-operation 9
(`kSMCGetKeyInfo`) and the key, every other field zero, then the request
with sub-operation 5 (`kSMCReadKey`) or 6 (`kSMCWriteKey`), the same key and
the `dataSize` the probe returned. -/
theorem C22_two_exchanges_in_order {σ : Type} (k : IOKit σ) (key : Nat)
    (rbuf : Option (List Nat)) (maxLen : Nat) (outBuf : Option (List Nat)) (len : Nat)
    (w : World σ) :
    (∃ added, exchanges (_smcReadKey k key rbuf maxLen w).world.trace
        = exchanges w.trace ++ added ∧ added.length ≤ 2 ∧
      added <+: [(2, probeRequest key),
        (2, readRequest key (probe k key w).1.2.keyInfo.dataSize)]) ∧
    (∃ added, exchanges (_smcWriteKey k key outBuf len w).2.trace
        = exchanges w.trace ++ added ∧ added.length ≤ 2 ∧
      added <+: [(2, probeRequest key),
        (2, writeRequest key (probe k key w).1.2.keyInfo.dataSize
          (writePayload outBuf len))]) ∧
    (key ≠ 0 → (probe k key w).1.1 = kIOReturnSuccess →
      (probe k key w).1.2.result = kSMCSuccess →
      (∀ buf, exchanges (_smcReadKey k key (some buf) maxLen w).world.trace =
        exchanges w.trace ++ [(2, probeRequest key),
          (2, readRequest key (probe k key w).1.2.keyInfo.dataSize)]) ∧
      exchanges (_smcWriteKey k key outBuf len w).2.trace =
        exchanges w.trace ++ [(2, probeRequest key),
          (2, writeRequest key (probe k key w).1.2.keyInfo.dataSize
            (writePayload outBuf len))]) ∧
    (probeRequest key).data8 = 9 ∧ (probeRequest key).key = key ∧
    { probeRequest key with data8 := 0, key := 0 } = SMCParamStruct.zero ∧
    (∀ n, (readRequest key n).data8 = 5 ∧ (readRequest key n).key = key ∧
      (readRequest key n).keyInfo.dataSize = n) ∧
    (∀ n payload, (writeRequest key n payload).data8 = 6 ∧
      (writeRequest key n payload).key = key ∧
      (writeRequest key n payload).keyInfo.dataSize = n) := by
  refine ⟨?_, ?_, ?_, rfl, rfl, rfl, fun n => ⟨rfl, rfl, rfl⟩, fun n payload => ⟨rfl, rfl, rfl⟩⟩
  · rcases _smcReadKey_exchanges k key rbuf maxLen w with h | h | h
    · exact ⟨[], by rw [h, List.append_nil], by simp, List.nil_prefix⟩
    · exact ⟨[(2, probeRequest key)], h, by simp, ⟨[_], rfl⟩⟩
    · exact ⟨_, h, by simp, List.prefix_refl _⟩
  · rcases _smcWriteKey_exchanges k key outBuf len w with h | h | h
    · exact ⟨[], by rw [h, List.append_nil], by simp, List.nil_prefix⟩
    · exact ⟨[(2, probeRequest key)], h, by simp, ⟨[_], rfl⟩⟩
    · exact ⟨_, h, by simp, List.prefix_refl _⟩
  · intro hkey hp hr
    exact ⟨fun buf => _smcReadKey_exchanges_ok k key _ buf maxLen w hkey hp hr rfl,
      _smcWriteKey_exchanges_ok k key _ outBuf len w hkey hp hr rfl⟩

/-- C23: on a little-endian host, for a non-zero key other than `ACID` whose
negotiated size `N` is at most 4, a successful `_getSystemManagementKeyInt32`
stores in `*val` the number whose digits in base 256, most significant
first, are the first `N` payload bytes: the sum over `i < N` of
`p_i * 256 ^ (N - 1 - i)`, which is 0 for `N = 0`. -/
theorem C23_read_int32 {σ : Type} (k : IOKit σ) (key N v : Nat) (w : World σ)
    (hkey : key ≠ 0) (hacid : key ≠ ACID) (hN : N ≤ 4)
    (hp : (probe k key w).1.1 = kIOReturnSuccess)
    (hr : (probe k key w).1.2.result = kSMCSuccess)
    (hsize : (probe k key w).1.2.keyInfo.dataSize = N)
    (hx : (exchange k (readRequest key N) (probe k key w).2).1.1 = kIOReturnSuccess)
    (hxr : (exchange k (readRequest key N) (probe k key w).2).1.2.result = kSMCSuccess) :
    (_getSystemManagementKeyInt32 false k key (some v) w).1 =
      (kIOReturnSuccess,
       some (((List.range N).map (fun i =>
         byteAt (exchange k (readRequest key N) (probe k key w).2).1.2.bytes i
           * 256 ^ (N - 1 - i))).sum)) := by
  have hacid2 : ¬ ACID = key := fun e => hacid e.symm
  simp only [_getSystemManagementKeyInt32, Bool.not_false, if_true, Option.map_some']
  rw [_smcReadKey_success k key N 4 (toBytesLE 4 v) w hkey (by omega)
    (by rw [toBytesLE_length]) hp hr hsize hxr]
  simp only [Option.map_some', hx]
  rw [bzero_drop_eq (toBytesLE 4 v) 4 (min N 4) (Nat.min_le_right _ _)
    (by rw [toBytesLE_length])]
  have hcases : N = 0 ∨ N = 1 ∨ N = 2 ∨ N = 3 ∨ N = 4 := by omega
  rcases hcases with rfl | rfl | rfl | rfl | rfl
  · rfl
  · simp [List.range_succ, readIndex, hacid2, ofBytesLE]
  · simp [List.range_succ, readIndex, hacid2, ofBytesLE]
    omega
  · simp [List.range_succ, readIndex, hacid2, ofBytesLE]
    omega
  · simp [List.range_succ, readIndex, hacid2, ofBytesLE]
    omega

/-- C23, run on the scripted kernel: a 2-byte key with payload `0x12, 0x34`
reads as `0x1234`. -/
theorem C23_read_int32_witness :
    (_getSystemManagementKeyInt32 false scripted CLWK (some 99)
      (World.init [sizeReply 2, dataReply [0x12, 0x34]])).1 =
      (kIOReturnSuccess,
       some (((List.range 2).map (fun i =>
         byteAt (exchange scripted (readRequest CLWK 2)
           (probe scripted CLWK (World.init [sizeReply 2, dataReply [0x12, 0x34]])).2).1.2.bytes i
           * 256 ^ (2 - 1 - i))).sum)) :=
  C23_read_int32 scripted CLWK 2 99 (World.init [sizeReply 2, dataReply [0x12, 0x34]])
    (by decide) (by decide) (by decide) rfl rfl rfl rfl rfl

/-- The status of a failed probe phase is not success. -/
theorem failed_probe_status_ne_success (ret result : Nat) :
    (if ret ≠ kIOReturnSuccess then ret
     else if result = kSMCKeyNotFound then kIOReturnNotFound
     else kIOReturnInternalError) ≠ kIOReturnSuccess := by
  split_ifs with h1 h2
  · exact h1
  · decide
  · decide

/-- C24: `_smcReadKey` returns success exactly when the key is non-zero, the
buffer is present, the probe and the read exchange both return success and
both responses carry controller result 0; `_smcWriteKey` returns success
exactly when the key is non-zero, the probe and the write exchange both
return success and both responses carry result 0.  After a successful probe
the status is decided by the controller result of the access exchange
first (`kIOReturnNotFound` for 0x84 on the read side,
`kIOReturnInternalError` for any other non-zero result) and is the transport
status of the access exchange, unchanged, when that result is 0. -/
theorem C24_success_characterisation {σ : Type} (k : IOKit σ) (key : Nat)
    (rbuf : Option (List Nat)) (maxLen : Nat) (outBuf : Option (List Nat)) (len : Nat)
    (w : World σ) :
    ((_smcReadKey k key rbuf maxLen w).ret = kIOReturnSuccess ↔
      key ≠ 0 ∧ rbuf ≠ none ∧
      (probe k key w).1.1 = kIOReturnSuccess ∧ (probe k key w).1.2.result = kSMCSuccess ∧
      (exchange k (readRequest key (probe k key w).1.2.keyInfo.dataSize)
        (probe k key w).2).1.1 = kIOReturnSuccess ∧
      (exchange k (readRequest key (probe k key w).1.2.keyInfo.dataSize)
        (probe k key w).2).1.2.result = kSMCSuccess) ∧
    ((_smcWriteKey k key outBuf len w).1 = kIOReturnSuccess ↔
      key ≠ 0 ∧
      (probe k key w).1.1 = kIOReturnSuccess ∧ (probe k key w).1.2.result = kSMCSuccess ∧
      (exchange k (writeRequest key (probe k key w).1.2.keyInfo.dataSize
        (writePayload outBuf len)) (probe k key w).2).1.1 = kIOReturnSuccess ∧
      (exchange k (writeRequest key (probe k key w).1.2.keyInfo.dataSize
        (writePayload outBuf len)) (probe k key w).2).1.2.result = kSMCSuccess) ∧
    (key ≠ 0 → (probe k key w).1.1 = kIOReturnSuccess →
      (probe k key w).1.2.result = kSMCSuccess →
      (∀ buf, (_smcReadKey k key (some buf) maxLen w).ret =
        if (exchange k (readRequest key (probe k key w).1.2.keyInfo.dataSize)
            (probe k key w).2).1.2.result = kSMCKeyNotFound then kIOReturnNotFound
        else if (exchange k (readRequest key (probe k key w).1.2.keyInfo.dataSize)
            (probe k key w).2).1.2.result ≠ kSMCSuccess then kIOReturnInternalError
        else (exchange k (readRequest key (probe k key w).1.2.keyInfo.dataSize)
            (probe k key w).2).1.1) ∧
      (_smcWriteKey k key outBuf len w).1 =
        if (exchange k (writeRequest key (probe k key w).1.2.keyInfo.dataSize
            (writePayload outBuf len)) (probe k key w).2).1.2.result ≠ kSMCSuccess then
          kIOReturnInternalError
        else (exchange k (writeRequest key (probe k key w).1.2.keyInfo.dataSize
            (writePayload outBuf len)) (probe k key w).2).1.1) := by
  have hcw : kIOReturnCannotWire ≠ kIOReturnSuccess := by decide
  have hnf : kIOReturnNotFound ≠ kIOReturnSuccess := by decide
  have hie : kIOReturnInternalError ≠ kIOReturnSuccess := by decide
  have h84 : kSMCKeyNotFound ≠ kSMCSuccess := by decide
  refine ⟨?_, ?_, ?_⟩
  · cases rbuf with
    | none =>
      have e : (_smcReadKey k key none maxLen w).ret = kIOReturnCannotWire := by
        simp [_smcReadKey]
      rw [e]
      exact ⟨fun h => absurd h hcw, fun h => absurd rfl h.2.1⟩
    | some buf =>
      by_cases hkey : key = 0
      · have e : (_smcReadKey k key (some buf) maxLen w).ret = kIOReturnCannotWire := by
          simp [_smcReadKey, hkey]
        rw [e]
        exact ⟨fun h => absurd h hcw, fun h => absurd hkey h.1⟩
      · by_cases hf : (probe k key w).1.1 ≠ kIOReturnSuccess ∨
            (probe k key w).1.2.result ≠ kSMCSuccess
        · rw [_smcReadKey_probe_failed k key buf maxLen w hkey hf]
          refine ⟨fun h => absurd h (failed_probe_status_ne_success _ _), fun h => ?_⟩
          rcases hf with hf | hf
          · exact absurd h.2.2.1 hf
          · exact absurd h.2.2.2.1 hf
        · have hp : (probe k key w).1.1 = kIOReturnSuccess := by
            by_contra h; exact hf (Or.inl h)
          have hr : (probe k key w).1.2.result = kSMCSuccess := by
            by_contra h; exact hf (Or.inr h)
          rw [(_smcReadKey_ret_access k key _ buf maxLen w hkey hp hr rfl).1]
          constructor
          · intro h
            split_ifs at h with h1 h2
            · exact absurd h hnf
            · exact absurd h hie
            · exact ⟨hkey, by simp, hp, hr, h, not_not.mp h2⟩
          · rintro ⟨_, _, _, _, hx, hxr⟩
            rw [if_neg (by rw [hxr]; exact fun e => h84 e.symm), if_neg (fun h => h hxr)]
            exact hx
  · by_cases hkey : key = 0
    · have e : (_smcWriteKey k key outBuf len w).1 = kIOReturnCannotWire := by
        simp [_smcWriteKey, hkey]
      rw [e]
      exact ⟨fun h => absurd h hcw, fun h => absurd hkey h.1⟩
    · by_cases hf : (probe k key w).1.1 ≠ kIOReturnSuccess ∨
          (probe k key w).1.2.result ≠ kSMCSuccess
      · rw [_smcWriteKey_probe_failed k key outBuf len w hkey hf]
        refine ⟨fun h => absurd h (failed_probe_status_ne_success _ _), fun h => ?_⟩
        rcases hf with hf | hf
        · exact absurd h.2.1 hf
        · exact absurd h.2.2.1 hf
      · have hp : (probe k key w).1.1 = kIOReturnSuccess := by
          by_contra h; exact hf (Or.inl h)
        have hr : (probe k key w).1.2.result = kSMCSuccess := by
          by_contra h; exact hf (Or.inr h)
        rw [(_smcWriteKey_ret_access k key _ outBuf len w hkey hp hr rfl).1]
        constructor
        · intro h
          split_ifs at h with h1
          · exact absurd h hie
          · exact ⟨hkey, hp, hr, h, not_not.mp h1⟩
        · rintro ⟨_, _, _, hx, hxr⟩
          rw [if_neg (fun h => h hxr)]
          exact hx
  · intro hkey hp hr
    exact ⟨fun buf => (_smcReadKey_ret_access k key _ buf maxLen w hkey hp hr rfl).1,
      (_smcWriteKey_ret_access k key _ outBuf len w hkey hp hr rfl).1⟩

/-- C25: for a non-zero key and a present buffer, if `_smcReadKey` fails in
the probe phase (transport error or non-success result) or because the
controller result of the read exchange is not success, the reported length
is still `maxLen` and the caller's buffer is the one it passed with its
first `maxLen` bytes set to zero: those bytes are all 0, the length of the
buffer and the bytes past `maxLen` are as before, and no payload byte has
been copied. -/
theorem C25_state_on_failure {σ : Type} (k : IOKit σ) (key : Nat) (buf : List Nat)
    (maxLen : Nat) (w : World σ) (hkey : key ≠ 0)
    (hfail : (probe k key w).1.1 ≠ kIOReturnSuccess ∨
      (probe k key w).1.2.result ≠ kSMCSuccess ∨
      (exchange k (readRequest key (probe k key w).1.2.keyInfo.dataSize)
        (probe k key w).2).1.2.result ≠ kSMCSuccess) :
    (_smcReadKey k key (some buf) maxLen w).ret ≠ kIOReturnSuccess ∧
    (_smcReadKey k key (some buf) maxLen w).outBufMax = maxLen ∧
    (_smcReadKey k key (some buf) maxLen w).outBuf = some (bzero buf maxLen) ∧
    (bzero buf maxLen).length = buf.length ∧
    (∀ i, i < maxLen → byteAt (bzero buf maxLen) i = 0) ∧
    (∀ i, maxLen ≤ i → byteAt (bzero buf maxLen) i = byteAt buf i) := by
  have hnf : kIOReturnNotFound ≠ kIOReturnSuccess := by decide
  have hie : kIOReturnInternalError ≠ kIOReturnSuccess := by decide
  have hframe : ∀ i, maxLen ≤ i → byteAt (bzero buf maxLen) i = byteAt buf i := by
    intro i hi
    unfold byteAt bzero
    rw [List.getD_eq_getElem?_getD, List.getD_eq_getElem?_getD]
    by_cases hle : maxLen ≤ buf.length
    · rw [List.getElem?_append_right (by simp; omega)]
      simp only [List.length_map, List.length_take, List.getElem?_drop, Nat.min_eq_left hle]
      congr 2
      omega
    · rw [List.getElem?_eq_none (by simp; omega), List.getElem?_eq_none (by omega)]
  refine ⟨?_, ?_, ?_, bzero_length buf maxLen, fun i hi => byteAt_bzero_lt buf maxLen i hi,
    hframe⟩
  all_goals
    by_cases hf : (probe k key w).1.1 ≠ kIOReturnSuccess ∨
        (probe k key w).1.2.result ≠ kSMCSuccess
    · rw [_smcReadKey_probe_failed k key buf maxLen w hkey hf]
      try exact failed_probe_status_ne_success _ _
    · have hp : (probe k key w).1.1 = kIOReturnSuccess := by
        by_contra h; exact hf (Or.inl h)
      have hr : (probe k key w).1.2.result = kSMCSuccess := by
        by_contra h; exact hf (Or.inr h)
      have hx : (exchange k (readRequest key (probe k key w).1.2.keyInfo.dataSize)
          (probe k key w).2).1.2.result ≠ kSMCSuccess := by
        rcases hfail with h | h | h
        · exact absurd hp h
        · exact absurd hr h
        · exact h
      rw [_smcReadKey_probe_ok k key buf maxLen w hkey hp hr]
      simp only
      split_ifs with h1
      · first
          | exact hnf
          | rfl
      · first
          | exact hie
          | rfl

/-- C25, run on the scripted kernel: the read exchange reports `kSMCError`
and the 3-byte buffer, read with length 2, comes back as `[0, 0, 7]`. -/
theorem C25_state_on_failure_witness :
    (_smcReadKey scripted CLWK (some [7, 7, 7]) 2
      (World.init [sizeReply 2, resultReply kSMCError])).ret ≠ kIOReturnSuccess ∧
    (_smcReadKey scripted CLWK (some [7, 7, 7]) 2
      (World.init [sizeReply 2, resultReply kSMCError])).outBufMax = 2 ∧
    (_smcReadKey scripted CLWK (some [7, 7, 7]) 2
      (World.init [sizeReply 2, resultReply kSMCError])).outBuf = some (bzero [7, 7, 7] 2) ∧
    (bzero [7, 7, 7] 2).length = [7, 7, 7].length ∧
    (∀ i, i < 2 → byteAt (bzero [7, 7, 7] 2) i = 0) ∧
    (∀ i, 2 ≤ i → byteAt (bzero [7, 7, 7] 2) i = byteAt [7, 7, 7] i) :=
  C25_state_on_failure scripted CLWK [7, 7, 7] 2
    (World.init [sizeReply 2, resultReply kSMCError]) (by decide)
    (Or.inr (Or.inr (by decide)))

/-- C26: `_smcWriteKey` with a non-zero key and a null payload buffer is not
rejected: after a successful probe it issues the write request for the
negotiated size with all 32 payload bytes zero, whatever the length argument
is, and it returns success when the write exchange succeeds too. -/
theorem C26_write_null_buffer {σ : Type} (k : IOKit σ) (key N len : Nat) (w : World σ)
    (hkey : key ≠ 0)
    (hp : (probe k key w).1.1 = kIOReturnSuccess)
    (hr : (probe k key w).1.2.result = kSMCSuccess)
    (hsize : (probe k key w).1.2.keyInfo.dataSize = N)
    (hx : (exchange k (writeRequest key N (List.replicate 32 0))
      (probe k key w).2).1.1 = kIOReturnSuccess)
    (hxr : (exchange k (writeRequest key N (List.replicate 32 0))
      (probe k key w).2).1.2.result = kSMCSuccess) :
    (_smcWriteKey k key none len w).1 = kIOReturnSuccess ∧
    (_smcWriteKey k key none len w).1 ≠ kIOReturnCannotWire ∧
    exchanges (_smcWriteKey k key none len w).2.trace =
      exchanges w.trace ++ [(kSMCHandleYPCEvent, probeRequest key),
        (kSMCHandleYPCEvent, writeRequest key N (List.replicate 32 0))] := by
  have hpay : writePayload none len = List.replicate 32 0 := rfl
  have hret : (_smcWriteKey k key none len w).1 = kIOReturnSuccess := by
    rw [(_smcWriteKey_ret_access k key N none len w hkey hp hr hsize).1, hpay,
      if_neg (fun h => h hxr)]
    exact hx
  refine ⟨hret, ?_, ?_⟩
  · rw [hret]
    decide
  · rw [_smcWriteKey_exchanges_ok k key N none len w hkey hp hr hsize, hpay]

/-- C26, run on the mock controller: key `CLWK`, null buffer, length 200. -/
theorem C26_write_null_buffer_witness :
    (_smcWriteKey mockSMC CLWK none 200 (World.init [(CLWK, 2, pad32 [1, 2])])).1
      = kIOReturnSuccess ∧
    (_smcWriteKey mockSMC CLWK none 200 (World.init [(CLWK, 2, pad32 [1, 2])])).1
      ≠ kIOReturnCannotWire ∧
    exchanges (_smcWriteKey mockSMC CLWK none 200
        (World.init [(CLWK, 2, pad32 [1, 2])])).2.trace =
      exchanges (World.init [(CLWK, 2, pad32 [1, 2])] : World MockStore).trace ++
        [(kSMCHandleYPCEvent, probeRequest CLWK),
         (kSMCHandleYPCEvent, writeRequest CLWK 2 (List.replicate 32 0))] :=
  C26_write_null_buffer mockSMC CLWK 2 200 (World.init [(CLWK, 2, pad32 [1, 2])])
    (by decide) rfl rfl rfl rfl rfl

/-- The events a run of `callSMCFunction` adds to the trace: its own entry
and IOKit calls, no copy event. -/
theorem callSMCFunction_adds {σ : Type} (k : IOKit σ) (which : Nat)
    (inputValues outputValues : SMCParamStruct) (w : World σ) :
    ∃ evs, (∀ e ∈ evs, isCopy e = false) ∧
      (callSMCFunction k which inputValues outputValues w).2.trace = w.trace ++ evs := by
  unfold callSMCFunction callSMCFunction.exit
  simp only [World.record, IOServiceGetMatchingService, IOServiceOpen,
    IOConnectCallMethod, IOConnectCallStructMethod, IOServiceClose]
  split_ifs <;> simp only [List.append_assoc] <;>
    exact ⟨_, by simp [isCopy], rfl⟩

/-- The trace `_smcReadKey` leaves: the events of its exchanges, then, when
both exchanges were made and the read reported result 0, the copy events of
its loop. -/
theorem _smcReadKey_trace {σ : Type} (k : IOKit σ) (key : Nat) (outBuf : Option (List Nat))
    (maxLen : Nat) (w : World σ) :
    ∃ evs, (∀ e ∈ evs, isCopy e = false) ∧
      (_smcReadKey k key outBuf maxLen w).world.trace = w.trace ++ (evs ++
        if key ≠ 0 ∧ outBuf ≠ none ∧ (probe k key w).1.1 = kIOReturnSuccess ∧
            (probe k key w).1.2.result = kSMCSuccess ∧
            (exchange k (readRequest key (probe k key w).1.2.keyInfo.dataSize)
              (probe k key w).2).1.2.result = kSMCSuccess
        then readCopies key maxLen (probe k key w).1.2.keyInfo.dataSize else []) := by
  cases outBuf with
  | none => exact ⟨[], by simp, by simp [_smcReadKey]⟩
  | some buf =>
    by_cases hkey : key = 0
    · exact ⟨[], by simp, by simp [_smcReadKey, hkey]⟩
    · obtain ⟨e1, he1, ht1⟩ :=
        callSMCFunction_adds k kSMCHandleYPCEvent (probeRequest key) SMCParamStruct.zero w
      change (probe k key w).2.trace = _ at ht1
      by_cases hf : (probe k key w).1.1 ≠ kIOReturnSuccess ∨
          (probe k key w).1.2.result ≠ kSMCSuccess
      · refine ⟨e1, he1, ?_⟩
        have hc : ¬ (key ≠ 0 ∧ some buf ≠ none ∧ (probe k key w).1.1 = kIOReturnSuccess ∧
            (probe k key w).1.2.result = kSMCSuccess ∧
            (exchange k (readRequest key (probe k key w).1.2.keyInfo.dataSize)
              (probe k key w).2).1.2.result = kSMCSuccess) := by
          rintro ⟨_, _, h1, h2, _⟩
          rcases hf with h | h
          · exact h h1
          · exact h h2
        rw [_smcReadKey_probe_failed k key buf maxLen w hkey hf, if_neg hc, List.append_nil]
        exact ht1
      · have hp : (probe k key w).1.1 = kIOReturnSuccess := by
          by_contra h; exact hf (Or.inl h)
        have hr : (probe k key w).1.2.result = kSMCSuccess := by
          by_contra h; exact hf (Or.inr h)
        obtain ⟨e2, he2, ht2⟩ :=
          callSMCFunction_adds k kSMCHandleYPCEvent
            (readRequest key (probe k key w).1.2.keyInfo.dataSize) SMCParamStruct.zero
            (probe k key w).2
        change (exchange k (readRequest key (probe k key w).1.2.keyInfo.dataSize)
          (probe k key w).2).2.trace = _ at ht2
        refine ⟨e1 ++ e2, ?_, ?_⟩
        · intro e he
          rcases List.mem_append.mp he with h | h
          · exact he1 e h
          · exact he2 e h
        · rw [_smcReadKey_probe_ok k key buf maxLen w hkey hp hr]
          simp only
          by_cases hxr : (exchange k (readRequest key (probe k key w).1.2.keyInfo.dataSize)
              (probe k key w).2).1.2.result = kSMCSuccess
          · have hnf : ¬ (exchange k (readRequest key (probe k key w).1.2.keyInfo.dataSize)
                (probe k key w).2).1.2.result = kSMCKeyNotFound := by
              rw [hxr]; decide
            rw [if_neg hnf, if_neg (fun h => h hxr),
              if_pos ⟨hkey, by simp, hp, hr, hxr⟩]
            simp only [World.log, ht2, ht1, List.append_assoc]
          · have hc : ¬ (key ≠ 0 ∧ some buf ≠ none ∧
                (probe k key w).1.1 = kIOReturnSuccess ∧
                (probe k key w).1.2.result = kSMCSuccess ∧
                (exchange k (readRequest key (probe k key w).1.2.keyInfo.dataSize)
                  (probe k key w).2).1.2.result = kSMCSuccess) := fun h => hxr h.2.2.2.2
            rw [if_neg hc, List.append_nil, if_pos hxr]
            split_ifs <;> simp only [ht2, ht1, List.append_assoc]

/-- The trace `_smcWriteKey` leaves: the events of the probe, then, when the
probe succeeded, the copy events of its loop and the events of the write
exchange. -/
theorem _smcWriteKey_trace {σ : Type} (k : IOKit σ) (key : Nat) (outBuf : Option (List Nat))
    (len : Nat) (w : World σ) :
    ∃ e1 e2, (∀ e ∈ e1, isCopy e = false) ∧ (∀ e ∈ e2, isCopy e = false) ∧
      (_smcWriteKey k key outBuf len w).2.trace = w.trace ++ (e1 ++
        ((if key ≠ 0 ∧ (probe k key w).1.1 = kIOReturnSuccess ∧
            (probe k key w).1.2.result = kSMCSuccess
          then writeCopies outBuf len else []) ++ e2)) := by
  by_cases hkey : key = 0
  · exact ⟨[], [], by simp, by simp, by simp [_smcWriteKey, hkey]⟩
  · obtain ⟨e1, he1, ht1⟩ :=
      callSMCFunction_adds k kSMCHandleYPCEvent (probeRequest key) SMCParamStruct.zero w
    change (probe k key w).2.trace = _ at ht1
    by_cases hf : (probe k key w).1.1 ≠ kIOReturnSuccess ∨
        (probe k key w).1.2.result ≠ kSMCSuccess
    · refine ⟨e1, [], he1, by simp, ?_⟩
      have hc : ¬ (key ≠ 0 ∧ (probe k key w).1.1 = kIOReturnSuccess ∧
          (probe k key w).1.2.result = kSMCSuccess) := by
        rintro ⟨_, h1, h2⟩
        rcases hf with h | h
        · exact h h1
        · exact h h2
      rw [_smcWriteKey_probe_failed k key outBuf len w hkey hf, if_neg hc]
      simpa using ht1
    · have hp : (probe k key w).1.1 = kIOReturnSuccess := by
        by_contra h; exact hf (Or.inl h)
      have hr : (probe k key w).1.2.result = kSMCSuccess := by
        by_contra h; exact hf (Or.inr h)
      obtain ⟨e2, he2, ht2⟩ :=
        callSMCFunction_adds k kSMCHandleYPCEvent
          (writeRequest key (probe k key w).1.2.keyInfo.dataSize (writePayload outBuf len))
          SMCParamStruct.zero ((probe k key w).2.log (writeCopies outBuf len))
      change (exchange k (writeRequest key (probe k key w).1.2.keyInfo.dataSize
        (writePayload outBuf len)) ((probe k key w).2.log (writeCopies outBuf len))).2.trace
          = _ at ht2
      refine ⟨e1, e2, he1, he2, ?_⟩
      have hc : key ≠ 0 ∧ (probe k key w).1.1 = kIOReturnSuccess ∧
          (probe k key w).1.2.result = kSMCSuccess := ⟨hkey, hp, hr⟩
      simp only [World.log, ht1, List.append_assoc] at ht2
      rw [_smcWriteKey_probe_ok k key outBuf len w hkey hp hr, if_pos hc]
      simp only
      split_ifs <;> simp only [World.log, ht1, List.append_assoc] <;> exact ht2

/-- C27: the trace holds one copy event per iteration of the two copy loops,
with the indices the iteration uses.  For `maxLen` and `len` in 0..255: when
the size the probe reports is at most 32, every copy event `_smcReadKey`
adds reads `stuffMeOut.bytes` below index 32 and writes `outBuf` below
`maxLen`, and after a successful read every index below both `maxLen` and
the size is written by one of them; every copy event `_smcWriteKey` adds
reads `outBuf` below `len` and writes `stuffMeIn.bytes` below index 32, and
when the probe succeeded and a buffer was given every index below both `len`
and 32 is written by one of them; and when the reported size and `maxLen`
both exceed 32, a read that reaches its loop adds a copy event that reads
`stuffMeOut.bytes` at an index of 32 or more. -/
theorem C27_bounds {σ : Type} (k : IOKit σ) (key maxLen len : Nat)
    (rbuf outBuf : Option (List Nat)) (w : World σ) (hmax : maxLen ≤ 255)
    (_hlen : len ≤ 255) :
    ((probe k key w).1.2.keyInfo.dataSize ≤ 32 →
      ∃ added, (_smcReadKey k key rbuf maxLen w).world.trace = w.trace ++ added ∧
        (∀ i j, Event.readCopy i j ∈ added → i < 32 ∧ j < maxLen) ∧
        (key ≠ 0 → rbuf ≠ none → (probe k key w).1.1 = kIOReturnSuccess →
          (probe k key w).1.2.result = kSMCSuccess →
          (exchange k (readRequest key (probe k key w).1.2.keyInfo.dataSize)
            (probe k key w).2).1.2.result = kSMCSuccess →
          ∀ j, j < maxLen → j < (probe k key w).1.2.keyInfo.dataSize →
            ∃ i, Event.readCopy i j ∈ added)) ∧
    (∃ added, (_smcWriteKey k key outBuf len w).2.trace = w.trace ++ added ∧
        (∀ i j, Event.writeCopy i j ∈ added → i < len ∧ j < 32) ∧
        (key ≠ 0 → outBuf ≠ none → (probe k key w).1.1 = kIOReturnSuccess →
          (probe k key w).1.2.result = kSMCSuccess →
          ∀ j, j < len → j < 32 → Event.writeCopy j j ∈ added)) ∧
    (32 < (probe k key w).1.2.keyInfo.dataSize → 32 < maxLen →
      key ≠ 0 → rbuf ≠ none → (probe k key w).1.1 = kIOReturnSuccess →
      (probe k key w).1.2.result = kSMCSuccess →
      (exchange k (readRequest key (probe k key w).1.2.keyInfo.dataSize)
        (probe k key w).2).1.2.result = kSMCSuccess →
      ∃ added i j, (_smcReadKey k key rbuf maxLen w).world.trace = w.trace ++ added ∧
        Event.readCopy i j ∈ added ∧ 32 ≤ i) := by
  have hclip : clipped maxLen (probe k key w).1.2.keyInfo.dataSize =
      min (probe k key w).1.2.keyInfo.dataSize maxLen := clipped_eq_min maxLen _ (by omega)
  obtain ⟨evs, hevs, htr⟩ := _smcReadKey_trace k key rbuf maxLen w
  obtain ⟨e1, e2, he1, he2, htw⟩ := _smcWriteKey_trace k key outBuf len w
  generalize (probe k key w).1.2.keyInfo.dataSize = N at hclip htr htw ⊢
  refine ⟨?_, ?_, ?_⟩
  · intro hN
    refine ⟨_, htr, ?_, ?_⟩
    · intro i j hmem
      rcases List.mem_append.mp hmem with h | h
      · exact absurd (hevs _ h) (by simp [isCopy])
      · split_ifs at h
        · simp only [readCopies, List.mem_map, List.mem_range, Event.readCopy.injEq] at h
          obtain ⟨a, ha, h1, h2⟩ := h
          rw [hclip] at ha h1
          simp only [readIndex] at h1
          split_ifs at h1 <;> omega
        · simp at h
    · intro hkey hbuf hp hr hxr j hj1 hj2
      rw [if_pos ⟨hkey, hbuf, hp, hr, hxr⟩]
      refine ⟨readIndex key (clipped maxLen N) j, List.mem_append_right _ ?_⟩
      simp only [readCopies, List.mem_map, List.mem_range]
      exact ⟨j, by rw [hclip]; omega, rfl⟩
  · refine ⟨_, htw, ?_, ?_⟩
    · intro i j hmem
      rcases List.mem_append.mp hmem with h | h
      · exact absurd (he1 _ h) (by simp [isCopy])
      · rcases List.mem_append.mp h with h | h
        · split_ifs at h
          · cases outBuf with
            | none => simp [writeCopies] at h
            | some p =>
              simp only [writeCopies, List.mem_map, List.mem_range,
                Event.writeCopy.injEq] at h
              obtain ⟨a, ha, h1, h2⟩ := h
              split_ifs at ha <;> omega
          · simp at h
        · exact absurd (he2 _ h) (by simp [isCopy])
    · intro hkey hbuf hp hr j hj1 hj2
      rw [if_pos ⟨hkey, hp, hr⟩]
      refine List.mem_append_right _ (List.mem_append_left _ ?_)
      cases outBuf with
      | none => exact absurd rfl hbuf
      | some p =>
        simp only [writeCopies, List.mem_map, List.mem_range]
        exact ⟨j, by split_ifs <;> omega, rfl⟩
  · intro hN hm hkey hbuf hp hr hxr
    rw [if_pos ⟨hkey, hbuf, hp, hr, hxr⟩] at htr
    refine ⟨_, readIndex key (clipped maxLen N) (if ACID = key then min N maxLen - 1 else 0),
      if ACID = key then min N maxLen - 1 else 0, htr, List.mem_append_right _ ?_, ?_⟩
    · simp only [readCopies, List.mem_map, List.mem_range]
      refine ⟨if ACID = key then min N maxLen - 1 else 0, ?_, rfl⟩
      rw [hclip]
      split_ifs <;> omega
    · rw [hclip]
      simp only [readIndex]
      split_ifs <;> omega

/-- C27, run on the mock controller for key `CLWK`.  With a stored size of
8, a read of 4 bytes adds four copy events, all inside the arrays, and a
write of 40 bytes adds copy events for the payload indices 0..31 only (one
for index 31, none for index 32); with a stored size of 40, a read of 40
bytes adds a copy event that reads `stuffMeOut.bytes` at index 39. -/
theorem C27_bounds_witness :
    (∃ added, (_smcReadKey mockSMC CLWK (some [7, 7, 7, 7]) 4
          (World.init [(CLWK, 8, pad32 [1, 2, 3, 4, 5, 6, 7, 8])])).world.trace =
        (World.init [(CLWK, 8, pad32 [1, 2, 3, 4, 5, 6, 7, 8])] : World MockStore).trace ++ added ∧
      (∀ i j, Event.readCopy i j ∈ added → i < 32 ∧ j < 4) ∧
      (∀ j, j < 4 → j < 8 → ∃ i, Event.readCopy i j ∈ added)) ∧
    (∃ added, (_smcWriteKey mockSMC CLWK (some (List.range 40)) 40
          (World.init [(CLWK, 8, pad32 [1, 2, 3, 4, 5, 6, 7, 8])])).2.trace =
        (World.init [(CLWK, 8, pad32 [1, 2, 3, 4, 5, 6, 7, 8])] : World MockStore).trace ++ added ∧
      (∀ i j, Event.writeCopy i j ∈ added → i < 40 ∧ j < 32) ∧
      (∀ j, j < 40 → j < 32 → Event.writeCopy j j ∈ added)) ∧
    (∃ added i j, (_smcReadKey mockSMC CLWK (some (List.replicate 40 7)) 40
          (World.init [(CLWK, 40, pad32 [])])).world.trace =
        (World.init [(CLWK, 40, pad32 [])] : World MockStore).trace ++ added ∧
      Event.readCopy i j ∈ added ∧ 32 ≤ i) ∧
    (_smcReadKey mockSMC CLWK (some [7, 7, 7, 7]) 4
        (World.init [(CLWK, 8, pad32 [1, 2, 3, 4, 5, 6, 7, 8])])).world.trace.filter isCopy =
      [Event.readCopy 3 0, Event.readCopy 2 1, Event.readCopy 1 2, Event.readCopy 0 3] ∧
    Event.readCopy 39 0 ∈ (_smcReadKey mockSMC CLWK (some (List.replicate 40 7)) 40
        (World.init [(CLWK, 40, pad32 [])])).world.trace ∧
    Event.writeCopy 31 31 ∈ (_smcWriteKey mockSMC CLWK (some (List.range 40)) 40
        (World.init [(CLWK, 8, pad32 [1, 2, 3, 4, 5, 6, 7, 8])])).2.trace ∧
    Event.writeCopy 32 32 ∉ (_smcWriteKey mockSMC CLWK (some (List.range 40)) 40
        (World.init [(CLWK, 8, pad32 [1, 2, 3, 4, 5, 6, 7, 8])])).2.trace :=
  ⟨Exists.imp (fun _ h => ⟨h.1, h.2.1, h.2.2 (by decide) (by decide) rfl rfl rfl⟩)
      ((C27_bounds mockSMC CLWK 4 40 (some [7, 7, 7, 7]) (some (List.range 40))
        (World.init [(CLWK, 8, pad32 [1, 2, 3, 4, 5, 6, 7, 8])]) (by decide) (by decide)).1
        (by decide)),
   Exists.imp (fun _ h => ⟨h.1, h.2.1, h.2.2 (by decide) (by decide) rfl rfl⟩)
      (C27_bounds mockSMC CLWK 4 40 (some [7, 7, 7, 7]) (some (List.range 40))
        (World.init [(CLWK, 8, pad32 [1, 2, 3, 4, 5, 6, 7, 8])]) (by decide) (by decide)).2.1,
   (C27_bounds mockSMC CLWK 40 40 (some (List.replicate 40 7)) none
      (World.init [(CLWK, 40, pad32 [])]) (by decide) (by decide)).2.2
      (by decide) (by decide) (by decide) (by decide) rfl rfl rfl,
   by decide, by decide, by decide, by decide⟩

/-- C28: `_smcWakeTimerGetResults` returns the status of its `_smcReadKey`
of `CLWK` and, when that status is not success, leaves `*mSec` as it was.
When the read succeeds with negotiated size `N ≤ 2` and payload bytes `p0`,
`p1` (each below 256), it stores `256 * p0 + p1` for `N = 2`, `p0` for
`N = 1` and 0 for `N = 0`, whatever the local buffer held at entry. -/
theorem C28_wake_timer_results {σ : Type} (k : IOKit σ) (N buf0 buf1 mSec : Nat)
    (w : World σ) (hN : N ≤ 2)
    (hp : (probe k CLWK w).1.1 = kIOReturnSuccess)
    (hr : (probe k CLWK w).1.2.result = kSMCSuccess)
    (hsize : (probe k CLWK w).1.2.keyInfo.dataSize = N)
    (hx : (exchange k (readRequest CLWK N) (probe k CLWK w).2).1.1 = kIOReturnSuccess)
    (hxr : (exchange k (readRequest CLWK N) (probe k CLWK w).2).1.2.result = kSMCSuccess)
    (hp0 : byteAt (exchange k (readRequest CLWK N) (probe k CLWK w).2).1.2.bytes 0 < 256)
    (hp1 : byteAt (exchange k (readRequest CLWK N) (probe k CLWK w).2).1.2.bytes 1 < 256) :
    (∀ (w2 : World σ) (c0 c1 m : Nat),
      (_smcWakeTimerGetResults false k c0 c1 m w2).1.1 =
        (_smcReadKey k CLWK (some [c0, c1]) 2 w2).ret ∧
      ((_smcWakeTimerGetResults false k c0 c1 m w2).1.1 ≠ kIOReturnSuccess →
        (_smcWakeTimerGetResults false k c0 c1 m w2).1.2 = m)) ∧
    (_smcWakeTimerGetResults false k buf0 buf1 mSec w).1 =
      (kIOReturnSuccess,
       if N = 2 then
         256 * byteAt (exchange k (readRequest CLWK N) (probe k CLWK w).2).1.2.bytes 0
           + byteAt (exchange k (readRequest CLWK N) (probe k CLWK w).2).1.2.bytes 1
       else if N = 1 then
         byteAt (exchange k (readRequest CLWK N) (probe k CLWK w).2).1.2.bytes 0
       else 0) := by
  have hkey : CLWK ≠ 0 := by decide
  have hacid : ¬ ACID = CLWK := by decide
  constructor
  · intro w2 c0 c1 m
    simp only [_smcWakeTimerGetResults, Bool.not_false, if_true]
    by_cases h : kIOReturnSuccess = (_smcReadKey k CLWK (some [c0, c1]) 2 w2).ret
    · rw [if_pos h]
      exact ⟨rfl, fun hne => absurd h.symm hne⟩
    · rw [if_neg h]
      exact ⟨rfl, fun _ => rfl⟩
  · simp only [_smcWakeTimerGetResults, Bool.not_false, if_true]
    rw [_smcReadKey_success k CLWK N 2 [buf0, buf1] w hkey (by omega) (by simp) hp hr hsize hxr]
    simp only [hx, if_true, Option.getD_some]
    generalize (exchange k (readRequest CLWK N) (probe k CLWK w).2).1.2.bytes = bs at hp0 hp1 ⊢
    have hcases : N = 0 ∨ N = 1 ∨ N = 2 := by omega
    rcases hcases with rfl | rfl | rfl
    · simp [byteAt, bzero]
    · change (kIOReturnSuccess, (byteAt bs 0 ||| 0 <<< 8) % 65536)
        = (kIOReturnSuccess, byteAt bs 0)
      rw [Nat.zero_shiftLeft, Nat.or_zero, Nat.mod_eq_of_lt (by omega)]
    · change (kIOReturnSuccess, (byteAt bs 1 ||| byteAt bs 0 <<< 8) % 65536)
        = (kIOReturnSuccess, 256 * byteAt bs 0 + byteAt bs 1)
      have h8 : byteAt bs 1 < 2 ^ 8 := by omega
      rw [Nat.shiftLeft_eq, Nat.or_comm, Nat.mul_comm, ← Nat.mul_add_lt_is_or h8,
        Nat.mod_eq_of_lt (by omega)]

/-- C28, run on the scripted kernel: size 2, payload `0x12, 0x34`. -/
theorem C28_wake_timer_results_witness :
    (∀ (w2 : World (List (Nat × SMCParamStruct))) (c0 c1 m : Nat),
      (_smcWakeTimerGetResults false scripted c0 c1 m w2).1.1 =
        (_smcReadKey scripted CLWK (some [c0, c1]) 2 w2).ret ∧
      ((_smcWakeTimerGetResults false scripted c0 c1 m w2).1.1 ≠ kIOReturnSuccess →
        (_smcWakeTimerGetResults false scripted c0 c1 m w2).1.2 = m)) ∧
    (_smcWakeTimerGetResults false scripted 7 7 99
      (World.init [sizeReply 2, dataReply [0x12, 0x34]])).1 =
      (kIOReturnSuccess,
       if 2 = 2 then
         256 * byteAt (exchange scripted (readRequest CLWK 2)
             (probe scripted CLWK
               (World.init [sizeReply 2, dataReply [0x12, 0x34]])).2).1.2.bytes 0
           + byteAt (exchange scripted (readRequest CLWK 2)
             (probe scripted CLWK
               (World.init [sizeReply 2, dataReply [0x12, 0x34]])).2).1.2.bytes 1
       else if 2 = 1 then
         byteAt (exchange scripted (readRequest CLWK 2)
           (probe scripted CLWK
             (World.init [sizeReply 2, dataReply [0x12, 0x34]])).2).1.2.bytes 0
       else 0) :=
  C28_wake_timer_results scripted 2 7 7 99 (World.init [sizeReply 2, dataReply [0x12, 0x34]])
    (by decide) rfl rfl rfl rfl rfl (by decide) (by decide)

/-! ## The wake-event arbiter -/

/-- The choice phase leaves the statics as they are. -/
theorem schedule_state {T : Type} [LinearOrder T] [Zero T] (answers : PowerAnswers)
    (st : ChooseState T) :
    (_pm_scheduledevent_choose_best_wake_event.schedule answers st).state = st := by
  unfold _pm_scheduledevent_choose_best_wake_event.schedule
  simp only
  split_ifs <;> first | rfl | (split <;> rfl)

/-- The statics after one call: the selector's update and nothing else. -/
theorem choose_state {T : Type} [LinearOrder T] [Zero T] (c : ChooseSelectors)
    (answers : PowerAnswers) (selector : Int) (chosenTime : CFAbsoluteTime T)
    (st : ChooseState T) :
    (_pm_scheduledevent_choose_best_wake_event c answers selector chosenTime st).state =
      _pm_scheduledevent_choose_best_wake_event.update c selector chosenTime st :=
  schedule_state answers _

/-- Scheduling happens only with both flags set. -/
theorem schedule_scheduled_flags {T : Type} [LinearOrder T] [Zero T] (answers : PowerAnswers)
    (st : ChooseState T)
    (h : (_pm_scheduledevent_choose_best_wake_event.schedule answers st).scheduled ≠ none) :
    st.PMConnectionReported = true ∧ st.AutoWakeReported = true := by
  have hno : (!(st.PMConnectionReported && st.AutoWakeReported)) = true →
      (_pm_scheduledevent_choose_best_wake_event.schedule answers st).scheduled = none := by
    intro hf
    unfold _pm_scheduledevent_choose_best_wake_event.schedule
    simp only
    rw [if_pos hf]
  cases hA : st.PMConnectionReported <;> cases hB : st.AutoWakeReported
  · exact absurd (hno (by rw [hA, hB]; rfl)) h
  · exact absurd (hno (by rw [hA, hB]; rfl)) h
  · exact absurd (hno (by rw [hA, hB]; rfl)) h
  · exact ⟨rfl, rfl⟩

/-- A reset call, from any statics and whatever the system would answer:
success, nothing scheduled, the statics cleared. -/
theorem choose_reset {T : Type} [LinearOrder T] [Zero T] (c : ChooseSelectors)
    (answers : PowerAnswers) (chosenTime : CFAbsoluteTime T) (st : ChooseState T) :
    _pm_scheduledevent_choose_best_wake_event c answers c.kChooseReset chosenTime st =
      { ret := kIOReturnSuccess, state := ChooseState.init, scheduled := none } := by
  unfold _pm_scheduledevent_choose_best_wake_event
    _pm_scheduledevent_choose_best_wake_event.update
    _pm_scheduledevent_choose_best_wake_event.schedule
  simp only [if_true, Bool.and_self, Bool.not_false]
  rfl

/-- Past a history without reset, `sinceReset` keeps what it had and adds
the history. -/
theorem sinceReset_foldl_no_reset {T : Type} (c : ChooseSelectors)
    (post acc : List (ChooseCall T)) (h : ∀ y ∈ post, c.kChooseReset ≠ y.selector) :
    post.foldl (fun acc x => if c.kChooseReset = x.selector then [] else acc ++ [x]) acc
      = acc ++ post := by
  induction post generalizing acc with
  | nil => simp
  | cons x rest ih =>
    have hx : c.kChooseReset ≠ x.selector := h x (List.mem_cons_self _ _)
    simp only [List.foldl_cons, if_neg hx]
    rw [ih _ (fun y hy => h y (List.mem_cons_of_mem _ hy))]
    simp

/-- `sinceReset` is what its name says: of a history `pre ++ r :: post` in
which `r` is a reset and `post` holds none, it keeps `post`. -/
theorem sinceReset_after_reset {T : Type} (c : ChooseSelectors)
    (pre post : List (ChooseCall T)) (r : ChooseCall T) (hr : c.kChooseReset = r.selector)
    (h : ∀ y ∈ post, c.kChooseReset ≠ y.selector) :
    sinceReset c (pre ++ r :: post) = post := by
  unfold sinceReset
  rw [List.foldl_append, List.foldl_cons, if_pos hr, sinceReset_foldl_no_reset c post [] h]
  rfl

/-- The flags tell of calls made since the last reset: the invariant that
links the statics to the history, kept by every call. -/
theorem flags_invariant {T : Type} [LinearOrder T] [Zero T] (c : ChooseSelectors)
    (calls : List (ChooseCall T)) (st : ChooseState T) (acc : List (ChooseCall T))
    (hpm : st.PMConnectionReported = true → ∃ y ∈ acc, y.selector = c.kChooseMaintenance)
    (hauto : st.AutoWakeReported = true → ∃ y ∈ acc, y.selector = c.kChooseFullWake) :
    ((chooseRun c calls st).PMConnectionReported = true →
      ∃ y ∈ calls.foldl
        (fun acc x => if c.kChooseReset = x.selector then [] else acc ++ [x]) acc,
        y.selector = c.kChooseMaintenance) ∧
    ((chooseRun c calls st).AutoWakeReported = true →
      ∃ y ∈ calls.foldl
        (fun acc x => if c.kChooseReset = x.selector then [] else acc ++ [x]) acc,
        y.selector = c.kChooseFullWake) := by
  induction calls generalizing st acc with
  | nil => exact ⟨hpm, hauto⟩
  | cons x rest ih =>
    unfold chooseRun
    simp only [List.foldl_cons]
    rw [choose_state]
    apply ih
    · unfold _pm_scheduledevent_choose_best_wake_event.update
      split_ifs with h1 h2 h3
      · intro h; exact absurd h (by decide)
      · intro _; exact ⟨x, by simp, h2.symm⟩
      · intro h
        obtain ⟨y, hy, hys⟩ := hpm h
        exact ⟨y, by simp [hy], hys⟩
      · intro h
        obtain ⟨y, hy, hys⟩ := hpm h
        exact ⟨y, by simp [hy], hys⟩
    · unfold _pm_scheduledevent_choose_best_wake_event.update
      split_ifs with h1 h2 h3
      · intro h; exact absurd h (by decide)
      · intro h
        obtain ⟨y, hy, hys⟩ := hauto h
        exact ⟨y, by simp [hy], hys⟩
      · intro _; exact ⟨x, by simp, h3.symm⟩
      · intro h
        obtain ⟨y, hy, hys⟩ := hauto h
        exact ⟨y, by simp [hy], hys⟩

/-- C29: over every history of calls from program start, the call `x` that
follows the history `calls` schedules a power event only if the calls made
since the most recent reset, `x` included, hold a `kChooseMaintenance` call
and a `kChooseFullWake` call; and a `kChooseReset` call, from any statics,
returns success, schedules nothing and leaves both times 0 and both flags
false. -/
theorem C29_arbiter_gating {T : Type} [LinearOrder T] [Zero T] (c : ChooseSelectors)
    (calls : List (ChooseCall T)) (x : ChooseCall T) :
    ((_pm_scheduledevent_choose_best_wake_event c x.answers x.selector x.chosenTime
        (chooseRun c calls ChooseState.init)).scheduled ≠ none →
      (∃ y ∈ sinceReset c (calls ++ [x]), y.selector = c.kChooseMaintenance) ∧
      (∃ y ∈ sinceReset c (calls ++ [x]), y.selector = c.kChooseFullWake)) ∧
    (∀ (answers : PowerAnswers) (chosenTime : CFAbsoluteTime T) (st : ChooseState T),
      _pm_scheduledevent_choose_best_wake_event c answers c.kChooseReset chosenTime st =
        { ret := kIOReturnSuccess
          state := { chosenMaintTime := some 0, chosenWakeTime := some 0
                     PMConnectionReported := false, AutoWakeReported := false }
          scheduled := none }) := by
  refine ⟨?_, fun answers chosenTime st => choose_reset c answers chosenTime st⟩
  intro hs
  have hflags := schedule_scheduled_flags x.answers _ hs
  have hinv := flags_invariant c (calls ++ [x]) ChooseState.init []
    (fun h => Bool.noConfusion h) (fun h => Bool.noConfusion h)
  have hrun : chooseRun c (calls ++ [x]) ChooseState.init =
      _pm_scheduledevent_choose_best_wake_event.update c x.selector x.chosenTime
        (chooseRun c calls ChooseState.init) := by
    unfold chooseRun
    rw [List.foldl_append, List.foldl_cons, List.foldl_nil, choose_state]
  rw [hrun] at hinv
  exact ⟨hinv.1 hflags.1, hinv.2 hflags.2⟩

/-- The choice phase on statics with both flags set and two numbers as
times, when `CFDateCreate` delivers. -/
theorem schedule_numbers {T : Type} [LinearOrder T] [Zero T] (answers : PowerAnswers)
    (m w : T) (hdate : answers.dateCreated = true) :
    (_pm_scheduledevent_choose_best_wake_event.schedule answers
      { chosenMaintTime := some m, chosenWakeTime := some w
        PMConnectionReported := true, AutoWakeReported := true }).scheduled =
      if m = 0 ∧ w = 0 then none
      else if m = 0 ∨ (w ≠ 0 ∧ w ≤ m) then
        some (WakeType.kIOPMAutoWakeScheduleImmediate, some w)
      else some (WakeType.kIOPMMaintenanceScheduleImmediate, some m) := by
  unfold _pm_scheduledevent_choose_best_wake_event.schedule
    _pm_scheduledevent_choose_best_wake_event.choice
  by_cases hm0 : m = 0
  · by_cases hw0 : w = 0
    · simp [timeIsZero, hm0, hw0]
    · simp [timeIsZero, timeLe, timeGt, hm0, hw0, hdate]
  · by_cases hw0 : w = 0
    · simp [timeIsZero, timeLe, timeGt, hm0, hw0, hdate]
    · by_cases hle : w ≤ m
      · simp [timeIsZero, timeLe, timeGt, hm0, hw0, hle, hdate]
      · have hgt : m < w := lt_of_not_ge hle
        simp [timeIsZero, timeLe, timeGt, hm0, hw0, hle, hgt, hdate]

/-- When one of the two times is a NaN and the other a non-zero number, no
branch of the choice applies and nothing is scheduled. -/
theorem schedule_nan {T : Type} [LinearOrder T] [Zero T] (answers : PowerAnswers)
    (t : T) (ht : t ≠ 0) :
    (_pm_scheduledevent_choose_best_wake_event.schedule answers
      { chosenMaintTime := none, chosenWakeTime := some t
        PMConnectionReported := true, AutoWakeReported := true }).scheduled = none ∧
    (_pm_scheduledevent_choose_best_wake_event.schedule answers
      { chosenMaintTime := some t, chosenWakeTime := none
        PMConnectionReported := true, AutoWakeReported := true }).scheduled = none := by
  unfold _pm_scheduledevent_choose_best_wake_event.schedule
    _pm_scheduledevent_choose_best_wake_event.choice
  constructor <;> simp [timeIsZero, timeLe, timeGt, ht]

/-- The last report after one more call. -/
theorem lastReport_append_singleton {T : Type} (selector : Int) (acc : List (ChooseCall T))
    (x : ChooseCall T) :
    lastReport selector (acc ++ [x]) =
      if x.selector = selector then some x.chosenTime else lastReport selector acc := by
  simp [lastReport, List.foldl_append]

/-- The statics are what the calls since the last reset reported: a flag is
set exactly when a call of its kind was made, and the time stored is the one
the most recent such call carried, or 0 when there was none.  The invariant
is kept by every call, for selector constants that tell a maintenance call
from a full-wake call. -/
theorem statics_invariant {T : Type} [LinearOrder T] [Zero T] (c : ChooseSelectors)
    (hsel : c.kChooseMaintenance ≠ c.kChooseFullWake)
    (calls : List (ChooseCall T)) (st : ChooseState T) (acc : List (ChooseCall T))
    (hpm : st.PMConnectionReported = (lastReport c.kChooseMaintenance acc).isSome)
    (hmt : st.chosenMaintTime = (lastReport c.kChooseMaintenance acc).getD (some 0))
    (hauto : st.AutoWakeReported = (lastReport c.kChooseFullWake acc).isSome)
    (hwt : st.chosenWakeTime = (lastReport c.kChooseFullWake acc).getD (some 0)) :
    (chooseRun c calls st).PMConnectionReported =
      (lastReport c.kChooseMaintenance (calls.foldl
        (fun acc x => if c.kChooseReset = x.selector then [] else acc ++ [x]) acc)).isSome ∧
    (chooseRun c calls st).chosenMaintTime =
      (lastReport c.kChooseMaintenance (calls.foldl
        (fun acc x => if c.kChooseReset = x.selector then [] else acc ++ [x]) acc)).getD
          (some 0) ∧
    (chooseRun c calls st).AutoWakeReported =
      (lastReport c.kChooseFullWake (calls.foldl
        (fun acc x => if c.kChooseReset = x.selector then [] else acc ++ [x]) acc)).isSome ∧
    (chooseRun c calls st).chosenWakeTime =
      (lastReport c.kChooseFullWake (calls.foldl
        (fun acc x => if c.kChooseReset = x.selector then [] else acc ++ [x]) acc)).getD
          (some 0) := by
  induction calls generalizing st acc with
  | nil => exact ⟨hpm, hmt, hauto, hwt⟩
  | cons x rest ih =>
    unfold chooseRun
    simp only [List.foldl_cons]
    rw [choose_state]
    by_cases h1 : c.kChooseReset = x.selector
    · apply ih <;>
        simp [_pm_scheduledevent_choose_best_wake_event.update, h1, lastReport]
    · by_cases h2 : c.kChooseMaintenance = x.selector
      · have h3 : ¬ x.selector = c.kChooseFullWake := fun e => hsel (h2.trans e)
        apply ih <;>
          simp only [_pm_scheduledevent_choose_best_wake_event.update, if_neg h1, if_pos h2,
            lastReport_append_singleton, if_pos h2.symm, if_neg h3, Option.isSome_some,
            Option.getD_some, hauto, hwt]
      · have h2b : ¬ x.selector = c.kChooseMaintenance := fun e => h2 e.symm
        by_cases h3 : c.kChooseFullWake = x.selector
        · apply ih <;>
            simp only [_pm_scheduledevent_choose_best_wake_event.update, if_neg h1, if_neg h2,
              if_pos h3, lastReport_append_singleton, if_pos h3.symm, if_neg h2b,
              Option.isSome_some, Option.getD_some, hpm, hmt]
        · have h3b : ¬ x.selector = c.kChooseFullWake := fun e => h3 e.symm
          apply ih <;>
            simp only [_pm_scheduledevent_choose_best_wake_event.update, if_neg h1, if_neg h2,
              if_neg h3, lastReport_append_singleton, if_neg h2b, if_neg h3b, hpm, hmt, hauto,
              hwt]

/-- C30 as amended: over every history of calls from program start, for
selector constants that tell a maintenance call from a full-wake call: when
the most recent maintenance call and the most recent full-wake call since
the last reset, the present call `x` included, carried the numbers `m` and
`w` (not NaN), and `CFDateCreate` returns a date during `x`, then `x`
schedules nothing if `m = 0` and `w = 0`, the full wake at `w` if `m = 0` or
(`w ≠ 0` and `w ≤ m`), and the maintenance wake at `m` in every remaining
case.  The scheduled time is one of the two times, is not 0, and is at most
each of the two times that is not 0. -/
theorem C30_arbiter_choice {T : Type} [LinearOrder T] [Zero T] (c : ChooseSelectors)
    (calls : List (ChooseCall T)) (x : ChooseCall T) (m w : T)
    (hsel : c.kChooseMaintenance ≠ c.kChooseFullWake)
    (hm : lastReport c.kChooseMaintenance (sinceReset c (calls ++ [x])) = some (some m))
    (hw : lastReport c.kChooseFullWake (sinceReset c (calls ++ [x])) = some (some w))
    (hdate : x.answers.dateCreated = true) :
    (_pm_scheduledevent_choose_best_wake_event c x.answers x.selector x.chosenTime
        (chooseRun c calls ChooseState.init)).scheduled =
      (if m = 0 ∧ w = 0 then none
       else if m = 0 ∨ (w ≠ 0 ∧ w ≤ m) then
         some (WakeType.kIOPMAutoWakeScheduleImmediate, some w)
       else some (WakeType.kIOPMMaintenanceScheduleImmediate, some m)) ∧
    (∀ ty t,
      (_pm_scheduledevent_choose_best_wake_event c x.answers x.selector x.chosenTime
        (chooseRun c calls ChooseState.init)).scheduled = some (ty, t) →
      ∃ v, t = some v ∧ v ≠ 0 ∧ (v = m ∨ v = w) ∧ (m ≠ 0 → v ≤ m) ∧ (w ≠ 0 → v ≤ w)) := by
  have hinv := statics_invariant c hsel (calls ++ [x]) ChooseState.init [] rfl rfl rfl rfl
  have hrun : chooseRun c (calls ++ [x]) ChooseState.init =
      _pm_scheduledevent_choose_best_wake_event.update c x.selector x.chosenTime
        (chooseRun c calls ChooseState.init) := by
    unfold chooseRun
    rw [List.foldl_append, List.foldl_cons, List.foldl_nil, choose_state]
  change _ = (lastReport c.kChooseMaintenance (sinceReset c (calls ++ [x]))).isSome ∧
    _ = (lastReport c.kChooseMaintenance (sinceReset c (calls ++ [x]))).getD (some 0) ∧
    _ = (lastReport c.kChooseFullWake (sinceReset c (calls ++ [x]))).isSome ∧
    _ = (lastReport c.kChooseFullWake (sinceReset c (calls ++ [x]))).getD (some 0) at hinv
  rw [hrun, hm, hw] at hinv
  obtain ⟨hpm, hmt, hauto, hwt⟩ := hinv
  have hst : _pm_scheduledevent_choose_best_wake_event.update c x.selector x.chosenTime
      (chooseRun c calls ChooseState.init) =
      { chosenMaintTime := some m, chosenWakeTime := some w
        PMConnectionReported := true, AutoWakeReported := true } := by
    generalize _pm_scheduledevent_choose_best_wake_event.update c x.selector x.chosenTime
      (chooseRun c calls ChooseState.init) = u at hpm hauto hmt hwt
    cases u
    simp only [Option.isSome_some, Option.getD_some] at hpm hauto hmt hwt
    rw [hpm, hauto, hmt, hwt]
  have hsched : (_pm_scheduledevent_choose_best_wake_event c x.answers x.selector x.chosenTime
      (chooseRun c calls ChooseState.init)).scheduled =
      (if m = 0 ∧ w = 0 then none
       else if m = 0 ∨ (w ≠ 0 ∧ w ≤ m) then
         some (WakeType.kIOPMAutoWakeScheduleImmediate, some w)
       else some (WakeType.kIOPMMaintenanceScheduleImmediate, some m)) := by
    unfold _pm_scheduledevent_choose_best_wake_event
    rw [hst]
    exact schedule_numbers x.answers m w hdate
  refine ⟨hsched, ?_⟩
  intro ty t hs
  rw [hsched] at hs
  split_ifs at hs with h1 h2
  · simp only [Option.some.injEq, Prod.mk.injEq] at hs
    obtain ⟨_, rfl⟩ := hs
    refine ⟨w, rfl, ?_, Or.inr rfl, ?_, fun _ => le_refl _⟩
    · intro hw0
      rcases h2 with h2 | h2
      · exact h1 ⟨h2, hw0⟩
      · exact h2.1 hw0
    · intro hm0
      rcases h2 with h2 | h2
      · exact absurd h2 hm0
      · exact h2.2
  · simp only [Option.some.injEq, Prod.mk.injEq] at hs
    obtain ⟨_, rfl⟩ := hs
    have hm0 : m ≠ 0 := fun h => h2 (Or.inl h)
    refine ⟨m, rfl, hm0, Or.inl rfl, fun _ => le_refl _, ?_⟩
    intro hw0
    by_contra hle
    exact h2 (Or.inr ⟨hw0, le_of_lt (lt_of_not_ge hle)⟩)

/-- C30, run on integer times with selectors 3, 1, 2, on the history: full
wake at 3, reset, maintenance at 10, and then the call that reports a full
wake at 5.  The full wake is scheduled at 5. -/
theorem C30_arbiter_choice_witness :
    (_pm_scheduledevent_choose_best_wake_event
        { kChooseReset := 3, kChooseMaintenance := 1, kChooseFullWake := 2 }
        { dateCreated := true, scheduleStatus := kIOReturnSuccess } 2 (some (5 : Int))
        (chooseRun { kChooseReset := 3, kChooseMaintenance := 1, kChooseFullWake := 2 }
          [⟨2, some 3, { dateCreated := true, scheduleStatus := kIOReturnSuccess }⟩,
           ⟨3, some 0, { dateCreated := true, scheduleStatus := kIOReturnSuccess }⟩,
           ⟨1, some 10, { dateCreated := true, scheduleStatus := kIOReturnSuccess }⟩]
          ChooseState.init)).scheduled =
      some (WakeType.kIOPMAutoWakeScheduleImmediate, some 5) ∧
    (∀ ty t,
      (_pm_scheduledevent_choose_best_wake_event
        { kChooseReset := 3, kChooseMaintenance := 1, kChooseFullWake := 2 }
        { dateCreated := true, scheduleStatus := kIOReturnSuccess } 2 (some (5 : Int))
        (chooseRun { kChooseReset := 3, kChooseMaintenance := 1, kChooseFullWake := 2 }
          [⟨2, some 3, { dateCreated := true, scheduleStatus := kIOReturnSuccess }⟩,
           ⟨3, some 0, { dateCreated := true, scheduleStatus := kIOReturnSuccess }⟩,
           ⟨1, some 10, { dateCreated := true, scheduleStatus := kIOReturnSuccess }⟩]
          ChooseState.init)).scheduled = some (ty, t) →
      ∃ v, t = some v ∧ v ≠ 0 ∧ (v = 10 ∨ v = 5) ∧ ((10 : Int) ≠ 0 → v ≤ 10) ∧
        ((5 : Int) ≠ 0 → v ≤ 5)) :=
  ⟨(C30_arbiter_choice { kChooseReset := 3, kChooseMaintenance := 1, kChooseFullWake := 2 }
      [⟨2, some 3, { dateCreated := true, scheduleStatus := kIOReturnSuccess }⟩,
       ⟨3, some 0, { dateCreated := true, scheduleStatus := kIOReturnSuccess }⟩,
       ⟨1, some 10, { dateCreated := true, scheduleStatus := kIOReturnSuccess }⟩]
      ⟨2, some (5 : Int), { dateCreated := true, scheduleStatus := kIOReturnSuccess }⟩ 10 5
      (by decide) rfl rfl rfl).1.trans (by decide),
   (C30_arbiter_choice { kChooseReset := 3, kChooseMaintenance := 1, kChooseFullWake := 2 }
      [⟨2, some 3, { dateCreated := true, scheduleStatus := kIOReturnSuccess }⟩,
       ⟨3, some 0, { dateCreated := true, scheduleStatus := kIOReturnSuccess }⟩,
       ⟨1, some 10, { dateCreated := true, scheduleStatus := kIOReturnSuccess }⟩]
      ⟨2, some (5 : Int), { dateCreated := true, scheduleStatus := kIOReturnSuccess }⟩ 10 5
      (by decide) rfl rfl rfl).2⟩

/-- C30 as stated fails, on integer times with selectors 3, 1, 2.  After a
maintenance report of 10, a full-wake report of 5 during which
`CFDateCreate` returns no date schedules nothing, though the two times are
not both 0.  After a maintenance report that is a NaN, a full-wake report of
5 schedules nothing, and a full-wake report of 0 schedules the maintenance
wake at the NaN. -/
theorem C30_arbiter_counterexample :
    (lastReport 1 (sinceReset { kChooseReset := 3, kChooseMaintenance := 1, kChooseFullWake := 2 }
        [⟨1, some (10 : Int), { dateCreated := true, scheduleStatus := kIOReturnSuccess }⟩,
         ⟨2, some 5, { dateCreated := false, scheduleStatus := kIOReturnSuccess }⟩])
        = some (some 10) ∧
     lastReport 2 (sinceReset { kChooseReset := 3, kChooseMaintenance := 1, kChooseFullWake := 2 }
        [⟨1, some (10 : Int), { dateCreated := true, scheduleStatus := kIOReturnSuccess }⟩,
         ⟨2, some 5, { dateCreated := false, scheduleStatus := kIOReturnSuccess }⟩])
        = some (some 5) ∧
     (_pm_scheduledevent_choose_best_wake_event
        { kChooseReset := 3, kChooseMaintenance := 1, kChooseFullWake := 2 }
        { dateCreated := false, scheduleStatus := kIOReturnSuccess } 2 (some (5 : Int))
        (chooseRun { kChooseReset := 3, kChooseMaintenance := 1, kChooseFullWake := 2 }
          [⟨1, some 10, { dateCreated := true, scheduleStatus := kIOReturnSuccess }⟩]
          ChooseState.init)).scheduled = none) ∧
    (lastReport 1 (sinceReset { kChooseReset := 3, kChooseMaintenance := 1, kChooseFullWake := 2 }
        [⟨1, (none : CFAbsoluteTime Int), { dateCreated := true, scheduleStatus := kIOReturnSuccess }⟩,
         ⟨2, some 5, { dateCreated := true, scheduleStatus := kIOReturnSuccess }⟩])
        = some none ∧
     (_pm_scheduledevent_choose_best_wake_event
        { kChooseReset := 3, kChooseMaintenance := 1, kChooseFullWake := 2 }
        { dateCreated := true, scheduleStatus := kIOReturnSuccess } 2 (some (5 : Int))
        (chooseRun { kChooseReset := 3, kChooseMaintenance := 1, kChooseFullWake := 2 }
          [⟨1, none, { dateCreated := true, scheduleStatus := kIOReturnSuccess }⟩]
          ChooseState.init)).scheduled = none) ∧
    (_pm_scheduledevent_choose_best_wake_event
        { kChooseReset := 3, kChooseMaintenance := 1, kChooseFullWake := 2 }
        { dateCreated := true, scheduleStatus := kIOReturnSuccess } 2 (some (0 : Int))
        (chooseRun { kChooseReset := 3, kChooseMaintenance := 1, kChooseFullWake := 2 }
          [⟨1, none, { dateCreated := true, scheduleStatus := kIOReturnSuccess }⟩]
          ChooseState.init)).scheduled =
      some (WakeType.kIOPMMaintenanceScheduleImmediate, none) := by
  refine ⟨⟨?_, ?_, ?_⟩, ⟨?_, ?_⟩, ?_⟩ <;> decide

end PrivateLib
